import Mathlib

/-!
# Cognitive Shield (phenix_phantom): clock synchroniser, quantum task and collaborators

A shallow embedding of `main/tdoa_sync.{h,cpp}`, of the quantum task of
`main/app_main.cpp`, of the parts of `main/haptic_controller.{h,cpp}` and
`main/ble_quantum_service.{h,cpp}` it calls and of
`main/audio_processor.{h,cpp}`, followed by theorems about them.

Conventions of the embedding:

* `uint32_t`, `uint8_t` values are natural numbers; every place where the C++
  code truncates (a store into a `uint8_t`, a cast to `uint32_t`) carries an
  explicit `%` or mask.
* `int32_t`, `int16_t` values are integers; conversions wrap in two's
  complement (`toInt32`, `wrapInt32`, `toInt16`).
* `float` and `double` values are rational numbers. Where the result stays a
  floating-point value their arithmetic is exact. Where a `float` result is
  converted to an integer (the fixed-point fields of the telemetry payload, the
  PWM byte of the haptic driver) every `float` operation that feeds the
  conversion rounds to IEEE 754 binary32, round to nearest, ties to even
  (`f32`), each operation on its own, as the C++ expressions are written.
* A `uint8_t*` buffer is a map from index to byte.
* Constants whose header is not part of the sources (`OR_MAX_NODES`,
  `MSG_TYPE_SYNC`, `MSG_TYPE_QUANTUM`), clock readings
  (`esp_timer_get_time()`, `millis()`), the codes returned by ESP-IDF drivers
  and the functions of the C math library are explicit parameters.
-/

namespace PhenixPhantom

/-! ## tdoa_sync.h -/

/-- Capacity of the chirp buffer (`#define TDOA_MAX_CHIRPS 32`). -/
def TDOA_MAX_CHIRPS : Nat := 32

/-- Target precision in microseconds (`#define TDOA_SYNC_PRECISION_US 1000`). -/
def TDOA_SYNC_PRECISION_US : Nat := 1000

/-- Chirp timestamp from the LoRa receiver (`struct ChirpTimestamp`). -/
structure ChirpTimestamp where
  node_id : Nat
  local_timestamp_us : Nat
  remote_timestamp_us : Nat
  signal_strength_dbm : ℚ
  sequence_number : Nat
  deriving DecidableEq

/-- Private members of `class TDOASync`. The array `node_offsets[OR_MAX_NODES]`
is a map from index to value; only indices below `OR_MAX_NODES` are used. -/
structure TDOASync where
  recent_chirps : List ChirpTimestamp
  node_offsets : Nat → ℚ
  last_sync_time_ms : Nat
  sync_precision_us : ℚ

/-- A byte buffer addressed through a `uint8_t*`. -/
abbrev Buffer := Nat → Nat

/-! ## tdoa_sync.cpp -/

/-- Constructor `TDOASync::TDOASync()`. -/
def TDOASync.new : TDOASync where
  recent_chirps := []
  node_offsets := fun _ => 0
  last_sync_time_ms := 0
  sync_precision_us := ((TDOA_SYNC_PRECISION_US * 10 : Nat) : ℚ)

/-- The vector operation of `add_chirp_timestamp`: `push_back`, then erase the
first element when the size exceeds `TDOA_MAX_CHIRPS`. -/
def push_chirp (chirps : List ChirpTimestamp) (chirp : ChirpTimestamp) :
    List ChirpTimestamp :=
  let pushed := chirps ++ [chirp]
  if pushed.length > TDOA_MAX_CHIRPS then pushed.tail else pushed

/-- Method `TDOASync::add_chirp_timestamp`. -/
def TDOASync.add_chirp_timestamp (self : TDOASync) (chirp : ChirpTimestamp) : TDOASync :=
  { self with recent_chirps := push_chirp self.recent_chirps chirp }

/-- Cast `(uint32_t)node` of an `int` node index. -/
def toUInt32 (node : Int) : Nat := (node % 4294967296).toNat

/-- Cast `(int32_t)x` of a `uint32_t` value. -/
def toInt32 (x : Nat) : Int :=
  if x % 4294967296 < 2147483648 then ((x % 4294967296 : Nat) : Int)
  else ((x % 4294967296 : Nat) : Int) - 4294967296

/-- Two's-complement wrap of an integer into the `int32_t` range. -/
def wrapInt32 (z : Int) : Int := (z + 2147483648) % 4294967296 - 2147483648

/-- Inner loop of `calculate_offset`: scan the buffer for the first chirp of
`node_b` whose sequence number equals that of `chirp_a`, then `break`. -/
def find_common (chirp_a : ChirpTimestamp) (node_b : Nat) :
    List ChirpTimestamp → Option (ChirpTimestamp × ChirpTimestamp)
  | [] => none
  | chirp_b :: rest =>
    if chirp_b.node_id ≠ node_b then find_common chirp_a node_b rest
    else if chirp_a.sequence_number = chirp_b.sequence_number then some (chirp_a, chirp_b)
    else find_common chirp_a node_b rest

/-- Outer loop of `calculate_offset` over the chirps `todo` still to visit;
`all` is the whole buffer scanned by the inner loop. -/
def collect_common (all : List ChirpTimestamp) (node_a node_b : Nat) :
    List ChirpTimestamp → List (ChirpTimestamp × ChirpTimestamp)
  | [] => []
  | chirp_a :: rest =>
    if chirp_a.node_id ≠ node_a then collect_common all node_a node_b rest
    else
      match find_common chirp_a node_b all with
      | some pair => pair :: collect_common all node_a node_b rest
      | none => collect_common all node_a node_b rest

/-- The vector `common_chirps` built by `calculate_offset`. -/
def common_chirps (chirps : List ChirpTimestamp) (node_a node_b : Int) :
    List (ChirpTimestamp × ChirpTimestamp) :=
  collect_common chirps (toUInt32 node_a) (toUInt32 node_b) chirps

/-- The `int32_t time_diff` of one pair:
`(int32_t)chirp_a.local_timestamp_us - (int32_t)chirp_b.local_timestamp_us`. -/
def time_diff (pair : ChirpTimestamp × ChirpTimestamp) : Int :=
  wrapInt32 (toInt32 pair.1.local_timestamp_us - toInt32 pair.2.local_timestamp_us)

/-- The accumulation loop `total_offset += time_diff`. -/
def total_offset (pairs : List (ChirpTimestamp × ChirpTimestamp)) : ℚ :=
  pairs.foldl (fun total pair => total + (time_diff pair : ℚ)) 0

/-- Method `TDOASync::calculate_offset` on the chirp buffer. -/
def calculate_offset (chirps : List ChirpTimestamp) (node_a node_b : Int) : ℚ :=
  let common := common_chirps chirps node_a node_b
  if common.isEmpty then 0
  else total_offset common / (common.length : ℚ)

/-- Method `TDOASync::calculate_offset`. -/
def TDOASync.calculate_offset (self : TDOASync) (node_a node_b : Int) : ℚ :=
  PhenixPhantom.calculate_offset self.recent_chirps node_a node_b

/-- Body of the inner loop of `synchronize_mesh` for the node pair `(i, j)`. -/
def sync_pair (chirps : List ChirpTimestamp) (i : Nat) (offsets : Nat → ℚ) (j : Nat) :
    Nat → ℚ :=
  let offset := calculate_offset chirps (i : Int) (j : Int)
  if offset ≠ 0 then
    Function.update (Function.update offsets i (offset / 2)) j (-offset / 2)
  else offsets

/-- Inner loop `for (int j = i + 1; j < OR_MAX_NODES; j++)`. -/
def sync_row (chirps : List ChirpTimestamp) (OR_MAX_NODES : Nat) (offsets : Nat → ℚ)
    (i : Nat) : Nat → ℚ :=
  (List.range' (i + 1) (OR_MAX_NODES - (i + 1))).foldl (sync_pair chirps i) offsets

/-- Outer loop `for (int i = 0; i < OR_MAX_NODES; i++)` over the node pairs. -/
def sync_offsets (chirps : List ChirpTimestamp) (OR_MAX_NODES : Nat) (offsets : Nat → ℚ) :
    Nat → ℚ :=
  (List.range OR_MAX_NODES).foldl (sync_row chirps OR_MAX_NODES) offsets

/-- Body of the precision loop: the running pair
`(sync_precision_us, valid_offsets)` after visiting node `i`. -/
def precision_step (offsets : Nat → ℚ) (acc : ℚ × Nat) (i : Nat) : ℚ × Nat :=
  if offsets i ≠ 0 then (acc.1 + |offsets i|, acc.2 + 1) else acc

/-- The precision loop of `synchronize_mesh`, started from `(0.0, 0)`. -/
def precision_loop (OR_MAX_NODES : Nat) (offsets : Nat → ℚ) : ℚ × Nat :=
  (List.range OR_MAX_NODES).foldl (precision_step offsets) (0, 0)

/-- Method `TDOASync::synchronize_mesh`; `now_us` is the value returned by
`esp_timer_get_time()`. -/
def TDOASync.synchronize_mesh (OR_MAX_NODES : Nat) (now_us : Nat) (self : TDOASync) :
    TDOASync :=
  let offsets := sync_offsets self.recent_chirps OR_MAX_NODES self.node_offsets
  let acc := precision_loop OR_MAX_NODES offsets
  { recent_chirps := self.recent_chirps
    node_offsets := offsets
    last_sync_time_ms := (now_us / 1000) % 4294967296
    sync_precision_us :=
      if acc.2 > 0 then acc.1 / (acc.2 : ℚ) else ((TDOA_SYNC_PRECISION_US * 10 : Nat) : ℚ) }

/-- Method `TDOASync::get_sync_precision_us`. -/
def TDOASync.get_sync_precision_us (self : TDOASync) : ℚ := self.sync_precision_us

/-- Method `TDOASync::is_synchronized`. -/
def TDOASync.is_synchronized (self : TDOASync) : Bool :=
  decide (self.sync_precision_us ≤ (TDOA_SYNC_PRECISION_US : ℚ))

/-- A store `buffer[i] = v` into a `uint8_t` cell. -/
def store (buffer : Buffer) (i : Nat) (v : Nat) : Buffer :=
  Function.update buffer i (v % 256)

/-- Method `TDOASync::generate_sync_chirp`: the buffer after the call and the
value written to `length`. `now_us` is the value of `esp_timer_get_time()`. -/
def generate_sync_chirp (MSG_TYPE_SYNC : Nat) (now_us : Nat) (buffer : Buffer)
    (sequence_num : Nat) : Buffer × Nat :=
  let b := store buffer 0 MSG_TYPE_SYNC
  let b := store b 1 12
  let b := store b 2 (sequence_num &&& 0xFF)
  let b := store b 3 ((sequence_num >>> 8) &&& 0xFF)
  let b := store b 4 ((sequence_num >>> 16) &&& 0xFF)
  let b := store b 5 ((sequence_num >>> 24) &&& 0xFF)
  let timestamp := now_us % 4294967296
  let b := store b 6 (timestamp &&& 0xFF)
  let b := store b 7 ((timestamp >>> 8) &&& 0xFF)
  let b := store b 8 ((timestamp >>> 16) &&& 0xFF)
  let b := store b 9 ((timestamp >>> 24) &&& 0xFF)
  let b := store b 10 0
  let b := store b 11 0
  let b := store b 12 0
  let b := store b 13 0
  (b, 14)

/-- The 32-bit little-endian read
`buffer[k] | (buffer[k+1] << 8) | (buffer[k+2] << 16) | (buffer[k+3] << 24)`
assigned to a `uint32_t`. -/
def read_u32 (buffer : Buffer) (k : Nat) : Nat :=
  (buffer k ||| (buffer (k + 1) <<< 8) ||| (buffer (k + 2) <<< 16) |||
    (buffer (k + 3) <<< 24)) % 4294967296

/-- The `ChirpTimestamp` that `process_sync_chirp` fills in from a packet. -/
def parse_sync_chirp (buffer : Buffer) (local_timestamp_us : Nat) : ChirpTimestamp where
  sequence_number := read_u32 buffer 2
  remote_timestamp_us := read_u32 buffer 6
  local_timestamp_us := local_timestamp_us
  signal_strength_dbm := -50
  node_id := 0

/-- Method `TDOASync::process_sync_chirp`. -/
def TDOASync.process_sync_chirp (MSG_TYPE_SYNC : Nat) (self : TDOASync) (buffer : Buffer)
    (length : Nat) (local_timestamp_us : Nat) : TDOASync :=
  if length < 14 ∨ buffer 0 ≠ MSG_TYPE_SYNC then self
  else self.add_chirp_timestamp (parse_sync_chirp buffer local_timestamp_us)

/-- A sample chirp used to instantiate theorems on concrete buffers. -/
def sample_chirp (k : Nat) : ChirpTimestamp where
  node_id := k % 4
  local_timestamp_us := 1000 * k
  remote_timestamp_us := 1000 * k + 7
  signal_strength_dbm := -50
  sequence_number := k

/-- Following the words of the specification of `calculate_offset`: all pairs
`(ca, cb)` of buffered chirps with `ca.node_id = a`, `cb.node_id = b` and equal
sequence numbers. -/
def all_matching_pairs (chirps : List ChirpTimestamp) (node_a node_b : Int) :
    List (ChirpTimestamp × ChirpTimestamp) :=
  chirps.flatMap (fun ca =>
    (chirps.filter (fun cb =>
        decide (ca.node_id = toUInt32 node_a ∧ cb.node_id = toUInt32 node_b
          ∧ ca.sequence_number = cb.sequence_number))).map (fun cb => (ca, cb)))

/-- Following the words of the specification: the arithmetic mean of
`ca.local_timestamp_us - cb.local_timestamp_us` over all matching pairs. -/
def mean_over_all_pairs (chirps : List ChirpTimestamp) (node_a node_b : Int) : ℚ :=
  (((all_matching_pairs chirps node_a node_b).map
      (fun p => (p.1.local_timestamp_us : ℚ) - (p.2.local_timestamp_us : ℚ))).sum)
    / ((all_matching_pairs chirps node_a node_b).length : ℚ)

/-- The pairs `(ca, cb)` where `ca` runs over the buffered chirps of node `a`
that have a partner and `cb` is the first buffered chirp of node `b` with the
sequence number of `ca`. -/
def first_matching_pairs (chirps : List ChirpTimestamp) (node_a node_b : Int) :
    List (ChirpTimestamp × ChirpTimestamp) :=
  chirps.filterMap (fun ca =>
    if ca.node_id = toUInt32 node_a then
      (chirps.find? (fun cb =>
        decide (cb.node_id = toUInt32 node_b
          ∧ ca.sequence_number = cb.sequence_number))).map (fun cb => (ca, cb))
    else none)

/-- A buffer in which two chirps of node 1 carry the sequence number of the
single chirp of node 0. -/
def duplicate_seq_buffer : List ChirpTimestamp :=
  [ { node_id := 0, local_timestamp_us := 10, remote_timestamp_us := 0,
      signal_strength_dbm := -50, sequence_number := 1 },
    { node_id := 1, local_timestamp_us := 0, remote_timestamp_us := 0,
      signal_strength_dbm := -50, sequence_number := 1 },
    { node_id := 1, local_timestamp_us := 4, remote_timestamp_us := 0,
      signal_strength_dbm := -50, sequence_number := 1 } ]

/-- A reachable two-node scenario: a fresh `TDOASync` that received one chirp
of node 0 (local time 10) and one chirp of node 1 (local time 0) with the same
sequence number. -/
def two_node_state : TDOASync :=
  (TDOASync.new.add_chirp_timestamp
      { node_id := 0, local_timestamp_us := 10, remote_timestamp_us := 0,
        signal_strength_dbm := -50, sequence_number := 1 }).add_chirp_timestamp
      { node_id := 1, local_timestamp_us := 0, remote_timestamp_us := 0,
        signal_strength_dbm := -50, sequence_number := 1 }

/-- The nodes below `OR_MAX_NODES` whose offset is non-zero, as a list of their
offsets. -/
def nonzero_offsets (OR_MAX_NODES : Nat) (offsets : Nat → ℚ) : List ℚ :=
  ((List.range OR_MAX_NODES).map offsets).filter (fun x => decide (x ≠ 0))

/-- The public operations of `TDOASync`, with their arguments. -/
inductive TDOAOp where
  | add_chirp_timestamp (chirp : ChirpTimestamp)
  | process_sync_chirp (buffer : Buffer) (length : Nat) (local_timestamp_us : Nat)
  | calculate_offset (node_a node_b : Int)
  | synchronize_mesh (now_us : Nat)
  | generate_sync_chirp (now_us : Nat) (buffer : Buffer) (sequence_num : Nat)

/-- The effect of one operation on the members of `TDOASync`;
`calculate_offset` and `generate_sync_chirp` write no member. -/
def TDOASync.step (MSG_TYPE_SYNC OR_MAX_NODES : Nat) (self : TDOASync) : TDOAOp → TDOASync
  | .add_chirp_timestamp chirp => self.add_chirp_timestamp chirp
  | .process_sync_chirp buffer length local_timestamp_us =>
    self.process_sync_chirp MSG_TYPE_SYNC buffer length local_timestamp_us
  | .calculate_offset _ _ => self
  | .synchronize_mesh now_us => self.synchronize_mesh OR_MAX_NODES now_us
  | .generate_sync_chirp _ _ _ => self

/-! ## app_main.cpp: telemetry of `run_protocol_step` -/

/-- Modelled from the spec: the result type of `protocol_step`, declared in
`sic_povm.h`, which is not part of the sources. Only the entries 0..3 of
`sic_outcomes` are used. -/
structure ProtocolResult where
  success : Bool
  key_bit : Nat
  sic_outcomes : Nat → ℚ
  corrected_purity : ℚ
  attack_detected : Bool
  drift_angle : ℚ
  autopoiesis_applied : Bool

/-- The static `protocol_state` of `app_main.cpp`. -/
structure ProtocolState where
  key_bits_generated : Nat
  avg_purity : ℚ
  session_id : Nat
  attacks_detected : Nat
  is_operational : Bool

/-- Initial value of `protocol_state`. -/
def ProtocolState.init : ProtocolState where
  key_bits_generated := 0
  avg_purity := 1
  session_id := 0
  attacks_detected := 0
  is_operational := false

/-- One call `mesh_broadcast(msg_type, payload, len)`. -/
structure Broadcast where
  msg_type : Nat
  payload : Buffer
  len : Nat

/-- Rounding of a rational to the nearest integer, ties to the even integer:
the rounding of a significand in the default IEEE 754 rounding mode. -/
def round_half_even (m : ℚ) : Int :=
  if m - ⌊m⌋ < 1 / 2 then ⌊m⌋
  else if 1 / 2 < m - ⌊m⌋ then ⌊m⌋ + 1
  else if ⌊m⌋ % 2 = 0 then ⌊m⌋ else ⌊m⌋ + 1

/-- Exponent of the binary32 binade of a positive value: `floor (log2 x)`, and
-126 (the exponent of the subnormal numbers) when that is smaller. -/
def f32_exponent (x : ℚ) : Int := max (Int.log 2 x) (-126)

/-- Rounding of a positive rational to binary32: the 24-bit significand
`x / 2 ^ (e - 23)` is rounded to the nearest integer, ties to even. -/
def f32_round_pos (x : ℚ) : ℚ :=
  round_half_even (x / 2 ^ (f32_exponent x - 23)) * 2 ^ (f32_exponent x - 23)

/-- The `float` (IEEE 754 binary32) value nearest to a rational, ties to even:
the result of a single-precision operation whose exact result is `x`, and the
value of a literal such as `0.1f`. Overflow to infinity is not modelled (the
exponent has no upper limit); the values rounded here stay below 2 ^ 24. -/
def f32 (x : ℚ) : ℚ :=
  if x = 0 then 0 else if 0 < x then f32_round_pos x else - f32_round_pos (-x)

/-- Conversion of a floating-point value to an integer type: truncation toward
zero. -/
def truncToInt (q : ℚ) : Int := if 0 ≤ q then ⌊q⌋ else ⌈q⌉

/-- Wrap of an integer into the `int16_t` range. -/
def toInt16 (z : Int) : Int := (z + 32768) % 65536 - 32768

/-- The cast `(int16_t)(x * 10000)` of a `float` `x`: the product is a
`float`, rounded to binary32, and the cast truncates it. A truncated value
outside the `int16_t` range, for which the C++ cast is undefined, wraps. -/
def fixed_point (x : ℚ) : Int := toInt16 (truncToInt (f32 (x * 10000)))

/-- The byte `fixed & 0xFF` of an `int16_t`. -/
def low_byte (fixed : Int) : Nat := (fixed % 256).toNat

/-- The byte `(fixed >> 8) & 0xFF` of an `int16_t`. -/
def high_byte (fixed : Int) : Nat := ((fixed / 256) % 256).toNat

/-- The loop `for (int i = 0; i < 4; i++)` storing the four SIC-POVM outcomes. -/
def encode_outcomes (result : ProtocolResult) (payload : Buffer) : Buffer :=
  (List.range 4).foldl (fun p i =>
    let fixed := fixed_point (result.sic_outcomes i)
    let p := store p (i * 2 + 1) (low_byte fixed)
    store p (i * 2 + 2) (high_byte fixed)) payload

/-- The 21-byte `payload` of `run_protocol_step` before the XOR loop; `millis`
is the value returned by `millis()`. -/
def build_payload (result : ProtocolResult) (millis : Nat) (session_id : Nat) : Buffer :=
  let p := store (fun _ => 0) 0 result.key_bit
  let p := encode_outcomes result p
  let ts := millis % 4294967296
  let p := store p 9 (ts &&& 0xFF)
  let p := store p 10 ((ts >>> 8) &&& 0xFF)
  let p := store p 11 ((ts >>> 16) &&& 0xFF)
  let p := store p 12 ((ts >>> 24) &&& 0xFF)
  let sid := session_id
  let p := store p 13 (sid &&& 0xFF)
  let p := store p 14 ((sid >>> 8) &&& 0xFF)
  let p := store p 15 ((sid >>> 16) &&& 0xFF)
  let p := store p 16 ((sid >>> 24) &&& 0xFF)
  let purity_fixed := fixed_point result.corrected_purity
  let p := store p 17 (low_byte purity_fixed)
  let p := store p 18 (high_byte purity_fixed)
  let p := store p 19 0
  store p 20 0

/-- The loop `payload[i] ^= ((session_id >> ((i % 4) * 8)) & 0xFF)` over the
21 bytes of the payload. -/
def obfuscate (session_id : Nat) (payload : Buffer) : Buffer :=
  (List.range 21).foldl (fun p i =>
    store p i (p i ^^^ ((session_id >>> ((i % 4) * 8)) &&& 0xFF))) payload

/-- The payload handed to `mesh_broadcast` by a successful step. -/
def quantum_payload (result : ProtocolResult) (millis : Nat) (session_id : Nat) : Buffer :=
  obfuscate session_id (build_payload result millis session_id)

/-- Function `run_protocol_step` as far as `protocol_state` and the mesh
broadcast are concerned: the new `protocol_state` and the calls of
`mesh_broadcast` made. `result` is the value returned by
`qkd_system.protocol_step(true, false)`. -/
def run_protocol_step (MSG_TYPE_QUANTUM : Nat) (result : ProtocolResult) (millis : Nat)
    (state : ProtocolState) : ProtocolState × List Broadcast :=
  let state1 :=
    if result.success then
      { state with key_bits_generated := (state.key_bits_generated + 1) % 4294967296 }
    else state
  let sent :=
    if result.success then
      [{ msg_type := MSG_TYPE_QUANTUM % 256
         payload := quantum_payload result millis state.session_id
         len := 21 : Broadcast }]
    else []
  let state2 :=
    if result.attack_detected then
      { state1 with attacks_detected := (state1.attacks_detected + 1) % 4294967296 }
    else state1
  let state3 :=
    { state2 with avg_purity := 9 / 10 * state2.avg_purity + 1 / 10 * result.corrected_purity }
  (state3, sent)

/-- Following the words of the specification: XOR-decoding, byte `i` XOR byte
`i mod 4` of `session_id`. -/
def xor_decode (session_id : Nat) (payload : Buffer) : Buffer :=
  fun i => payload i ^^^ ((session_id / 256 ^ (i % 4)) % 256)

/-- A 16-bit little-endian field at offset `k`. -/
def field_u16 (payload : Buffer) (k : Nat) : Nat := payload k + 256 * payload (k + 1)

/-- A 32-bit little-endian field at offset `k`. -/
def field_u32 (payload : Buffer) (k : Nat) : Nat :=
  payload k + 256 * payload (k + 1) + 65536 * payload (k + 2) + 16777216 * payload (k + 3)

/-- The fields read back from a decoded telemetry payload. -/
structure Telemetry where
  key_bit : Nat
  sic_fixed : Nat → Nat
  timestamp : Nat
  session_id : Nat
  purity_fixed : Nat

/-- Following the words of the specification: XOR-decode the payload with the
session id and read the little-endian fields of the 21-byte layout. -/
def decode_telemetry (session_id : Nat) (payload : Buffer) : Telemetry where
  key_bit := xor_decode session_id payload 0
  sic_fixed := fun i => field_u16 (xor_decode session_id payload) (2 * i + 1)
  timestamp := field_u32 (xor_decode session_id payload) 9
  session_id := field_u32 (xor_decode session_id payload) 13
  purity_fixed := field_u16 (xor_decode session_id payload) 17

/-- A successful result with purity 1/3. -/
def third_purity_result : ProtocolResult where
  success := true
  key_bit := 1
  sic_outcomes := fun _ => 1 / 4
  corrected_purity := 1 / 3
  attack_detected := false
  drift_angle := 0
  autopoiesis_applied := false

/-- The same result with the purity rounded down to four decimals. -/
def rounded_purity_result : ProtocolResult where
  success := true
  key_bit := 1
  sic_outcomes := fun _ => 1 / 4
  corrected_purity := 3333 / 10000
  attack_detected := false
  drift_angle := 0
  autopoiesis_applied := false

/-- A successful result whose four outcomes are the `float` 0.29f (the binary32
value 9730785 / 2 ^ 25) and whose purity is the `float` next above one half,
1/2 + 2 ^ -24. -/
def float_sample_result : ProtocolResult where
  success := true
  key_bit := 1
  sic_outcomes := fun _ => 9730785 / 33554432
  corrected_purity := 8388609 / 16777216
  attack_detected := false
  drift_angle := 0
  autopoiesis_applied := false

/-- The same result with purity one half. -/
def half_purity_result : ProtocolResult where
  success := true
  key_bit := 1
  sic_outcomes := fun _ => 9730785 / 33554432
  corrected_purity := 1 / 2
  attack_detected := false
  drift_angle := 0
  autopoiesis_applied := false

/-! ## app_main.cpp: counters, degraded flag and trust loop -/

/-- The ticks processed by `run_protocol_step`, one after the other: each tick
is the result of `protocol_step` and the value of `millis()`. -/
def run_ticks (MSG_TYPE_QUANTUM : Nat) (ticks : List (ProtocolResult × Nat))
    (state : ProtocolState) : ProtocolState :=
  ticks.foldl (fun s t => (run_protocol_step MSG_TYPE_QUANTUM t.1 t.2 s).1) state

/-- Function `init_quantum_layer` as far as `protocol_state` is concerned;
`completeness_ok` and `symmetry_ok` are the values returned by
`sic_povm.verify_completeness()` and `sic_povm.verify_symmetry()`. -/
def init_quantum_layer (completeness_ok symmetry_ok : Bool) (state : ProtocolState) :
    ProtocolState :=
  { state with is_operational := completeness_ok && symmetry_ok }

/-- Modelled from the spec: the router class `OllivierRicciRouter`, declared in
`ollivier_ricci.h`, which is not part of the sources: a number of nodes, each
with a trust value. -/
structure OllivierRicciRouter where
  node_count : Nat
  trust : Nat → ℚ

/-- Modelled from the spec: method `get_node_count` of the router. -/
def OllivierRicciRouter.get_node_count (self : OllivierRicciRouter) : Nat := self.node_count

/-- Function `update_trust_from_purity` of `app_main.cpp`: it writes a debug
log line and leaves the router it receives by reference untouched. -/
def update_trust_from_purity (router : OllivierRicciRouter) (_node_id : Int) (_purity : ℚ) :
    OllivierRicciRouter :=
  router

/-- The loop over `mesh_router.get_node_count()` at the end of
`run_protocol_step`, on the router local to the call. -/
def trust_loop (mesh_router : OllivierRicciRouter) (avg_purity : ℚ) : OllivierRicciRouter :=
  (List.range mesh_router.get_node_count).foldl
    (fun router i => update_trust_from_purity router (i : Int) avg_purity) mesh_router

/-- Following the words of the specification of `update_trust_from_purity`:
the trust of `node_id` becomes `alpha * purity + (1 - alpha) * trust`. -/
def spec_update_trust (alpha : ℚ) (router : OllivierRicciRouter) (node_id : Nat) (purity : ℚ) :
    OllivierRicciRouter :=
  { router with
    trust := Function.update router.trust node_id
      (alpha * purity + (1 - alpha) * router.trust node_id) }

/-! ## haptic_controller.h, haptic_controller.cpp -/

/-- The error code type `esp_err_t` of ESP-IDF. -/
abbrev esp_err_t := Int

/-- Value of `ESP_OK` in ESP-IDF. -/
def ESP_OK : esp_err_t := 0

/-- Value of `ESP_ERR_INVALID_STATE` in ESP-IDF. -/
def ESP_ERR_INVALID_STATE : esp_err_t := 0x103

/-- Register address (`#define HAPTIC_REG_MODE 0x01`). -/
def HAPTIC_REG_MODE : Nat := 0x01

/-- Register address (`#define HAPTIC_REG_RTP_INPUT 0x02`). -/
def HAPTIC_REG_RTP_INPUT : Nat := 0x02

/-- Register address (`#define HAPTIC_REG_FEEDBACK 0x1A`). -/
def HAPTIC_REG_FEEDBACK : Nat := 0x1A

/-- Register address (`#define HAPTIC_REG_CONTROL1 0x1B`). -/
def HAPTIC_REG_CONTROL1 : Nat := 0x1B

/-- Lower end of the mapping (`#define QBER_RESISTANCE_MIN 0.1f`). -/
def QBER_RESISTANCE_MIN : ℚ := 1 / 10

/-- Upper end of the mapping (`#define QBER_RESISTANCE_MAX 1.0f`). -/
def QBER_RESISTANCE_MAX : ℚ := 1

/-- Detent threshold (`#define QBER_STABILITY_THRESHOLD 0.05f`). -/
def QBER_STABILITY_THRESHOLD : ℚ := 5 / 100

/-- Private members of `class HapticController`. -/
structure HapticController where
  i2c_port : Nat
  current_qber : ℚ
  last_qber : ℚ
  is_stable : Bool
  is_initialized : Bool
  deriving DecidableEq

/-- One call `write_register(reg, value)`. -/
structure RegisterWrite where
  reg : Nat
  value : Nat
  deriving DecidableEq

/-- Constructor `HapticController::HapticController()`; `I2C_NUM_0` is 0. -/
def HapticController.new : HapticController where
  i2c_port := 0
  current_qber := 0
  last_qber := 0
  is_stable := false
  is_initialized := false

/-- Method `HapticController::init`. The arguments `config_ret`, `install_ret`
are the values returned by `i2c_param_config` and `i2c_driver_install`, and
`w1`, `w2`, `w3` those of the three `write_register` calls. -/
def HapticController.init (config_ret install_ret w1 w2 w3 : esp_err_t)
    (self : HapticController) (port : Nat) :
    esp_err_t × HapticController × List RegisterWrite :=
  let self := { self with i2c_port := port }
  if config_ret ≠ ESP_OK then (config_ret, self, [])
  else if install_ret ≠ ESP_OK then (install_ret, self, [])
  else if w1 ≠ ESP_OK then (w1, self, [⟨HAPTIC_REG_MODE, 0x03⟩])
  else if w2 ≠ ESP_OK then
    (w2, self, [⟨HAPTIC_REG_MODE, 0x03⟩, ⟨HAPTIC_REG_FEEDBACK, 0xB6⟩])
  else if w3 ≠ ESP_OK then
    (w3, self,
      [⟨HAPTIC_REG_MODE, 0x03⟩, ⟨HAPTIC_REG_FEEDBACK, 0xB6⟩, ⟨HAPTIC_REG_CONTROL1, 0x93⟩])
  else
    (ESP_OK, { self with is_initialized := true },
      [⟨HAPTIC_REG_MODE, 0x03⟩, ⟨HAPTIC_REG_FEEDBACK, 0xB6⟩, ⟨HAPTIC_REG_CONTROL1, 0x93⟩])

/-- The `float` expression
`QBER_RESISTANCE_MIN + (QBER_RESISTANCE_MAX - QBER_RESISTANCE_MIN) * current_qber`
of `update_resistance_from_qber`: the literals `0.1f` and `1.0f` are the
binary32 values nearest to 1/10 and 1, and the difference, the product and the
sum each round to binary32. -/
def resistance_factor_f32 (current_qber : ℚ) : ℚ :=
  f32 (f32 QBER_RESISTANCE_MIN
    + f32 (f32 (f32 QBER_RESISTANCE_MAX - f32 QBER_RESISTANCE_MIN) * current_qber))

/-- The cast `(uint8_t)(resistance_factor * 255.0f)`: the product is a `float`,
rounded to binary32, and the cast truncates it. A truncated value outside the
`uint8_t` range, for which the C++ cast is undefined, wraps. -/
def pwm_of_factor (resistance_factor : ℚ) : Nat :=
  (truncToInt (f32 (resistance_factor * 255)) % 256).toNat

/-- Method `HapticController::update_resistance_from_qber`: the returned code,
the controller afterwards and the register writes issued. `write_ret` is the
value returned by `write_register`. -/
def HapticController.update_resistance_from_qber (write_ret : esp_err_t)
    (self : HapticController) (qber : ℚ) :
    esp_err_t × HapticController × List RegisterWrite :=
  if !self.is_initialized then (ESP_ERR_INVALID_STATE, self, [])
  else
    let self1 := { self with current_qber := qber }
    let qber_change := |self1.current_qber - self1.last_qber|
    let self2 := { self1 with is_stable := decide (qber_change < QBER_STABILITY_THRESHOLD) }
    let self3 := { self2 with last_qber := self2.current_qber }
    let resistance_factor := resistance_factor_f32 self3.current_qber
    let pwm_value := pwm_of_factor resistance_factor
    let ret := write_ret
    if ret ≠ ESP_OK then (ret, self3, [⟨HAPTIC_REG_RTP_INPUT, pwm_value⟩])
    else (ESP_OK, self3, [⟨HAPTIC_REG_RTP_INPUT, pwm_value⟩])

/-- Method `HapticController::get_resistance_level`. -/
def HapticController.get_resistance_level (self : HapticController) : ℚ :=
  QBER_RESISTANCE_MIN + (QBER_RESISTANCE_MAX - QBER_RESISTANCE_MIN) * self.current_qber

/-- Method `HapticController::is_quantum_stable`. -/
def HapticController.is_quantum_stable (self : HapticController) : Bool := self.is_stable

/-- The loop of `test_haptic_controller`: the resistance level read after each
`update_resistance_from_qber` on one controller. -/
def haptic_test_levels (write_ret : esp_err_t) :
    HapticController → List ℚ → List ℚ
  | _, [] => []
  | controller, qber :: rest =>
    let after := (controller.update_resistance_from_qber write_ret qber).2.1
    after.get_resistance_level :: haptic_test_levels write_ret after rest

/-! ## ble_quantum_service.h, ble_quantum_service.cpp -/

/-- Quantum metrics structure (`struct QuantumMetrics`). -/
structure QuantumMetrics where
  qber : ℚ
  purity : ℚ
  attack_detected : Bool
  key_rate : Nat
  timestamp : Nat
  deriving DecidableEq

/-- Value of `ESP_GATT_IF_NONE` in ESP-IDF. -/
def ESP_GATT_IF_NONE : Nat := 0xff

/-- Private members of `class BLEQuantumService`. -/
structure BLEQuantumService where
  gatts_if : Nat
  conn_id : Nat
  connected : Bool
  advertising : Bool
  service_handle : Nat
  qber_char_handle : Nat
  purity_char_handle : Nat
  attack_char_handle : Nat
  key_rate_char_handle : Nat
  current_metrics : QuantumMetrics
  deriving DecidableEq

/-- The value passed to `esp_ble_gatts_set_attr_value`. -/
inductive AttrValue where
  | float (x : ℚ)
  | bool (b : Bool)
  | uint32 (n : Nat)
  deriving DecidableEq

/-- One call `esp_ble_gatts_set_attr_value(handle, length, value)`. -/
structure AttrWrite where
  handle : Nat
  length : Nat
  value : AttrValue
  deriving DecidableEq

/-- Constructor `BLEQuantumService::BLEQuantumService()`. -/
def BLEQuantumService.new : BLEQuantumService where
  gatts_if := ESP_GATT_IF_NONE
  conn_id := 0
  connected := false
  advertising := false
  service_handle := 0
  qber_char_handle := 0
  purity_char_handle := 0
  attack_char_handle := 0
  key_rate_char_handle := 0
  current_metrics :=
    { qber := 0, purity := 0, attack_detected := false, key_rate := 0, timestamp := 0 }

/-- Method `BLEQuantumService::update_metrics`: the returned code, the service
afterwards and the attribute values set. -/
def BLEQuantumService.update_metrics (self : BLEQuantumService) (metrics : QuantumMetrics) :
    esp_err_t × BLEQuantumService × List AttrWrite :=
  let self1 := { self with current_metrics := metrics }
  if !self1.connected || self1.gatts_if == ESP_GATT_IF_NONE then
    (ESP_ERR_INVALID_STATE, self1, [])
  else
    (ESP_OK, self1,
      [⟨self1.qber_char_handle, 4, .float metrics.qber⟩,
       ⟨self1.purity_char_handle, 4, .float metrics.purity⟩,
       ⟨self1.attack_char_handle, 1, .bool metrics.attack_detected⟩,
       ⟨self1.key_rate_char_handle, 4, .uint32 metrics.key_rate⟩])

/-- Method `BLEQuantumService::get_current_metrics`. -/
def BLEQuantumService.get_current_metrics (self : BLEQuantumService) : QuantumMetrics :=
  self.current_metrics

/-- Method `BLEQuantumService::is_connected`. -/
def BLEQuantumService.is_connected (self : BLEQuantumService) : Bool := self.connected

/-! ## app_main.cpp: the whole tick -/

/-- The static instances of `app_main.cpp` touched by the quantum task, and the
local variables `sync_sequence`, `last_sync_ms` of `quantum_task`. -/
structure AppState where
  protocol_state : ProtocolState
  tdoa_sync : TDOASync
  haptic_controller : HapticController
  ble_service : BLEQuantumService
  sync_sequence : Nat
  last_sync_ms : Nat

/-- What one loop iteration of `quantum_task` reads from its environment. -/
structure TickInputs where
  /-- Value returned by `qkd_system.protocol_step(true, false)`. -/
  result : ProtocolResult
  /-- Value returned by `millis()` in `run_protocol_step`. -/
  millis : Nat
  /-- Value returned by `write_register` in the haptic controller. -/
  write_ret : esp_err_t
  /-- Value of `esp_timer_get_time()` read for `metrics.timestamp`. -/
  metrics_us : Nat
  /-- The default-constructed local `mesh_router`. -/
  mesh_router : OllivierRicciRouter
  /-- Value of `esp_timer_get_time()` read for `current_ms`. -/
  current_us : Nat
  /-- Value of `esp_timer_get_time()` read by `generate_sync_chirp`. -/
  chirp_us : Nat
  /-- Value of `esp_timer_get_time()` read by `synchronize_mesh`. -/
  sync_us : Nat
  /-- Initial content of the local array `sync_buffer`. -/
  sync_buffer : Buffer

/-- What one loop iteration hands to its collaborators. -/
structure TickEffects where
  /-- Calls of `mesh_broadcast`, in order. -/
  broadcasts : List Broadcast
  /-- Argument of `haptic_controller.update_resistance_from_qber`. -/
  haptic_qber : ℚ
  /-- Register writes issued by the haptic controller. -/
  register_writes : List RegisterWrite
  /-- Argument of `ble_service.update_metrics`. -/
  metrics : QuantumMetrics
  /-- Attribute values set by the BLE service. -/
  attr_writes : List AttrWrite
  /-- The local `mesh_router` when `run_protocol_step` returns and drops it. -/
  dropped_router : OllivierRicciRouter

/-- Function `run_protocol_step` with all its collaborators. -/
def run_protocol_step_app (MSG_TYPE_QUANTUM : Nat) (inp : TickInputs) (app : AppState) :
    AppState × TickEffects :=
  let step := run_protocol_step MSG_TYPE_QUANTUM inp.result inp.millis app.protocol_state
  let protocol_state := step.1
  let current_qber := 1 - inp.result.corrected_purity
  let haptic := app.haptic_controller.update_resistance_from_qber inp.write_ret current_qber
  let metrics : QuantumMetrics :=
    { qber := current_qber
      purity := inp.result.corrected_purity
      attack_detected := inp.result.attack_detected
      key_rate := protocol_state.key_bits_generated
      timestamp := (inp.metrics_us / 1000000) % 4294967296 }
  let ble := app.ble_service.update_metrics metrics
  let mesh_router := trust_loop inp.mesh_router protocol_state.avg_purity
  ({ app with
      protocol_state := protocol_state
      haptic_controller := haptic.2.1
      ble_service := ble.2.1 },
   { broadcasts := step.2
     haptic_qber := current_qber
     register_writes := haptic.2.2
     metrics := metrics
     attr_writes := ble.2.2
     dropped_router := mesh_router })

/-- The unsigned subtraction `current_ms - last_sync_ms` on `uint32_t`. -/
def elapsed_ms (current_ms last_sync_ms : Nat) : Nat :=
  (current_ms + 4294967296 - last_sync_ms % 4294967296) % 4294967296

/-- The periodic part of one loop iteration of `quantum_task`: the state
afterwards and the calls of `mesh_broadcast` made. -/
def periodic_sync (MSG_TYPE_SYNC OR_MAX_NODES : Nat) (inp : TickInputs) (app : AppState) :
    AppState × List Broadcast :=
  let current_ms := (inp.current_us / 1000) % 4294967296
  if elapsed_ms current_ms app.last_sync_ms ≥ 30000 then
    let chirp := generate_sync_chirp MSG_TYPE_SYNC inp.chirp_us inp.sync_buffer app.sync_sequence
    let sent : Broadcast :=
      { msg_type := MSG_TYPE_SYNC % 256
        payload := fun i => chirp.1 (i + 2)
        len := chirp.2 - 2 }
    ({ app with
        sync_sequence := (app.sync_sequence + 1) % 4294967296
        last_sync_ms := current_ms
        tdoa_sync := app.tdoa_sync.synchronize_mesh OR_MAX_NODES inp.sync_us },
     [sent])
  else (app, [])

/-- One loop iteration of `quantum_task`: `run_protocol_step()` followed by the
periodic sync. -/
def quantum_task_iteration (MSG_TYPE_SYNC MSG_TYPE_QUANTUM OR_MAX_NODES : Nat)
    (inp : TickInputs) (app : AppState) : AppState × TickEffects :=
  let step := run_protocol_step_app MSG_TYPE_QUANTUM inp app
  let sync := periodic_sync MSG_TYPE_SYNC OR_MAX_NODES inp step.1
  (sync.1, { step.2 with broadcasts := step.2.broadcasts ++ sync.2 })

/-- A result of `protocol_step` with `success = false` and an attack flagged. -/
def failed_attack_result : ProtocolResult where
  success := false
  key_bit := 0
  sic_outcomes := fun _ => 1 / 4
  corrected_purity := 1 / 2
  attack_detected := true
  drift_angle := 0
  autopoiesis_applied := false

/-- Inputs of a tick at uptime 31 s with a successful result. -/
def sample_inputs : TickInputs where
  result := third_purity_result
  millis := 31000
  write_ret := ESP_OK
  metrics_us := 31000000
  mesh_router := { node_count := 4, trust := fun _ => 1 / 2 }
  current_us := 31000000
  chirp_us := 31000001
  sync_us := 31000002
  sync_buffer := fun _ => 0

/-- The static instances right after construction, with session id
0xDEADBEEF. -/
def sample_app : AppState where
  protocol_state := { ProtocolState.init with session_id := 3735928559 }
  tdoa_sync := TDOASync.new
  haptic_controller := HapticController.new
  ble_service := BLEQuantumService.new
  sync_sequence := 0
  last_sync_ms := 0

/-! ## ble_quantum_service.cpp: init -/

/-- Method `BLEQuantumService::init`. The arguments are the values returned by
`esp_bt_controller_init`, `esp_bt_controller_enable`, `esp_bluedroid_init`,
`esp_bluedroid_enable`, `esp_ble_gap_register_callback`,
`esp_ble_gatts_register_callback` and `esp_ble_gap_set_device_name`. No member
of the service is written. -/
def BLEQuantumService.init
    (controller_init controller_enable bluedroid_init bluedroid_enable gap_register
      gatts_register set_name : esp_err_t)
    (self : BLEQuantumService) : esp_err_t × BLEQuantumService :=
  if controller_init ≠ ESP_OK then (controller_init, self)
  else if controller_enable ≠ ESP_OK then (controller_enable, self)
  else if bluedroid_init ≠ ESP_OK then (bluedroid_init, self)
  else if bluedroid_enable ≠ ESP_OK then (bluedroid_enable, self)
  else if gap_register ≠ ESP_OK then (gap_register, self)
  else if gatts_register ≠ ESP_OK then (gatts_register, self)
  else if set_name ≠ ESP_OK then (set_name, self)
  else (ESP_OK, self)

/-- The loop of `test_full_system_integration` as far as the BLE service is
concerned: the codes returned by `update_metrics` on the metrics of each
iteration. -/
def ble_test_codes : BLEQuantumService → List QuantumMetrics → List esp_err_t
  | _, [] => []
  | service, metrics :: rest =>
    (service.update_metrics metrics).1 :: ble_test_codes (service.update_metrics metrics).2.1 rest

/-! ## audio_processor.h, audio_processor.cpp -/

/-- The functions of the C math library used by the audio processor, on
rational arguments, and the constant `M_PI`. -/
structure Libm where
  cosf : ℚ → ℚ
  log2f : ℚ → ℚ
  sqrtf : ℚ → ℚ
  M_PI : ℚ

/-- Window length (`#define AUDIO_FFT_SIZE 512`). -/
def AUDIO_FFT_SIZE : Nat := 512

/-- Flattening factor (`#define VOICE_FLATTENING_FACTOR 0.7f`). -/
def VOICE_FLATTENING_FACTOR : ℚ := 7 / 10

/-- Private members of `class AudioProcessor`; the I2S configuration members,
constant after construction, are left out. -/
structure AudioProcessor where
  fft_input : Nat → ℚ
  fft_output : Nat → ℚ
  audio_buffer : Nat → Int
  sample_count : Nat
  emotional_entropy : ℚ
  is_initialized : Bool
  coherence_level : ℚ
  pitch_stability : ℚ
  amplitude_normalization : ℚ

/-- Constructor `AudioProcessor::AudioProcessor()`; `initial_input`,
`initial_output` and `initial_buffer` are the contents of the arrays, which the
constructor does not initialise. -/
def AudioProcessor.new (initial_input initial_output : Nat → ℚ) (initial_buffer : Nat → Int) :
    AudioProcessor where
  fft_input := initial_input
  fft_output := initial_output
  audio_buffer := initial_buffer
  sample_count := 0
  emotional_entropy := 0
  is_initialized := false
  coherence_level := 0
  pitch_stability := 0
  amplitude_normalization := 1

/-- Method `AudioProcessor::init`; `install_ret` and `pin_ret` are the values
returned by `i2s_driver_install` and `i2s_set_pin`. -/
def AudioProcessor.init (install_ret pin_ret : esp_err_t) (self : AudioProcessor) :
    esp_err_t × AudioProcessor :=
  if install_ret ≠ ESP_OK then (install_ret, self)
  else if pin_ret ≠ ESP_OK then (pin_ret, self)
  else
    (ESP_OK,
      { self with
        fft_input := fun i => if i < AUDIO_FFT_SIZE then 0 else self.fft_input i
        fft_output := fun i => if i < AUDIO_FFT_SIZE then 0 else self.fft_output i
        is_initialized := true })

/-- The two copy loops of `process_audio`: samples, then zero padding. -/
def AudioProcessor.load_samples (self : AudioProcessor) (samples : Nat → Int) (count : Nat) :
    AudioProcessor :=
  let copy_count := if count < AUDIO_FFT_SIZE then count else AUDIO_FFT_SIZE
  let copied := (List.range copy_count).foldl (fun s i =>
    { s with
      audio_buffer := Function.update s.audio_buffer i (samples i)
      fft_input := Function.update s.fft_input i ((samples i : ℚ) / 32768) }) self
  (List.range' copy_count (AUDIO_FFT_SIZE - copy_count)).foldl (fun s i =>
    { s with
      audio_buffer := Function.update s.audio_buffer i 0
      fft_input := Function.update s.fft_input i 0 }) copied

/-- Method `AudioProcessor::perform_fft`: copy, then Hann window. -/
def AudioProcessor.perform_fft (m : Libm) (self : AudioProcessor) : AudioProcessor :=
  let copied : AudioProcessor :=
    { self with
      fft_output := fun i => if i < AUDIO_FFT_SIZE then self.fft_input i else self.fft_output i }
  (List.range AUDIO_FFT_SIZE).foldl (fun s (i : Nat) =>
    let window := 1 / 2 * (1 - m.cosf (2 * m.M_PI * (i : ℚ) / ((AUDIO_FFT_SIZE : ℚ) - 1)))
    { s with fft_output := Function.update s.fft_output i (s.fft_output i * window) }) copied

/-- Method `AudioProcessor::flatten_spectrum`. -/
def AudioProcessor.flatten_spectrum (self : AudioProcessor) : AudioProcessor :=
  (List.range (AUDIO_FFT_SIZE / 2)).foldl (fun s i =>
    { s with
      fft_output := Function.update s.fft_output i
        (s.fft_output i *
          ((1 - VOICE_FLATTENING_FACTOR) +
            VOICE_FLATTENING_FACTOR * (s.fft_output i / (|s.fft_output i| + 1 / 1000000)))) })
    self

/-- The first loop of `calculate_emotional_entropy`: the total energy. -/
def total_energy (fft_output : Nat → ℚ) : ℚ :=
  (List.range (AUDIO_FFT_SIZE / 2)).foldl (fun total i =>
    let magnitude := |fft_output i|
    total + magnitude * magnitude) 0

/-- The second loop of `calculate_emotional_entropy`: the Shannon entropy. -/
def spectral_entropy (m : Libm) (fft_output : Nat → ℚ) (total : ℚ) : ℚ :=
  (List.range (AUDIO_FFT_SIZE / 2)).foldl (fun entropy i =>
    let magnitude := |fft_output i|
    let probability := (magnitude * magnitude) / total
    if probability > 1 / 1000000 then entropy - probability * m.log2f probability
    else entropy) 0

/-- Method `AudioProcessor::calculate_emotional_entropy`. -/
def AudioProcessor.calculate_emotional_entropy (m : Libm) (self : AudioProcessor) :
    AudioProcessor :=
  let total := total_energy self.fft_output
  if total < 1 / 1000000 then { self with emotional_entropy := 0 }
  else
    let entropy := spectral_entropy m self.fft_output total
    let max_entropy := m.log2f ((AUDIO_FFT_SIZE / 2 : Nat) : ℚ)
    let e0 := entropy / max_entropy
    let e1 := if e0 > 1 then 1 else e0
    let e2 := if e1 < 0 then 0 else e1
    { self with emotional_entropy := e2 }

/-- Method `AudioProcessor::normalize_amplitude`. -/
def AudioProcessor.normalize_amplitude (m : Libm) (self : AudioProcessor) : AudioProcessor :=
  let sum := (List.range AUDIO_FFT_SIZE).foldl (fun rms i =>
    rms + ((self.audio_buffer i * self.audio_buffer i : Int) : ℚ)) 0
  let rms := m.sqrtf (sum / (AUDIO_FFT_SIZE : ℚ))
  if rms > 1 / 1000000 then { self with amplitude_normalization := 16000 / rms }
  else { self with amplitude_normalization := 1 }

/-- Method `AudioProcessor::process_audio`. -/
def AudioProcessor.process_audio (m : Libm) (self : AudioProcessor) (samples : Nat → Int)
    (count : Nat) : esp_err_t × AudioProcessor :=
  if !self.is_initialized then (ESP_ERR_INVALID_STATE, self)
  else
    let s := self.load_samples samples count
    let s := s.perform_fft m
    let s := s.flatten_spectrum
    let s := s.calculate_emotional_entropy m
    let s := s.normalize_amplitude m
    let s := { s with coherence_level := 1 - s.emotional_entropy }
    let s := { s with pitch_stability := 8 / 10 }
    (ESP_OK, s)

/-- Method `AudioProcessor::get_emotional_entropy`. -/
def AudioProcessor.get_emotional_entropy (self : AudioProcessor) : ℚ := self.emotional_entropy

/-- Method `AudioProcessor::get_coherence_level`. -/
def AudioProcessor.get_coherence_level (self : AudioProcessor) : ℚ := self.coherence_level

/-- A stand-in for the math library, used to run the audio model on concrete
inputs. -/
def sample_libm : Libm where
  cosf := fun _ => 0
  log2f := fun x => x - 1
  sqrtf := fun x => x
  M_PI := 22 / 7

/-- An audio processor after a successful `init`. -/
def sample_audio : AudioProcessor :=
  ((AudioProcessor.new (fun _ => 0) (fun _ => 0) (fun _ => 0)).init ESP_OK ESP_OK).2

/-! ## Scenarios for the synchroniser -/

/-- The operations through which chirps arrive from the mesh in `app_main.cpp`:
`process_sync_chirp` and `synchronize_mesh`. -/
def TDOAOp.is_ingest_or_sync : TDOAOp → Bool
  | .process_sync_chirp _ _ _ => true
  | .synchronize_mesh _ => true
  | _ => false

/-- A buffer with one chirp of node 0 received at local time 3000000000 and
one chirp of node 1 received at local time 0, same sequence number. -/
def wrap_buffer : List ChirpTimestamp :=
  [ { node_id := 0, local_timestamp_us := 3000000000, remote_timestamp_us := 0,
      signal_strength_dbm := -50, sequence_number := 1 },
    { node_id := 1, local_timestamp_us := 0, remote_timestamp_us := 0,
      signal_strength_dbm := -50, sequence_number := 1 } ]

/-- The ticks of `run_protocol_step` with all collaborators, one after the
other. -/
def run_app_ticks (MSG_TYPE_QUANTUM : Nat) (inputs : List TickInputs) (app : AppState) :
    AppState :=
  inputs.foldl (fun a inp => (run_protocol_step_app MSG_TYPE_QUANTUM inp a).1) app

/-! ## Theorems: chirp buffer -/

/-- The last `TDOA_MAX_CHIRPS` elements of a list. -/
theorem push_chirp_window (pre : List ChirpTimestamp) (c : ChirpTimestamp) :
    push_chirp (pre.drop (pre.length - 32)) c
      = (pre ++ [c]).drop ((pre ++ [c]).length - 32) := by
  unfold push_chirp TDOA_MAX_CHIRPS
  by_cases h : pre.length < 32
  · have h0 : pre.length - 32 = 0 := by omega
    have h1 : (pre ++ [c]).length - 32 = 0 := by simp; omega
    rw [h0, h1]
    simp only [List.drop_zero]
    rw [if_neg (by simp; omega)]
  · have hlen : ((List.drop (pre.length - 32) pre) ++ [c]).length = 33 := by
      simp; omega
    simp only [hlen]
    rw [if_pos (by decide)]
    have h1 : (pre ++ [c]).length - 32 = (pre.length - 32) + 1 := by simp; omega
    rw [h1, ← List.drop_drop, List.drop_one]
    congr 1
    rw [List.drop_append_of_le_length (by omega)]

theorem foldl_push_chirp_window (cs pre : List ChirpTimestamp) :
    cs.foldl push_chirp (pre.drop (pre.length - 32))
      = (pre ++ cs).drop ((pre ++ cs).length - 32) := by
  induction cs generalizing pre with
  | nil => simp
  | cons c cs ih =>
    rw [List.foldl_cons, push_chirp_window, ih]
    simp

theorem foldl_add_chirp_recent (cs : List ChirpTimestamp) (st : TDOASync) :
    (cs.foldl TDOASync.add_chirp_timestamp st).recent_chirps
      = cs.foldl push_chirp st.recent_chirps := by
  induction cs generalizing st with
  | nil => rfl
  | cons c cs ih => rw [List.foldl_cons, ih]; rfl

/-- C1: inserting the chirps `cs` one by one with `add_chirp_timestamp` into a
freshly constructed `TDOASync` leaves exactly the last `min n 32` inserted
chirps in insertion order; after 33 insertions the buffer holds 32 entries and
is the inserted sequence without its first element, so it starts with the
second inserted chirp. -/
theorem add_chirp_timestamp_keeps_last_chirps (cs : List ChirpTimestamp) :
    (cs.foldl TDOASync.add_chirp_timestamp TDOASync.new).recent_chirps
        = cs.drop (cs.length - TDOA_MAX_CHIRPS)
      ∧ (cs.foldl TDOASync.add_chirp_timestamp TDOASync.new).recent_chirps.length
        = min cs.length TDOA_MAX_CHIRPS
      ∧ (cs.length = 33 →
          (cs.foldl TDOASync.add_chirp_timestamp TDOASync.new).recent_chirps.length = 32
          ∧ (cs.foldl TDOASync.add_chirp_timestamp TDOASync.new).recent_chirps = cs.tail
          ∧ (cs.foldl TDOASync.add_chirp_timestamp TDOASync.new).recent_chirps.head?
              = cs.get? 1) := by
  have key : (cs.foldl TDOASync.add_chirp_timestamp TDOASync.new).recent_chirps
      = cs.drop (cs.length - TDOA_MAX_CHIRPS) := by
    rw [foldl_add_chirp_recent]
    have h := foldl_push_chirp_window cs []
    simpa [TDOASync.new, TDOA_MAX_CHIRPS] using h
  refine ⟨key, ?_, ?_⟩
  · rw [key, List.length_drop]
    unfold TDOA_MAX_CHIRPS
    omega
  · intro h33
    rw [key]
    have hk : cs.length - TDOA_MAX_CHIRPS = 1 := by unfold TDOA_MAX_CHIRPS; omega
    rw [hk]
    refine ⟨by rw [List.length_drop]; omega, List.drop_one cs, ?_⟩
    cases cs with
    | nil => simp at h33
    | cons c0 rest =>
      cases rest with
      | nil => simp at h33
      | cons c1 rest => simp

/-- C1 witness: the theorem applied to 33 distinct chirps. -/
theorem add_chirp_timestamp_keeps_last_chirps_witness :
    ((List.range 33).map sample_chirp).length = 33
      ∧ (((List.range 33).map sample_chirp).foldl TDOASync.add_chirp_timestamp
          TDOASync.new).recent_chirps.length = 32
      ∧ (((List.range 33).map sample_chirp).foldl TDOASync.add_chirp_timestamp
          TDOASync.new).recent_chirps.head? = some (sample_chirp 1) :=
  ⟨by simp,
   ((add_chirp_timestamp_keeps_last_chirps ((List.range 33).map sample_chirp)).2.2
      (by simp)).1,
   by
    rw [((add_chirp_timestamp_keeps_last_chirps ((List.range 33).map sample_chirp)).2.2
      (by simp)).2.2]
    simp [List.range_succ_eq_map]⟩

/-! ## Theorems: calculate_offset -/

theorem find_common_eq_find (ca : ChirpTimestamp) (nb : Nat) (l : List ChirpTimestamp) :
    find_common ca nb l
      = (l.find? (fun cb =>
          decide (cb.node_id = nb ∧ ca.sequence_number = cb.sequence_number))).map
            (fun cb => (ca, cb)) := by
  induction l with
  | nil => rfl
  | cons cb rest ih =>
    unfold find_common
    by_cases h1 : cb.node_id = nb
    · by_cases h2 : ca.sequence_number = cb.sequence_number
      · simp [h1, h2]
      · simp [h1, h2, ih]
    · simp [h1, ih]

theorem collect_common_eq_filterMap (all : List ChirpTimestamp) (na nb : Nat)
    (todo : List ChirpTimestamp) :
    collect_common all na nb todo
      = todo.filterMap (fun ca =>
          if ca.node_id = na then find_common ca nb all else none) := by
  induction todo with
  | nil => rfl
  | cons ca rest ih =>
    unfold collect_common
    by_cases h1 : ca.node_id = na
    · cases hf : find_common ca nb all with
      | none => simp [h1, hf, ih]
      | some pair => simp [h1, hf, ih]
    · simp [h1, ih]

theorem common_chirps_eq_first_matching_pairs (chirps : List ChirpTimestamp) (a b : Int) :
    common_chirps chirps a b = first_matching_pairs chirps a b := by
  unfold common_chirps first_matching_pairs
  rw [collect_common_eq_filterMap]
  congr 1
  funext ca
  rw [find_common_eq_find]

theorem foldl_add_eq_sum (f : ChirpTimestamp × ChirpTimestamp → ℚ)
    (pairs : List (ChirpTimestamp × ChirpTimestamp)) (init : ℚ) :
    pairs.foldl (fun total pair => total + f pair) init = init + (pairs.map f).sum := by
  induction pairs generalizing init with
  | nil => simp
  | cons p rest ih => simp [ih, add_assoc]

theorem total_offset_eq_sum (pairs : List (ChirpTimestamp × ChirpTimestamp)) :
    total_offset pairs = (pairs.map (fun p => (time_diff p : ℚ))).sum := by
  unfold total_offset
  rw [foldl_add_eq_sum]
  simp

theorem common_chirps_eq_nil (chirps : List ChirpTimestamp) (a b : Int)
    (h : ∀ ca ∈ chirps, ∀ cb ∈ chirps, ca.node_id = toUInt32 a → cb.node_id = toUInt32 b →
      ca.sequence_number ≠ cb.sequence_number) :
    common_chirps chirps a b = [] := by
  rw [common_chirps_eq_first_matching_pairs]
  unfold first_matching_pairs
  rw [List.filterMap_eq_nil_iff]
  intro ca hca
  by_cases h1 : ca.node_id = toUInt32 a
  · simp only [h1, if_true, Option.map_eq_none']
    rw [List.find?_eq_none]
    intro cb hcb
    simp only [decide_eq_true_eq, not_and]
    intro h2
    exact h ca hca cb hcb h1 h2
  · simp [h1]

theorem common_chirps_ne_nil (chirps : List ChirpTimestamp) (a b : Int)
    (h : ∃ ca ∈ chirps, ∃ cb ∈ chirps, ca.node_id = toUInt32 a ∧ cb.node_id = toUInt32 b ∧
      ca.sequence_number = cb.sequence_number) :
    common_chirps chirps a b ≠ [] := by
  obtain ⟨ca, hca, cb, hcb, h1, h2, h3⟩ := h
  rw [common_chirps_eq_first_matching_pairs]
  unfold first_matching_pairs
  intro hnil
  rw [List.filterMap_eq_nil_iff] at hnil
  have := hnil ca hca
  simp only [h1, if_true, Option.map_eq_none'] at this
  rw [List.find?_eq_none] at this
  have := this cb hcb
  simp [h2, h3] at this

/-- C3: `calculate_offset a b` returns exactly 0 whenever the buffer holds no
chirp of node `a` and chirp of node `b` with equal sequence numbers; in
particular on a freshly constructed `TDOASync`, and whenever the buffer has no
entries for either node. -/
theorem calculate_offset_zero_without_match (st : TDOASync) (a b : Int) :
    ((∀ ca ∈ st.recent_chirps, ∀ cb ∈ st.recent_chirps,
        ca.node_id = toUInt32 a → cb.node_id = toUInt32 b →
          ca.sequence_number ≠ cb.sequence_number) → st.calculate_offset a b = 0)
      ∧ TDOASync.new.calculate_offset a b = 0
      ∧ ((∀ c ∈ st.recent_chirps, c.node_id ≠ toUInt32 a ∧ c.node_id ≠ toUInt32 b) →
          st.calculate_offset a b = 0) := by
  have main : ∀ chirps : List ChirpTimestamp,
      (∀ ca ∈ chirps, ∀ cb ∈ chirps, ca.node_id = toUInt32 a → cb.node_id = toUInt32 b →
        ca.sequence_number ≠ cb.sequence_number) → calculate_offset chirps a b = 0 := by
    intro chirps h
    unfold calculate_offset
    simp [common_chirps_eq_nil chirps a b h]
  refine ⟨main st.recent_chirps, ?_, ?_⟩
  · exact main [] (by simp)
  · intro h
    exact main st.recent_chirps (fun ca hca _ _ h1 _ => absurd h1 (h ca hca).1)

/-- C3 witness: a buffer with chirps of nodes 0..3, all with different sequence
numbers, queried for the pair (0, 1) and for the absent nodes (5, 6). -/
theorem calculate_offset_zero_without_match_witness :
    PhenixPhantom.calculate_offset ((List.range 4).map sample_chirp) 0 1 = 0
      ∧ PhenixPhantom.calculate_offset ((List.range 4).map sample_chirp) 5 6 = 0 :=
  ⟨(calculate_offset_zero_without_match
      ⟨(List.range 4).map sample_chirp, fun _ => 0, 0, 10000⟩ 0 1).1
      (by simp [List.range_succ_eq_map, sample_chirp, toUInt32]),
   (calculate_offset_zero_without_match
      ⟨(List.range 4).map sample_chirp, fun _ => 0, 0, 10000⟩ 5 6).2.2
      (by simp [List.range_succ_eq_map, sample_chirp, toUInt32])⟩

/-- C2 counterexample: with two chirps of node 1 carrying the sequence number of
the chirp of node 0, `calculate_offset 0 1` is 10 (first match only), while the
mean over all matching pairs is 8. -/
theorem calculate_offset_ne_mean_over_all_pairs :
    calculate_offset duplicate_seq_buffer 0 1 = 10
      ∧ mean_over_all_pairs duplicate_seq_buffer 0 1 = 8
      ∧ calculate_offset duplicate_seq_buffer 0 1
          ≠ mean_over_all_pairs duplicate_seq_buffer 0 1 := by
  have h1 : calculate_offset duplicate_seq_buffer 0 1 = 10 := by
    simp [calculate_offset, common_chirps, collect_common, find_common, duplicate_seq_buffer,
      toUInt32, total_offset, time_diff, toInt32, wrapInt32]
    norm_num
  have h2 : mean_over_all_pairs duplicate_seq_buffer 0 1 = 8 := by
    simp [mean_over_all_pairs, all_matching_pairs, duplicate_seq_buffer, toUInt32]
    norm_num
  refine ⟨h1, h2, ?_⟩
  rw [h1, h2]
  norm_num

theorem time_diff_eq_sub (p : ChirpTimestamp × ChirpTimestamp)
    (h1 : p.1.local_timestamp_us < 2147483648) (h2 : p.2.local_timestamp_us < 2147483648) :
    time_diff p = (p.1.local_timestamp_us : Int) - (p.2.local_timestamp_us : Int) := by
  unfold time_diff toInt32 wrapInt32
  have e1 : p.1.local_timestamp_us % 4294967296 = p.1.local_timestamp_us :=
    Nat.mod_eq_of_lt (by omega)
  have e2 : p.2.local_timestamp_us % 4294967296 = p.2.local_timestamp_us :=
    Nat.mod_eq_of_lt (by omega)
  rw [e1, e2, if_pos h1, if_pos h2]
  omega

theorem mem_first_matching_pairs (chirps : List ChirpTimestamp) (a b : Int)
    (p : ChirpTimestamp × ChirpTimestamp) (hp : p ∈ first_matching_pairs chirps a b) :
    p.1 ∈ chirps ∧ p.2 ∈ chirps := by
  unfold first_matching_pairs at hp
  rw [List.mem_filterMap] at hp
  obtain ⟨ca, hca, hf⟩ := hp
  by_cases h1 : ca.node_id = toUInt32 a
  · simp only [h1, if_true, Option.map_eq_some'] at hf
    obtain ⟨cb, hfind, rfl⟩ := hf
    exact ⟨hca, List.mem_of_find?_eq_some hfind⟩
  · simp [h1] at hf

theorem filter_eq_find_toList (q : ChirpTimestamp → Bool) (l : List ChirpTimestamp)
    (h : (l.filter q).length ≤ 1) : l.filter q = (l.find? q).toList := by
  induction l with
  | nil => rfl
  | cons x xs ih =>
    by_cases hq : q x = true
    · have hnil : xs.filter q = [] := by
        rw [List.filter_cons_of_pos hq] at h
        apply List.eq_nil_of_length_eq_zero
        simp at h
        simpa using h
      simp [List.filter_cons_of_pos hq, List.find?_cons, hq, hnil]
    · simp only [Bool.not_eq_true] at hq
      rw [List.filter_cons_of_neg (by simp [hq])] at h ⊢
      simp [List.find?_cons, hq, ih h]

theorem first_matching_pairs_eq_all (chirps : List ChirpTimestamp) (a b : Int)
    (hu : ∀ s : Nat, (chirps.filter (fun cb =>
      decide (cb.node_id = toUInt32 b ∧ s = cb.sequence_number))).length ≤ 1) :
    first_matching_pairs chirps a b = all_matching_pairs chirps a b := by
  unfold first_matching_pairs all_matching_pairs
  rw [List.filterMap_eq_flatMap_toList]
  apply List.flatMap_congr
  intro ca _
  by_cases h1 : ca.node_id = toUInt32 a
  · simp only [h1, if_true, true_and]
    rw [filter_eq_find_toList _ chirps (hu ca.sequence_number)]
    cases List.find? (fun cb =>
      decide (cb.node_id = toUInt32 b ∧ ca.sequence_number = cb.sequence_number)) chirps <;> rfl
  · simp [h1]

/-- C2 (amended): when the buffer holds at least one pair of chirps of nodes
`a` and `b` with equal sequence numbers, `calculate_offset a b` is the
arithmetic mean, over the chirps `ca` of node `a` that have a partner, of the
signed 32-bit difference between the local timestamp of `ca` and that of the
FIRST buffered chirp of node `b` with the same sequence number; when all local
timestamps are below 2^31 that difference is the plain difference, and when in
addition no two chirps of node `b` carry the same sequence number the result is
the mean over all matching pairs. -/
theorem calculate_offset_eq_mean_over_first_matches (chirps : List ChirpTimestamp)
    (a b : Int)
    (h : ∃ ca ∈ chirps, ∃ cb ∈ chirps, ca.node_id = toUInt32 a ∧ cb.node_id = toUInt32 b ∧
      ca.sequence_number = cb.sequence_number) :
    first_matching_pairs chirps a b ≠ []
      ∧ calculate_offset chirps a b
          = ((first_matching_pairs chirps a b).map (fun p => (time_diff p : ℚ))).sum
              / ((first_matching_pairs chirps a b).length : ℚ)
      ∧ ((∀ c ∈ chirps, c.local_timestamp_us < 2147483648) →
          calculate_offset chirps a b
            = ((first_matching_pairs chirps a b).map
                (fun p => (p.1.local_timestamp_us : ℚ) - (p.2.local_timestamp_us : ℚ))).sum
              / ((first_matching_pairs chirps a b).length : ℚ))
      ∧ ((∀ c ∈ chirps, c.local_timestamp_us < 2147483648) →
          (∀ s : Nat, (chirps.filter (fun cb =>
            decide (cb.node_id = toUInt32 b ∧ s = cb.sequence_number))).length ≤ 1) →
          calculate_offset chirps a b = mean_over_all_pairs chirps a b) := by
  have hne := common_chirps_ne_nil chirps a b h
  have hmean : calculate_offset chirps a b
      = ((first_matching_pairs chirps a b).map (fun p => (time_diff p : ℚ))).sum
          / ((first_matching_pairs chirps a b).length : ℚ) := by
    unfold calculate_offset
    simp only [List.isEmpty_iff, hne, if_false, Bool.false_eq_true]
    rw [total_offset_eq_sum, common_chirps_eq_first_matching_pairs]
  have hplain : (∀ c ∈ chirps, c.local_timestamp_us < 2147483648) →
      calculate_offset chirps a b
        = ((first_matching_pairs chirps a b).map
            (fun p => (p.1.local_timestamp_us : ℚ) - (p.2.local_timestamp_us : ℚ))).sum
          / ((first_matching_pairs chirps a b).length : ℚ) := by
    intro hsmall
    rw [hmean]
    congr 2
    apply List.map_congr_left
    intro p hp
    have hm := mem_first_matching_pairs chirps a b p hp
    rw [time_diff_eq_sub p (hsmall _ hm.1) (hsmall _ hm.2)]
    push_cast
    rfl
  refine ⟨by rw [← common_chirps_eq_first_matching_pairs]; exact hne, hmean, hplain, ?_⟩
  intro hsmall hu
  rw [hplain hsmall, first_matching_pairs_eq_all chirps a b hu]
  rfl

/-- C2 witness (amended claim): the buffer with a duplicated sequence number,
and the two-node scenario, which has no duplicate. -/
theorem calculate_offset_eq_mean_over_first_matches_witness :
    first_matching_pairs duplicate_seq_buffer 0 1 ≠ []
      ∧ calculate_offset duplicate_seq_buffer 0 1
          = ((first_matching_pairs duplicate_seq_buffer 0 1).map
              (fun p => (p.1.local_timestamp_us : ℚ) - (p.2.local_timestamp_us : ℚ))).sum
            / ((first_matching_pairs duplicate_seq_buffer 0 1).length : ℚ)
      ∧ calculate_offset two_node_state.recent_chirps 0 1
          = mean_over_all_pairs two_node_state.recent_chirps 0 1 :=
  have hex : ∃ ca ∈ duplicate_seq_buffer, ∃ cb ∈ duplicate_seq_buffer,
      ca.node_id = toUInt32 0 ∧ cb.node_id = toUInt32 1 ∧
        ca.sequence_number = cb.sequence_number := by
    simp [duplicate_seq_buffer, toUInt32]
  have htwo : two_node_state.recent_chirps =
      [{ node_id := 0, local_timestamp_us := 10, remote_timestamp_us := 0,
         signal_strength_dbm := -50, sequence_number := 1 },
       { node_id := 1, local_timestamp_us := 0, remote_timestamp_us := 0,
         signal_strength_dbm := -50, sequence_number := 1 }] := by
    simp [two_node_state, TDOASync.add_chirp_timestamp, TDOASync.new, push_chirp,
      TDOA_MAX_CHIRPS]
  ⟨(calculate_offset_eq_mean_over_first_matches duplicate_seq_buffer 0 1 hex).1,
   (calculate_offset_eq_mean_over_first_matches duplicate_seq_buffer 0 1 hex).2.2.1
      (by simp [duplicate_seq_buffer]),
   (calculate_offset_eq_mean_over_first_matches two_node_state.recent_chirps 0 1
      (by rw [htwo]; simp [toUInt32])).2.2.2
      (by rw [htwo]; simp)
      (by
        intro s
        rw [htwo]
        simp only [List.filter_cons, List.filter_nil, toUInt32]
        split <;> split <;> simp_all)⟩

/-! ## Theorems: synchronize_mesh -/

theorem sync_pair_of_zero (chirps : List ChirpTimestamp) (i j : Nat) (offsets : Nat → ℚ)
    (h : calculate_offset chirps (i : Int) (j : Int) = 0) :
    sync_pair chirps i offsets j = offsets := by
  unfold sync_pair
  simp [h]

theorem foldl_sync_pair_of_zero (chirps : List ChirpTimestamp) (i : Nat) (js : List Nat)
    (offsets : Nat → ℚ)
    (h : ∀ j ∈ js, calculate_offset chirps (i : Int) (j : Int) = 0) :
    js.foldl (sync_pair chirps i) offsets = offsets := by
  induction js generalizing offsets with
  | nil => rfl
  | cons j js ih =>
    rw [List.foldl_cons, sync_pair_of_zero chirps i j offsets (h j (by simp))]
    exact ih offsets (fun k hk => h k (by simp [hk]))

theorem foldl_sync_row_of_zero (chirps : List ChirpTimestamp) (N : Nat) (is : List Nat)
    (offsets : Nat → ℚ)
    (h : ∀ i ∈ is, ∀ j, i < j → j < N → calculate_offset chirps (i : Int) (j : Int) = 0) :
    is.foldl (sync_row chirps N) offsets = offsets := by
  induction is generalizing offsets with
  | nil => rfl
  | cons i is ih =>
    rw [List.foldl_cons]
    have hrow : sync_row chirps N offsets i = offsets := by
      unfold sync_row
      apply foldl_sync_pair_of_zero
      intro j hj
      rw [List.mem_range'_1] at hj
      exact h i (by simp) j (by omega) (by omega)
    rw [hrow]
    exact ih offsets (fun k hk => h k (by simp [hk]))

theorem sync_offsets_single_pair (chirps : List ChirpTimestamp) (N : Nat) (hN : 2 ≤ N)
    (offsets : Nat → ℚ)
    (hzero : ∀ i j : Nat, i < j → j < N → (i, j) ≠ (0, 1) →
      calculate_offset chirps (i : Int) (j : Int) = 0) :
    sync_offsets chirps N offsets = sync_pair chirps 0 offsets 1 := by
  unfold sync_offsets
  obtain ⟨M, rfl⟩ : ∃ M, N = M + 2 := ⟨N - 2, by omega⟩
  rw [List.range_eq_range', List.range'_succ, List.foldl_cons]
  have hrow0 : sync_row chirps (M + 2) offsets 0 = sync_pair chirps 0 offsets 1 := by
    unfold sync_row
    have : M + 2 - (0 + 1) = M + 1 := by omega
    rw [this, List.range'_succ, List.foldl_cons]
    apply foldl_sync_pair_of_zero
    intro j hj
    rw [List.mem_range'_1] at hj
    exact hzero 0 j (by omega) (by omega) (by simp; omega)
  rw [hrow0]
  apply foldl_sync_row_of_zero
  intro i hi j hij hj
  rw [List.mem_range'_1] at hi
  exact hzero i j hij hj (by simp; omega)

theorem foldl_precision_step (offsets : Nat → ℚ) (l : List Nat) (acc : ℚ × Nat) :
    l.foldl (precision_step offsets) acc
      = (acc.1 + (((l.map offsets).filter (fun x => decide (x ≠ 0))).map (fun x => |x|)).sum,
         acc.2 + ((l.map offsets).filter (fun x => decide (x ≠ 0))).length) := by
  induction l generalizing acc with
  | nil => simp
  | cons i l ih =>
    rw [List.foldl_cons, ih]
    unfold precision_step
    by_cases h : offsets i = 0
    · simp [h]
    · simp [h, add_assoc, Nat.add_assoc, Nat.add_comm 1]

theorem precision_loop_eq (N : Nat) (offsets : Nat → ℚ) :
    precision_loop N offsets
      = (((nonzero_offsets N offsets).map (fun x => |x|)).sum,
         (nonzero_offsets N offsets).length) := by
  unfold precision_loop nonzero_offsets
  rw [foldl_precision_step]
  simp

theorem two_node_state_offset :
    calculate_offset two_node_state.recent_chirps ((0 : Nat) : Int) ((1 : Nat) : Int) = 10 := by
  simp [two_node_state, TDOASync.add_chirp_timestamp, TDOASync.new, push_chirp,
    TDOA_MAX_CHIRPS, calculate_offset, common_chirps, collect_common, find_common,
    toUInt32, total_offset, time_diff, toInt32, wrapInt32]
  norm_num

theorem two_node_state_other_pairs (i j : Nat) (hij : i < j) (hj : j < 4)
    (hne : (i, j) ≠ (0, 1)) :
    calculate_offset two_node_state.recent_chirps (i : Int) (j : Int) = 0 := by
  have hj2 : 2 ≤ j := by
    by_contra hlt
    apply hne
    have hi : i = 0 := by omega
    have hj1 : j = 1 := by omega
    rw [hi, hj1]
  have hnil : common_chirps two_node_state.recent_chirps (i : Int) (j : Int) = [] := by
    apply common_chirps_eq_nil
    intro ca _ cb hcb _ hb
    exfalso
    have hju : toUInt32 (j : Int) = j := by
      unfold toUInt32
      omega
    rw [hju] at hb
    simp [two_node_state, TDOASync.add_chirp_timestamp, TDOASync.new, push_chirp,
      TDOA_MAX_CHIRPS] at hcb
    rcases hcb with h | h <;> rw [h] at hb <;> simp at hb <;> omega
  unfold calculate_offset
  simp [hnil]

theorem two_node_state_sync (now : Nat) (st : TDOASync)
    (h : st.recent_chirps = two_node_state.recent_chirps) :
    (st.synchronize_mesh 4 now).node_offsets 0 = 5
      ∧ (st.synchronize_mesh 4 now).node_offsets 1 = -5
      ∧ (st.synchronize_mesh 4 now).recent_chirps = two_node_state.recent_chirps := by
  have hoff : (st.synchronize_mesh 4 now).node_offsets
      = sync_pair two_node_state.recent_chirps 0 st.node_offsets 1 := by
    show sync_offsets st.recent_chirps 4 st.node_offsets = _
    rw [h]
    exact sync_offsets_single_pair _ 4 (by decide) _ two_node_state_other_pairs
  refine ⟨?_, ?_, h⟩
  · rw [hoff]
    unfold sync_pair
    simp only [two_node_state_offset]
    norm_num [Function.update]
  · rw [hoff]
    unfold sync_pair
    simp only [two_node_state_offset]
    norm_num [Function.update]

/-- C4 counterexample: in the reachable two-node scenario (mesh of 4 nodes) the
pair offset is d = 10; the first `synchronize_mesh` yields the node offsets 5
and -5, and a second call leaves them at 5 and -5 instead of adding d/2 to the
first and subtracting d/2 from the second. -/
theorem synchronize_mesh_does_not_accumulate :
    (two_node_state.synchronize_mesh 4 0).calculate_offset 0 1 = 10
      ∧ (two_node_state.synchronize_mesh 4 0).node_offsets 0 = 5
      ∧ (two_node_state.synchronize_mesh 4 0).node_offsets 1 = -5
      ∧ ((two_node_state.synchronize_mesh 4 0).synchronize_mesh 4 0).node_offsets 0 = 5
      ∧ ((two_node_state.synchronize_mesh 4 0).synchronize_mesh 4 0).node_offsets 1 = -5
      ∧ ((two_node_state.synchronize_mesh 4 0).synchronize_mesh 4 0).node_offsets 0
          ≠ (two_node_state.synchronize_mesh 4 0).node_offsets 0 + 10 / 2
      ∧ ((two_node_state.synchronize_mesh 4 0).synchronize_mesh 4 0).node_offsets 1
          ≠ (two_node_state.synchronize_mesh 4 0).node_offsets 1 - 10 / 2 := by
  have h1 := two_node_state_sync 0 two_node_state rfl
  have h2 := two_node_state_sync 0 (two_node_state.synchronize_mesh 4 0) h1.2.2
  refine ⟨?_, h1.1, h1.2.1, h2.1, h2.2.1, ?_, ?_⟩
  · show calculate_offset (two_node_state.synchronize_mesh 4 0).recent_chirps 0 1 = 10
    rw [h1.2.2]
    exact two_node_state_offset
  · rw [h2.1, h1.1]; norm_num
  · rw [h2.2.1, h1.2.1]; norm_num

/-- C4 (amended): `synchronize_mesh` overwrites instead of accumulating. When
the pair `(i, j)` is processed and its `d = calculate_offset i j` is non-zero,
`node_offsets[i]` is set to `d/2` and `node_offsets[j]` to `-d/2` whatever they
held before, and no other entry changes; when `d` is zero nothing changes. With
matching chirps only between nodes 0 and 1, the whole call ends with
`node_offsets[0] = d/2` and `node_offsets[1] = -d/2` for every previous content
of the array. -/
theorem synchronize_mesh_overwrites_offsets (st : TDOASync) (N now : Nat) (i j : Nat)
    (offsets : Nat → ℚ) :
    (i ≠ j → calculate_offset st.recent_chirps (i : Int) (j : Int) ≠ 0 →
        sync_pair st.recent_chirps i offsets j i
            = calculate_offset st.recent_chirps (i : Int) (j : Int) / 2
          ∧ sync_pair st.recent_chirps i offsets j j
            = -(calculate_offset st.recent_chirps (i : Int) (j : Int) / 2)
          ∧ ∀ k, k ≠ i → k ≠ j → sync_pair st.recent_chirps i offsets j k = offsets k)
      ∧ (calculate_offset st.recent_chirps (i : Int) (j : Int) = 0 →
          sync_pair st.recent_chirps i offsets j = offsets)
      ∧ (2 ≤ N →
          (∀ i j : Nat, i < j → j < N → (i, j) ≠ (0, 1) →
            calculate_offset st.recent_chirps (i : Int) (j : Int) = 0) →
          calculate_offset st.recent_chirps ((0 : Nat) : Int) ((1 : Nat) : Int) ≠ 0 →
          (st.synchronize_mesh N now).node_offsets 0
              = calculate_offset st.recent_chirps ((0 : Nat) : Int) ((1 : Nat) : Int) / 2
            ∧ (st.synchronize_mesh N now).node_offsets 1
              = -(calculate_offset st.recent_chirps ((0 : Nat) : Int) ((1 : Nat) : Int) / 2)) := by
  have pair : ∀ (i j : Nat) (offsets : Nat → ℚ), i ≠ j →
      calculate_offset st.recent_chirps (i : Int) (j : Int) ≠ 0 →
        sync_pair st.recent_chirps i offsets j i
            = calculate_offset st.recent_chirps (i : Int) (j : Int) / 2
          ∧ sync_pair st.recent_chirps i offsets j j
            = -(calculate_offset st.recent_chirps (i : Int) (j : Int) / 2)
          ∧ ∀ k, k ≠ i → k ≠ j → sync_pair st.recent_chirps i offsets j k = offsets k := by
    intro i j offsets hij hd
    unfold sync_pair
    simp only [ne_eq, hd, not_false_eq_true, if_true]
    refine ⟨?_, ?_, ?_⟩
    · rw [Function.update_noteq hij, Function.update_same]
    · rw [Function.update_same, neg_div]
    · intro k hki hkj
      rw [Function.update_noteq hkj, Function.update_noteq hki]
  refine ⟨pair i j offsets, sync_pair_of_zero st.recent_chirps i j offsets, ?_⟩
  intro hN hzero hd
  have hoff : (st.synchronize_mesh N now).node_offsets
      = sync_pair st.recent_chirps 0 st.node_offsets 1 :=
    sync_offsets_single_pair st.recent_chirps N hN st.node_offsets hzero
  rw [hoff]
  have hp := pair 0 1 st.node_offsets (by decide) hd
  exact ⟨hp.1, hp.2.1⟩

/-- C4 witness (amended claim): the two-node scenario in a mesh of 4 nodes,
started from previous offsets that are all 3: the pair (0, 1) overwrites, the
pair (2, 3) changes nothing, and the whole call ends with d/2 and -d/2. -/
theorem synchronize_mesh_overwrites_offsets_witness :
    sync_pair two_node_state.recent_chirps 0 (fun _ => 3) 1 0
        = calculate_offset two_node_state.recent_chirps ((0 : Nat) : Int) ((1 : Nat) : Int) / 2
      ∧ sync_pair two_node_state.recent_chirps 2 (fun _ => 3) 3 = (fun _ => 3)
      ∧ ({ two_node_state with node_offsets := fun _ => 3 }.synchronize_mesh 4 0).node_offsets 0
        = calculate_offset two_node_state.recent_chirps ((0 : Nat) : Int) ((1 : Nat) : Int) / 2
      ∧ ({ two_node_state with node_offsets := fun _ => 3 }.synchronize_mesh 4 0).node_offsets 1
        = -(calculate_offset two_node_state.recent_chirps ((0 : Nat) : Int) ((1 : Nat) : Int)
            / 2) :=
  have hd : calculate_offset two_node_state.recent_chirps ((0 : Nat) : Int) ((1 : Nat) : Int)
      ≠ 0 := by
    rw [two_node_state_offset]; norm_num
  have hwhole :=
    (synchronize_mesh_overwrites_offsets { two_node_state with node_offsets := fun _ => 3 }
      4 0 0 1 (fun _ => 0)).2.2 (by decide) two_node_state_other_pairs hd
  ⟨((synchronize_mesh_overwrites_offsets two_node_state 4 0 0 1 (fun _ => 3)).1
      (by decide) hd).1,
   (synchronize_mesh_overwrites_offsets two_node_state 4 0 2 3 (fun _ => 3)).2.1
      (two_node_state_other_pairs 2 3 (by decide) (by decide) (by decide)),
   hwhole.1, hwhole.2⟩

theorem nonzero_offsets_eq_nil_iff (N : Nat) (offsets : Nat → ℚ) :
    nonzero_offsets N offsets = [] ↔ ∀ k < N, offsets k = 0 := by
  unfold nonzero_offsets
  rw [List.filter_eq_nil_iff]
  simp

/-- C5: after every call of `synchronize_mesh` the precision is the mean of
`|node_offsets[k]|` over exactly the nodes `k < OR_MAX_NODES` whose offset is
non-zero, and it is the poor-precision constant
`10 * TDOA_SYNC_PRECISION_US = 10000` when every node offset is zero. -/
theorem synchronize_mesh_precision (st : TDOASync) (N now : Nat) :
    (nonzero_offsets N (st.synchronize_mesh N now).node_offsets ≠ [] →
        (st.synchronize_mesh N now).sync_precision_us
          = ((nonzero_offsets N (st.synchronize_mesh N now).node_offsets).map
              (fun x => |x|)).sum
            / ((nonzero_offsets N (st.synchronize_mesh N now).node_offsets).length : ℚ))
      ∧ ((∀ k < N, (st.synchronize_mesh N now).node_offsets k = 0) →
          (st.synchronize_mesh N now).sync_precision_us
              = ((10 * TDOA_SYNC_PRECISION_US : Nat) : ℚ)
            ∧ (st.synchronize_mesh N now).sync_precision_us = 10000) := by
  have hprec : (st.synchronize_mesh N now).sync_precision_us
      = if (precision_loop N (st.synchronize_mesh N now).node_offsets).2 > 0 then
          (precision_loop N (st.synchronize_mesh N now).node_offsets).1
            / ((precision_loop N (st.synchronize_mesh N now).node_offsets).2 : ℚ)
        else ((TDOA_SYNC_PRECISION_US * 10 : Nat) : ℚ) := rfl
  rw [hprec, precision_loop_eq]
  constructor
  · intro hne
    have hpos : (nonzero_offsets N (st.synchronize_mesh N now).node_offsets).length > 0 :=
      List.length_pos.mpr hne
    simp only [hpos, if_true]
  · intro hzero
    have hnil := (nonzero_offsets_eq_nil_iff N _).mpr hzero
    rw [hnil]
    simp [TDOA_SYNC_PRECISION_US]

/-- C5 witness: the two-node scenario (offsets 5 and -5, precision 5) and the
fresh state (all offsets zero, precision 10000). -/
theorem synchronize_mesh_precision_witness :
    (two_node_state.synchronize_mesh 4 0).sync_precision_us
        = ((nonzero_offsets 4 (two_node_state.synchronize_mesh 4 0).node_offsets).map
            (fun x => |x|)).sum
          / ((nonzero_offsets 4 (two_node_state.synchronize_mesh 4 0).node_offsets).length : ℚ)
      ∧ (TDOASync.new.synchronize_mesh 4 0).sync_precision_us = 10000 :=
  ⟨(synchronize_mesh_precision two_node_state 4 0).1 (by
      rw [Ne, nonzero_offsets_eq_nil_iff]
      intro h
      have h0 := h 0 (by decide)
      rw [(two_node_state_sync 0 two_node_state rfl).1] at h0
      norm_num at h0),
   ((synchronize_mesh_precision TDOASync.new 4 0).2 (by
      intro k _
      show (List.range 4).foldl (sync_row [] 4) (fun _ => 0) k = 0
      rw [foldl_sync_row_of_zero [] 4 (List.range 4) (fun _ => 0)
        (fun i _ j _ _ => by simp [calculate_offset, common_chirps, collect_common])]
        )).2⟩

/-! ## Theorems: sync chirp packets -/

theorem and_255_eq_mod (x : Nat) : x &&& 0xFF = x % 256 := by
  have := Nat.and_pow_two_sub_one_eq_mod x 8
  simpa using this

theorem or_shiftLeft_eq_add (lo hi i : Nat) (h : lo < 2 ^ i) :
    lo ||| (hi <<< i) = lo + hi * 2 ^ i := by
  rw [Nat.shiftLeft_eq, Nat.or_comm, Nat.mul_comm, ← Nat.mul_add_lt_is_or h, Nat.add_comm]

theorem read_u32_eq (buffer : Buffer) (k : Nat) (h0 : buffer k < 256)
    (h1 : buffer (k + 1) < 256) (h2 : buffer (k + 2) < 256) (h3 : buffer (k + 3) < 256) :
    read_u32 buffer k
      = buffer k + 256 * buffer (k + 1) + 65536 * buffer (k + 2)
          + 16777216 * buffer (k + 3) := by
  unfold read_u32
  rw [or_shiftLeft_eq_add (buffer k) (buffer (k + 1)) 8 (by omega)]
  rw [or_shiftLeft_eq_add _ (buffer (k + 2)) 16 (by omega)]
  rw [or_shiftLeft_eq_add _ (buffer (k + 3)) 24 (by omega)]
  omega

theorem generate_sync_chirp_bytes (tag now : Nat) (buffer : Buffer) (S : Nat) :
    (generate_sync_chirp tag now buffer S).2 = 14
      ∧ (generate_sync_chirp tag now buffer S).1 0 = tag % 256
      ∧ (generate_sync_chirp tag now buffer S).1 1 = 12
      ∧ (generate_sync_chirp tag now buffer S).1 2 = S % 256
      ∧ (generate_sync_chirp tag now buffer S).1 3 = S / 256 % 256
      ∧ (generate_sync_chirp tag now buffer S).1 4 = S / 65536 % 256
      ∧ (generate_sync_chirp tag now buffer S).1 5 = S / 16777216 % 256
      ∧ (generate_sync_chirp tag now buffer S).1 6 = now % 4294967296 % 256
      ∧ (generate_sync_chirp tag now buffer S).1 7 = now % 4294967296 / 256 % 256
      ∧ (generate_sync_chirp tag now buffer S).1 8 = now % 4294967296 / 65536 % 256
      ∧ (generate_sync_chirp tag now buffer S).1 9 = now % 4294967296 / 16777216 % 256
      ∧ (generate_sync_chirp tag now buffer S).1 10 = 0
      ∧ (generate_sync_chirp tag now buffer S).1 11 = 0
      ∧ (generate_sync_chirp tag now buffer S).1 12 = 0
      ∧ (generate_sync_chirp tag now buffer S).1 13 = 0
      ∧ ∀ k, 14 ≤ k → (generate_sync_chirp tag now buffer S).1 k = buffer k := by
  simp only [generate_sync_chirp, store, and_255_eq_mod, Nat.shiftRight_eq_div_pow,
    Function.update]
  refine ⟨?_, ?_, ?_, ?_, ?_, ?_, ?_, ?_, ?_, ?_, ?_, ?_, ?_, ?_, ?_, ?_⟩
  all_goals first
    | trivial
    | (intro k hk
       have h0 : k ≠ 0 := by omega
       have h1 : k ≠ 1 := by omega
       have h2 : k ≠ 2 := by omega
       have h3 : k ≠ 3 := by omega
       have h4 : k ≠ 4 := by omega
       have h5 : k ≠ 5 := by omega
       have h6 : k ≠ 6 := by omega
       have h7 : k ≠ 7 := by omega
       have h8 : k ≠ 8 := by omega
       have h9 : k ≠ 9 := by omega
       have h10 : k ≠ 10 := by omega
       have h11 : k ≠ 11 := by omega
       have h12 : k ≠ 12 := by omega
       have h13 : k ≠ 13 := by omega
       simp [h0, h1, h2, h3, h4, h5, h6, h7, h8, h9, h10, h11, h12, h13])
    | simp

/-- C7: for every 32-bit sequence number `S` and clock value `now`,
`generate_sync_chirp` reports length 14 and writes byte 0 = the SYNC type tag,
byte 1 = 12, bytes 2..5 = `S` in little-endian order, bytes 6..9 = the low 32
bits of the clock value in little-endian order and bytes 10..13 = 0. -/
theorem generate_sync_chirp_wire_format (tag now S : Nat) (buffer : Buffer)
    (htag : tag < 256) (hS : S < 4294967296) :
    (generate_sync_chirp tag now buffer S).2 = 14
      ∧ (generate_sync_chirp tag now buffer S).1 0 = tag
      ∧ (generate_sync_chirp tag now buffer S).1 1 = 12
      ∧ ((generate_sync_chirp tag now buffer S).1 2 = S % 256
        ∧ (generate_sync_chirp tag now buffer S).1 3 = S / 256 % 256
        ∧ (generate_sync_chirp tag now buffer S).1 4 = S / 65536 % 256
        ∧ (generate_sync_chirp tag now buffer S).1 5 = S / 16777216 % 256)
      ∧ (generate_sync_chirp tag now buffer S).1 2
          + 256 * (generate_sync_chirp tag now buffer S).1 3
          + 65536 * (generate_sync_chirp tag now buffer S).1 4
          + 16777216 * (generate_sync_chirp tag now buffer S).1 5 = S
      ∧ ((generate_sync_chirp tag now buffer S).1 6 = now % 4294967296 % 256
        ∧ (generate_sync_chirp tag now buffer S).1 7 = now % 4294967296 / 256 % 256
        ∧ (generate_sync_chirp tag now buffer S).1 8 = now % 4294967296 / 65536 % 256
        ∧ (generate_sync_chirp tag now buffer S).1 9 = now % 4294967296 / 16777216 % 256)
      ∧ (generate_sync_chirp tag now buffer S).1 6
          + 256 * (generate_sync_chirp tag now buffer S).1 7
          + 65536 * (generate_sync_chirp tag now buffer S).1 8
          + 16777216 * (generate_sync_chirp tag now buffer S).1 9 = now % 4294967296
      ∧ (generate_sync_chirp tag now buffer S).1 10 = 0
      ∧ (generate_sync_chirp tag now buffer S).1 11 = 0
      ∧ (generate_sync_chirp tag now buffer S).1 12 = 0
      ∧ (generate_sync_chirp tag now buffer S).1 13 = 0 := by
  obtain ⟨hl, b0, b1, b2, b3, b4, b5, b6, b7, b8, b9, b10, b11, b12, b13, _⟩ :=
    generate_sync_chirp_bytes tag now buffer S
  refine ⟨hl, ?_, b1, ⟨b2, b3, b4, b5⟩, ?_, ⟨b6, b7, b8, b9⟩, ?_, b10, b11, b12, b13⟩
  · rw [b0]; exact Nat.mod_eq_of_lt htag
  · rw [b2, b3, b4, b5]; omega
  · rw [b6, b7, b8, b9]; omega

/-- C7 witness: tag 1, clock 2^32 + 5, sequence number 12345. -/
theorem generate_sync_chirp_wire_format_witness :
    (generate_sync_chirp 1 4294967301 (fun _ => 0) 12345).2 = 14
      ∧ (generate_sync_chirp 1 4294967301 (fun _ => 0) 12345).1 0 = 1
      ∧ (generate_sync_chirp 1 4294967301 (fun _ => 0) 12345).1 1 = 12 :=
  ⟨(generate_sync_chirp_wire_format 1 4294967301 12345 (fun _ => 0) (by decide)
      (by decide)).1,
   (generate_sync_chirp_wire_format 1 4294967301 12345 (fun _ => 0) (by decide)
      (by decide)).2.1,
   (generate_sync_chirp_wire_format 1 4294967301 12345 (fun _ => 0) (by decide)
      (by decide)).2.2.1⟩

theorem push_chirp_eq (chirps : List ChirpTimestamp) (c : ChirpTimestamp) :
    push_chirp chirps c
        = (if chirps.length < 32 then chirps ++ [c] else chirps.tail ++ [c])
      ∧ (push_chirp chirps c).getLast? = some c := by
  have h1 : push_chirp chirps c
      = (if chirps.length < 32 then chirps ++ [c] else chirps.tail ++ [c]) := by
    unfold push_chirp TDOA_MAX_CHIRPS
    by_cases h : chirps.length < 32
    · rw [if_neg (by simp; omega), if_pos h]
    · rw [if_pos (by simp; omega), if_neg h]
      cases chirps with
      | nil => simp at h
      | cons x xs => rfl
  refine ⟨h1, ?_⟩
  rw [h1]
  split <;> simp

theorem parse_generated_chirp (tag now S L : Nat) (buffer : Buffer)
    (hS : S < 4294967296) :
    parse_sync_chirp (generate_sync_chirp tag now buffer S).1 L
      = { node_id := 0, local_timestamp_us := L, remote_timestamp_us := now % 4294967296,
          signal_strength_dbm := -50, sequence_number := S } := by
  obtain ⟨_, _, _, b2, b3, b4, b5, b6, b7, b8, b9, _⟩ :=
    generate_sync_chirp_bytes tag now buffer S
  have hseq : read_u32 (generate_sync_chirp tag now buffer S).1 2 = S := by
    rw [read_u32_eq _ 2 (by rw [b2]; omega) (by rw [b3]; omega) (by rw [b4]; omega)
      (by rw [b5]; omega), b2, b3, b4, b5]
    omega
  have hts : read_u32 (generate_sync_chirp tag now buffer S).1 6 = now % 4294967296 := by
    rw [read_u32_eq _ 6 (by rw [b6]; omega) (by rw [b7]; omega) (by rw [b8]; omega)
      (by rw [b9]; omega), b6, b7, b8, b9]
    omega
  unfold parse_sync_chirp
  rw [hseq, hts]

/-- C6: for every 32-bit sequence number `S`, 32-bit generation timestamp `T`
and local timestamp `L`, the packet produced by `generate_sync_chirp` with
sequence number `S` at clock value `T`, fed with its reported length and `L`
into `process_sync_chirp`, appends exactly one `ChirpTimestamp`, with
`sequence_number = S`, `remote_timestamp_us = T` and
`local_timestamp_us = L` (the oldest entry is dropped when the buffer was
full). -/
theorem sync_chirp_round_trip (tag S T L : Nat) (st : TDOASync) (buffer : Buffer)
    (htag : tag < 256) (hS : S < 4294967296) (hT : T < 4294967296) :
    st.process_sync_chirp tag (generate_sync_chirp tag T buffer S).1
          (generate_sync_chirp tag T buffer S).2 L
        = st.add_chirp_timestamp
            { node_id := 0, local_timestamp_us := L, remote_timestamp_us := T,
              signal_strength_dbm := -50, sequence_number := S }
      ∧ (st.process_sync_chirp tag (generate_sync_chirp tag T buffer S).1
          (generate_sync_chirp tag T buffer S).2 L).recent_chirps
        = (if st.recent_chirps.length < 32 then
            st.recent_chirps ++
              [{ node_id := 0, local_timestamp_us := L, remote_timestamp_us := T,
                 signal_strength_dbm := -50, sequence_number := S }]
          else
            st.recent_chirps.tail ++
              [{ node_id := 0, local_timestamp_us := L, remote_timestamp_us := T,
                 signal_strength_dbm := -50, sequence_number := S }])
      ∧ (st.process_sync_chirp tag (generate_sync_chirp tag T buffer S).1
          (generate_sync_chirp tag T buffer S).2 L).recent_chirps.getLast?
        = some { node_id := 0, local_timestamp_us := L, remote_timestamp_us := T,
                 signal_strength_dbm := -50, sequence_number := S } := by
  have hb := generate_sync_chirp_bytes tag T buffer S
  have hproc : st.process_sync_chirp tag (generate_sync_chirp tag T buffer S).1
        (generate_sync_chirp tag T buffer S).2 L
      = st.add_chirp_timestamp
          { node_id := 0, local_timestamp_us := L, remote_timestamp_us := T,
            signal_strength_dbm := -50, sequence_number := S } := by
    unfold TDOASync.process_sync_chirp
    rw [if_neg, parse_generated_chirp tag T S L buffer hS, Nat.mod_eq_of_lt hT]
    rw [hb.1, hb.2.1, Nat.mod_eq_of_lt htag]
    simp
  rw [hproc]
  exact ⟨rfl, (push_chirp_eq st.recent_chirps _).1, (push_chirp_eq st.recent_chirps _).2⟩

/-- C6 witness: sequence number 12345 generated at clock value 777 and received
at local time 999 by a fresh synchroniser. -/
theorem sync_chirp_round_trip_witness :
    (TDOASync.new.process_sync_chirp 1 (generate_sync_chirp 1 777 (fun _ => 0) 12345).1
        (generate_sync_chirp 1 777 (fun _ => 0) 12345).2 999).recent_chirps
      = [{ node_id := 0, local_timestamp_us := 999, remote_timestamp_us := 777,
           signal_strength_dbm := -50, sequence_number := 12345 }] :=
  ((sync_chirp_round_trip 1 12345 777 999 TDOASync.new (fun _ => 0) (by decide) (by decide)
    (by decide)).2.1).trans (by simp [TDOASync.new])

/-- C8: `process_sync_chirp` accepts a packet exactly when `length >= 14` and
byte 0 is the SYNC type tag: an accepted packet is parsed and handed to
`add_chirp_timestamp` (so its chirp becomes the newest buffer entry), and for
every rejected packet the whole state (chirp buffer, node offsets, precision,
last sync time) is unchanged. -/
theorem process_sync_chirp_accepts_iff (tag : Nat) (st : TDOASync) (buffer : Buffer)
    (length L : Nat) :
    ((14 ≤ length ∧ buffer 0 = tag) →
        st.process_sync_chirp tag buffer length L
            = st.add_chirp_timestamp (parse_sync_chirp buffer L)
          ∧ (st.process_sync_chirp tag buffer length L).recent_chirps.getLast?
            = some (parse_sync_chirp buffer L))
      ∧ (¬ (14 ≤ length ∧ buffer 0 = tag) →
          st.process_sync_chirp tag buffer length L = st
            ∧ (st.process_sync_chirp tag buffer length L).recent_chirps = st.recent_chirps
            ∧ (st.process_sync_chirp tag buffer length L).node_offsets = st.node_offsets
            ∧ (st.process_sync_chirp tag buffer length L).sync_precision_us
                = st.sync_precision_us
            ∧ (st.process_sync_chirp tag buffer length L).last_sync_time_ms
                = st.last_sync_time_ms) := by
  constructor
  · intro h
    have hproc : st.process_sync_chirp tag buffer length L
        = st.add_chirp_timestamp (parse_sync_chirp buffer L) := by
      unfold TDOASync.process_sync_chirp
      rw [if_neg]
      intro hbad
      rcases hbad with hlen | htag
      · omega
      · exact htag h.2
    rw [hproc]
    exact ⟨rfl, (push_chirp_eq st.recent_chirps _).2⟩
  · intro h
    have hproc : st.process_sync_chirp tag buffer length L = st := by
      unfold TDOASync.process_sync_chirp
      rw [if_pos]
      by_cases hlen : length < 14
      · exact Or.inl hlen
      · exact Or.inr (fun htag => h ⟨by omega, htag⟩)
    rw [hproc]
    exact ⟨rfl, rfl, rfl, rfl, rfl⟩

/-- C8 witness: a generated packet is accepted with length 14 and rejected with
length 13; a packet with a wrong tag is rejected. -/
theorem process_sync_chirp_accepts_iff_witness :
    (TDOASync.new.process_sync_chirp 1 (generate_sync_chirp 1 777 (fun _ => 0) 5).1 14
        999).recent_chirps.getLast?
        = some (parse_sync_chirp (generate_sync_chirp 1 777 (fun _ => 0) 5).1 999)
      ∧ two_node_state.process_sync_chirp 1 (generate_sync_chirp 1 777 (fun _ => 0) 5).1 13
          999 = two_node_state
      ∧ two_node_state.process_sync_chirp 1 (generate_sync_chirp 2 777 (fun _ => 0) 5).1 14
          999 = two_node_state :=
  ⟨((process_sync_chirp_accepts_iff 1 TDOASync.new
      (generate_sync_chirp 1 777 (fun _ => 0) 5).1 14 999).1
        ⟨by decide, by simp [generate_sync_chirp, store, Function.update]⟩).2,
   ((process_sync_chirp_accepts_iff 1 two_node_state
      (generate_sync_chirp 1 777 (fun _ => 0) 5).1 13 999).2
        (fun h => absurd h.1 (by decide))).1,
   ((process_sync_chirp_accepts_iff 1 two_node_state
      (generate_sync_chirp 2 777 (fun _ => 0) 5).1 14 999).2
        (fun h => absurd h.2 (by simp [generate_sync_chirp, store, Function.update]))).1⟩

/-! ## Theorems: capacity invariant -/

theorem push_chirp_length_le (chirps : List ChirpTimestamp) (c : ChirpTimestamp)
    (h : chirps.length ≤ TDOA_MAX_CHIRPS) :
    (push_chirp chirps c).length ≤ TDOA_MAX_CHIRPS := by
  unfold TDOA_MAX_CHIRPS at *
  rw [(push_chirp_eq chirps c).1]
  split
  · simp; omega
  · simp; omega

theorem step_preserves_capacity (tag N : Nat) (st : TDOASync) (op : TDOAOp)
    (h : st.recent_chirps.length ≤ TDOA_MAX_CHIRPS) :
    (st.step tag N op).recent_chirps.length ≤ TDOA_MAX_CHIRPS := by
  cases op with
  | add_chirp_timestamp chirp => exact push_chirp_length_le _ _ h
  | process_sync_chirp buffer length L =>
    show (st.process_sync_chirp tag buffer length L).recent_chirps.length ≤ _
    unfold TDOASync.process_sync_chirp
    split
    · exact h
    · exact push_chirp_length_le _ _ h
  | calculate_offset a b => exact h
  | synchronize_mesh now => exact h
  | generate_sync_chirp now buffer S => exact h

theorem foldl_step_preserves_capacity (tag N : Nat) (ops : List TDOAOp) (st : TDOASync)
    (h : st.recent_chirps.length ≤ TDOA_MAX_CHIRPS) :
    (ops.foldl (TDOASync.step tag N) st).recent_chirps.length ≤ TDOA_MAX_CHIRPS := by
  induction ops generalizing st with
  | nil => exact h
  | cons op ops ih =>
    rw [List.foldl_cons]
    exact ih _ (step_preserves_capacity tag N st op h)

/-- C9: every operation of `TDOASync` (`add_chirp_timestamp`,
`process_sync_chirp` with any buffer, `calculate_offset`, `synchronize_mesh`,
`generate_sync_chirp`) preserves the invariant that the chirp buffer holds at
most 32 entries; hence it holds in every state reachable from a freshly
constructed `TDOASync`. -/
theorem chirp_buffer_never_exceeds_capacity (tag N : Nat) :
    (∀ (st : TDOASync) (op : TDOAOp), st.recent_chirps.length ≤ 32 →
        (st.step tag N op).recent_chirps.length ≤ 32)
      ∧ (∀ ops : List TDOAOp,
          (ops.foldl (TDOASync.step tag N) TDOASync.new).recent_chirps.length ≤ 32) :=
  ⟨fun st op h => step_preserves_capacity tag N st op h,
   fun ops => foldl_step_preserves_capacity tag N ops TDOASync.new (by simp [TDOASync.new])⟩

/-- C9 witness: the invariant step applied to the two-node scenario and a
packet reception. -/
theorem chirp_buffer_never_exceeds_capacity_witness :
    two_node_state.recent_chirps.length ≤ 32
      ∧ (two_node_state.step 1 4
          (.process_sync_chirp (generate_sync_chirp 1 777 (fun _ => 0) 5).1 14
            999)).recent_chirps.length ≤ 32 :=
  ⟨by simp [two_node_state, TDOASync.add_chirp_timestamp, TDOASync.new, push_chirp,
      TDOA_MAX_CHIRPS],
   (chirp_buffer_never_exceeds_capacity 1 4).1 two_node_state
      (.process_sync_chirp (generate_sync_chirp 1 777 (fun _ => 0) 5).1 14 999)
      (by simp [two_node_state, TDOASync.add_chirp_timestamp, TDOASync.new, push_chirp,
        TDOA_MAX_CHIRPS])⟩

/-! ## Theorems: binary32 rounding -/

theorem round_half_even_bounds (m : ℚ) :
    ⌊m⌋ ≤ round_half_even m ∧ round_half_even m ≤ ⌊m⌋ + 1 := by
  unfold round_half_even
  split_ifs <;> constructor <;> omega

theorem round_half_even_intCast (k : Int) : round_half_even (k : ℚ) = k := by
  unfold round_half_even
  simp

theorem round_half_even_mono {a b : ℚ} (h : a ≤ b) :
    round_half_even a ≤ round_half_even b := by
  have hfl : ⌊a⌋ ≤ ⌊b⌋ := Int.floor_mono h
  rcases lt_or_eq_of_le hfl with hlt | heq
  · have h1 := (round_half_even_bounds a).2
    have h2 := (round_half_even_bounds b).1
    omega
  · unfold round_half_even
    rw [heq]
    have hab : a - (⌊b⌋ : ℚ) ≤ b - (⌊b⌋ : ℚ) := by linarith
    split_ifs <;> first | omega | (exfalso; linarith)

theorem round_half_even_eq (m : ℚ) (k : Int) (h1 : (k : ℚ) - 1 / 2 < m)
    (h2 : m < (k : ℚ) + 1 / 2) : round_half_even m = k := by
  have hf1 : k - 1 ≤ ⌊m⌋ := Int.le_floor.mpr (by push_cast; linarith)
  have hf2 : ⌊m⌋ < k + 1 := Int.floor_lt.mpr (by push_cast; linarith)
  have hfl := Int.floor_le m
  have hfl2 := Int.lt_floor_add_one m
  have hcases : ⌊m⌋ = k - 1 ∨ ⌊m⌋ = k := by omega
  unfold round_half_even
  rcases hcases with h | h
  · rw [h]
    have hlt : ¬ (m - ((k - 1 : Int) : ℚ) < 1 / 2) := by push_cast; linarith
    have hgt : (1 / 2 : ℚ) < m - ((k - 1 : Int) : ℚ) := by push_cast; linarith
    rw [if_neg hlt, if_pos hgt]
    omega
  · rw [h]
    have hlt : m - ((k : Int) : ℚ) < 1 / 2 := by linarith
    rw [if_pos hlt]

theorem round_half_even_abs_sub (m : ℚ) : |(round_half_even m : ℚ) - m| ≤ 1 / 2 := by
  have hfl := Int.floor_le m
  have hfl2 := Int.lt_floor_add_one m
  unfold round_half_even
  rw [abs_le]
  split_ifs <;> constructor <;> push_cast <;> linarith

theorem two_zpow_pos (e : Int) : (0 : ℚ) < 2 ^ e := zpow_pos (by norm_num) e

theorem two_zpow_add (a b : Int) : (2 : ℚ) ^ (a + b) = 2 ^ a * 2 ^ b :=
  zpow_add₀ (by norm_num) a b

theorem f32_exponent_eq (x : ℚ) (e : Int) (he : -126 ≤ e) (hlo : (2 : ℚ) ^ e ≤ x)
    (hhi : x < 2 ^ (e + 1)) : f32_exponent x = e := by
  have hx : 0 < x := lt_of_lt_of_le (two_zpow_pos e) hlo
  have h1 : e ≤ Int.log 2 x :=
    (Int.zpow_le_iff_le_log (by norm_num) hx).mp (by simpa using hlo)
  have h2 : Int.log 2 x < e + 1 :=
    (Int.lt_zpow_iff_log_lt (by norm_num) hx).mp (by simpa using hhi)
  unfold f32_exponent
  omega

theorem f32_exponent_bounds {x : ℚ} (hx : 0 < x) :
    -126 ≤ f32_exponent x ∧ x < 2 ^ (f32_exponent x + 1)
      ∧ (-126 < f32_exponent x → (2 : ℚ) ^ f32_exponent x ≤ x) := by
  have h1 : ((2 : Nat) : ℚ) ^ Int.log 2 x ≤ x := Int.zpow_log_le_self (by norm_num) hx
  have h2 : x < ((2 : Nat) : ℚ) ^ (Int.log 2 x + 1) :=
    Int.lt_zpow_succ_log_self (by norm_num) x
  have hle : Int.log 2 x ≤ f32_exponent x := le_max_left _ _
  refine ⟨le_max_right _ _, ?_, ?_⟩
  · refine lt_of_lt_of_le h2 ?_
    have : ((2 : Nat) : ℚ) = 2 := by norm_num
    rw [this]
    exact zpow_le_zpow_right₀ (by norm_num) (by omega)
  · intro hgt
    have heq : f32_exponent x = Int.log 2 x := by
      unfold f32_exponent at hgt ⊢
      omega
    rw [heq]
    simpa using h1

theorem f32_exponent_mono {x y : ℚ} (hx : 0 < x) (hxy : x ≤ y) :
    f32_exponent x ≤ f32_exponent y :=
  max_le_max (Int.log_mono_right hx hxy) le_rfl

theorem f32_round_pos_le {x : ℚ} (hx : 0 < x) :
    f32_round_pos x ≤ 2 ^ (f32_exponent x + 1) := by
  have hu := two_zpow_pos (f32_exponent x - 23)
  have hsplit : (2 : ℚ) ^ (f32_exponent x + 1) = 16777216 * 2 ^ (f32_exponent x - 23) := by
    have : f32_exponent x + 1 = 24 + (f32_exponent x - 23) := by ring
    rw [this, two_zpow_add]
    norm_num
  have hm : x / 2 ^ (f32_exponent x - 23) ≤ ((16777216 : Int) : ℚ) := by
    rw [div_le_iff₀ hu]
    push_cast
    rw [← hsplit]
    exact (f32_exponent_bounds hx).2.1.le
  have hr := round_half_even_mono hm
  rw [round_half_even_intCast] at hr
  have hr2 : (round_half_even (x / 2 ^ (f32_exponent x - 23)) : ℚ) ≤ 16777216 := by
    exact_mod_cast hr
  unfold f32_round_pos
  rw [hsplit]
  exact mul_le_mul_of_nonneg_right hr2 hu.le

theorem le_f32_round_pos {x : ℚ} (hE : (2 : ℚ) ^ f32_exponent x ≤ x) :
    2 ^ f32_exponent x ≤ f32_round_pos x := by
  have hu := two_zpow_pos (f32_exponent x - 23)
  have hsplit : (2 : ℚ) ^ f32_exponent x = 8388608 * 2 ^ (f32_exponent x - 23) := by
    have : f32_exponent x = 23 + (f32_exponent x - 23) := by ring
    nth_rewrite 1 [this]
    rw [two_zpow_add]
    norm_num
  have hm : ((8388608 : Int) : ℚ) ≤ x / 2 ^ (f32_exponent x - 23) := by
    rw [le_div_iff₀ hu]
    push_cast
    rw [← hsplit]
    exact hE
  have hr := round_half_even_mono hm
  rw [round_half_even_intCast] at hr
  have hr2 : (8388608 : ℚ) ≤ (round_half_even (x / 2 ^ (f32_exponent x - 23)) : ℚ) := by
    exact_mod_cast hr
  unfold f32_round_pos
  rw [hsplit]
  exact mul_le_mul_of_nonneg_right hr2 hu.le

theorem f32_round_pos_nonneg {x : ℚ} (hx : 0 < x) : 0 ≤ f32_round_pos x := by
  have hu := two_zpow_pos (f32_exponent x - 23)
  have hm : ((0 : Int) : ℚ) ≤ x / 2 ^ (f32_exponent x - 23) := by
    push_cast
    exact (div_pos hx hu).le
  have hr := round_half_even_mono hm
  rw [round_half_even_intCast] at hr
  have hr2 : (0 : ℚ) ≤ (round_half_even (x / 2 ^ (f32_exponent x - 23)) : ℚ) := by
    exact_mod_cast hr
  unfold f32_round_pos
  exact mul_nonneg hr2 hu.le

theorem f32_round_pos_mono {x y : ℚ} (hx : 0 < x) (hxy : x ≤ y) :
    f32_round_pos x ≤ f32_round_pos y := by
  have hy : 0 < y := lt_of_lt_of_le hx hxy
  rcases lt_or_eq_of_le (f32_exponent_mono hx hxy) with hlt | heq
  · have hEy : (2 : ℚ) ^ f32_exponent y ≤ y :=
      (f32_exponent_bounds hy).2.2 (by have := (f32_exponent_bounds hx).1; omega)
    calc f32_round_pos x ≤ 2 ^ (f32_exponent x + 1) := f32_round_pos_le hx
      _ ≤ 2 ^ f32_exponent y := zpow_le_zpow_right₀ (by norm_num) (by omega)
      _ ≤ f32_round_pos y := le_f32_round_pos hEy
  · have hu := two_zpow_pos (f32_exponent y - 23)
    unfold f32_round_pos
    rw [heq]
    have hm : x / 2 ^ (f32_exponent y - 23) ≤ y / 2 ^ (f32_exponent y - 23) :=
      div_le_div_of_nonneg_right hxy hu.le
    have hr := round_half_even_mono hm
    have hr2 : (round_half_even (x / 2 ^ (f32_exponent y - 23)) : ℚ)
        ≤ (round_half_even (y / 2 ^ (f32_exponent y - 23)) : ℚ) := by
      exact_mod_cast hr
    exact mul_le_mul_of_nonneg_right hr2 hu.le

theorem f32_zero : f32 0 = 0 := by
  unfold f32
  rw [if_pos rfl]

theorem f32_of_pos {x : ℚ} (hx : 0 < x) : f32 x = f32_round_pos x := by
  unfold f32
  rw [if_neg hx.ne', if_pos hx]

theorem f32_of_neg {x : ℚ} (hx : x < 0) : f32 x = - f32_round_pos (-x) := by
  unfold f32
  rw [if_neg hx.ne, if_neg (not_lt.mpr hx.le)]

theorem f32_nonneg {x : ℚ} (hx : 0 ≤ x) : 0 ≤ f32 x := by
  rcases lt_or_eq_of_le hx with h | h
  · rw [f32_of_pos h]
    exact f32_round_pos_nonneg h
  · rw [← h, f32_zero]

theorem f32_nonpos {x : ℚ} (hx : x ≤ 0) : f32 x ≤ 0 := by
  rcases lt_or_eq_of_le hx with h | h
  · rw [f32_of_neg h]
    have := f32_round_pos_nonneg (neg_pos.mpr h)
    linarith
  · rw [h, f32_zero]

theorem f32_mono {x y : ℚ} (h : x ≤ y) : f32 x ≤ f32 y := by
  rcases le_or_lt 0 x with hx | hx
  · rcases lt_or_eq_of_le hx with hx2 | hx2
    · rw [f32_of_pos hx2, f32_of_pos (lt_of_lt_of_le hx2 h)]
      exact f32_round_pos_mono hx2 h
    · rw [← hx2, f32_zero]
      exact f32_nonneg (hx2 ▸ h)
  · rcases le_or_lt 0 y with hy | hy
    · exact le_trans (f32_nonpos hx.le) (f32_nonneg hy)
    · rw [f32_of_neg hx, f32_of_neg hy]
      have := f32_round_pos_mono (neg_pos.mpr hy) (neg_le_neg h)
      linarith

theorem f32_eval (x : ℚ) (e k : Int) (he : -126 ≤ e) (hlo : (2 : ℚ) ^ e ≤ x)
    (hhi : x < 2 ^ (e + 1)) (h1 : (k : ℚ) - 1 / 2 < x / 2 ^ (e - 23))
    (h2 : x / 2 ^ (e - 23) < (k : ℚ) + 1 / 2) :
    f32 x = k * 2 ^ (e - 23) := by
  have hx : 0 < x := lt_of_lt_of_le (two_zpow_pos e) hlo
  rw [f32_of_pos hx]
  unfold f32_round_pos
  rw [f32_exponent_eq x e he hlo hhi, round_half_even_eq _ k h1 h2]

theorem f32_natCast (n : Nat) (hn : n < 16777216) : f32 (n : ℚ) = n := by
  rcases Nat.eq_zero_or_pos n with h0 | hpos
  · subst h0
    simpa using f32_zero
  have hx : (0 : ℚ) < n := by exact_mod_cast hpos
  have hL : Nat.log 2 n < 24 := by
    apply Nat.log_lt_of_lt_pow (by omega)
    simpa using hn
  have hE : f32_exponent (n : ℚ) = (Nat.log 2 n : Int) := by
    unfold f32_exponent
    rw [Int.log_natCast]
    omega
  have hexp : (Nat.log 2 n : Int) - 23 = -((23 - Nat.log 2 n : Nat) : Int) := by omega
  rw [f32_of_pos hx]
  unfold f32_round_pos
  rw [hE, hexp, zpow_neg, zpow_natCast, div_inv_eq_mul]
  have hcast : (n : ℚ) * 2 ^ (23 - Nat.log 2 n)
      = (((n * 2 ^ (23 - Nat.log 2 n) : Nat) : Int) : ℚ) := by
    push_cast
    rfl
  rw [hcast, round_half_even_intCast]
  push_cast
  have hp : (2 : ℚ) ^ (23 - Nat.log 2 n) ≠ 0 := pow_ne_zero _ (by norm_num)
  field_simp

theorem f32_one : f32 1 = 1 := by
  have h := f32_natCast 1 (by norm_num)
  simpa using h

theorem f32_abs_sub_le (x : ℚ) (e : Int) (he : -126 ≤ e) (hx : 0 < x)
    (hhi : x < 2 ^ (e + 1)) : |f32 x - x| ≤ 2 ^ (e - 24) := by
  have hu := two_zpow_pos (f32_exponent x - 23)
  have hEe : f32_exponent x ≤ e := by
    have hlog : Int.log 2 x < e + 1 :=
      (Int.lt_zpow_iff_log_lt (by norm_num) hx).mp (by simpa using hhi)
    unfold f32_exponent
    omega
  have hr := round_half_even_abs_sub (x / 2 ^ (f32_exponent x - 23))
  have hfac : f32 x - x
      = ((round_half_even (x / 2 ^ (f32_exponent x - 23)) : ℚ)
          - x / 2 ^ (f32_exponent x - 23)) * 2 ^ (f32_exponent x - 23) := by
    rw [f32_of_pos hx]
    unfold f32_round_pos
    field_simp
  rw [hfac, abs_mul, abs_of_pos hu]
  have hhalf : (2 : ℚ) ^ (f32_exponent x - 24) = 1 / 2 * 2 ^ (f32_exponent x - 23) := by
    have : f32_exponent x - 24 = -1 + (f32_exponent x - 23) := by ring
    rw [this, two_zpow_add]
    norm_num
  calc |(round_half_even (x / 2 ^ (f32_exponent x - 23)) : ℚ)
          - x / 2 ^ (f32_exponent x - 23)| * 2 ^ (f32_exponent x - 23)
      ≤ 1 / 2 * 2 ^ (f32_exponent x - 23) := mul_le_mul_of_nonneg_right hr hu.le
    _ = 2 ^ (f32_exponent x - 24) := hhalf.symm
    _ ≤ 2 ^ (e - 24) := zpow_le_zpow_right₀ (by norm_num) (by omega)

theorem f32_abs_sub_le_of_nonneg (x : ℚ) (e : Int) (he : -126 ≤ e) (hx : 0 ≤ x)
    (hhi : x < 2 ^ (e + 1)) : |f32 x - x| ≤ 2 ^ (e - 24) := by
  rcases lt_or_eq_of_le hx with h | h
  · exact f32_abs_sub_le x e he h hhi
  · rw [← h, f32_zero]
    simpa using (two_zpow_pos (e - 24)).le

theorem truncToInt_of_nonneg {y : ℚ} (h : 0 ≤ y) : truncToInt y = ⌊y⌋ := by
  unfold truncToInt
  rw [if_pos h]

theorem trunc_f32_bounds (y : ℚ) (h0 : 0 ≤ y) (h1 : y ≤ 16777215) :
    truncToInt (f32 y) = ⌊f32 y⌋ ∧ ⌊y⌋ ≤ ⌊f32 y⌋ ∧ ⌊f32 y⌋ ≤ ⌈y⌉ := by
  refine ⟨truncToInt_of_nonneg (f32_nonneg h0), ?_, ?_⟩
  · have hfl : 0 ≤ ⌊y⌋ := Int.floor_nonneg.mpr h0
    have hlt : ⌊y⌋ < 16777216 := by
      rw [Int.floor_lt]
      push_cast
      linarith
    have hn : (⌊y⌋.toNat : Int) = ⌊y⌋ := Int.toNat_of_nonneg hfl
    have hq : ((⌊y⌋.toNat : Nat) : ℚ) = ((⌊y⌋ : Int) : ℚ) := by exact_mod_cast hn
    have hle : ((⌊y⌋.toNat : Nat) : ℚ) ≤ y := by
      rw [hq]
      exact Int.floor_le y
    have hm := f32_mono hle
    rw [f32_natCast _ (by omega), hq] at hm
    exact Int.le_floor.mpr hm
  · have hce : 0 ≤ ⌈y⌉ := Int.ceil_nonneg h0
    have hle2 : ⌈y⌉ ≤ 16777215 := by
      rw [Int.ceil_le]
      push_cast
      exact h1
    have hn : (⌈y⌉.toNat : Int) = ⌈y⌉ := Int.toNat_of_nonneg hce
    have hq : ((⌈y⌉.toNat : Nat) : ℚ) = ((⌈y⌉ : Int) : ℚ) := by exact_mod_cast hn
    have hle : y ≤ ((⌈y⌉.toNat : Nat) : ℚ) := by
      rw [hq]
      exact Int.le_ceil y
    have hm := f32_mono hle
    rw [f32_natCast _ (by omega), hq] at hm
    have := le_trans (Int.floor_le (f32 y)) hm
    exact_mod_cast this

theorem floor_sub_floor_le_one (a b : ℚ) (h : |a - b| < 1) : |⌊a⌋ - ⌊b⌋| ≤ 1 := by
  rw [abs_lt] at h
  have a1 := Int.floor_le a
  have a2 := Int.lt_floor_add_one a
  have b1 := Int.floor_le b
  have b2 := Int.lt_floor_add_one b
  have h1 : ⌊a⌋ < ⌊b⌋ + 2 := by
    have : ((⌊a⌋ : Int) : ℚ) < ((⌊b⌋ + 2 : Int) : ℚ) := by push_cast; linarith
    exact_mod_cast this
  have h2 : ⌊b⌋ < ⌊a⌋ + 2 := by
    have : ((⌊b⌋ : Int) : ℚ) < ((⌊a⌋ + 2 : Int) : ℚ) := by push_cast; linarith
    exact_mod_cast this
  rw [abs_le]
  constructor <;> omega

/-! ## Theorems: telemetry payload -/

theorem foldl_store_apply (f : Nat → Nat → Nat) (n : Nat) (p : Buffer) (k : Nat) :
    (List.range n).foldl (fun q i => store q i (f i (q i))) p k
      = if k < n then f k (p k) % 256 else p k := by
  induction n with
  | zero => simp
  | succ n ih =>
    rw [List.range_succ, List.foldl_append, List.foldl_cons, List.foldl_nil]
    unfold store at ih ⊢
    by_cases hk : k = n
    · subst hk
      rw [Function.update_same, ih]
      simp
    · rw [Function.update_noteq hk, ih]
      by_cases hlt : k < n
      · have hlt2 : k < n + 1 := Nat.lt_succ_of_lt hlt
        rw [if_pos hlt, if_pos hlt2]
      · have hlt2 : ¬ k < n + 1 :=
          fun h => hlt (lt_of_le_of_ne (Nat.lt_succ_iff.mp h) hk)
        rw [if_neg hlt, if_neg hlt2]

theorem session_byte_eq (session_id i : Nat) :
    (session_id >>> ((i % 4) * 8)) &&& 0xFF = session_id / 256 ^ (i % 4) % 256 := by
  rw [and_255_eq_mod, Nat.shiftRight_eq_div_pow, Nat.mul_comm, Nat.pow_mul]

theorem obfuscate_apply (session_id : Nat) (p : Buffer) (k : Nat) :
    obfuscate session_id p k
      = if k < 21 then (p k ^^^ (session_id / 256 ^ (k % 4) % 256)) % 256 else p k := by
  unfold obfuscate
  have h := foldl_store_apply
    (fun i v => v ^^^ ((session_id >>> ((i % 4) * 8)) &&& 0xFF)) 21 p k
  simp only [session_byte_eq] at h ⊢
  exact h

theorem xor_decode_obfuscate (session_id : Nat) (p : Buffer) (k : Nat) (hk : k < 21)
    (hp : p k < 256) :
    xor_decode session_id (obfuscate session_id p) k = p k := by
  unfold xor_decode
  rw [obfuscate_apply, if_pos hk]
  have hkey : session_id / 256 ^ (k % 4) % 256 < 2 ^ 8 := by
    have := Nat.mod_lt (session_id / 256 ^ (k % 4)) (by decide : 256 > 0)
    simpa using this
  have hx : p k ^^^ (session_id / 256 ^ (k % 4) % 256) < 2 ^ 8 :=
    Nat.xor_lt_two_pow (by simpa using hp) hkey
  rw [Nat.mod_eq_of_lt (by simpa using hx), Nat.xor_cancel_right]

theorem build_payload_bytes (r : ProtocolResult) (millis sid : Nat) :
    build_payload r millis sid 0 = r.key_bit % 256
      ∧ (∀ i < 4, build_payload r millis sid (2 * i + 1)
            = low_byte (fixed_point (r.sic_outcomes i)) % 256
          ∧ build_payload r millis sid (2 * i + 1 + 1)
            = high_byte (fixed_point (r.sic_outcomes i)) % 256)
      ∧ build_payload r millis sid 9 = millis % 4294967296 % 256
      ∧ build_payload r millis sid 10 = millis % 4294967296 / 256 % 256
      ∧ build_payload r millis sid 11 = millis % 4294967296 / 65536 % 256
      ∧ build_payload r millis sid 12 = millis % 4294967296 / 16777216 % 256
      ∧ build_payload r millis sid 13 = sid % 256
      ∧ build_payload r millis sid 14 = sid / 256 % 256
      ∧ build_payload r millis sid 15 = sid / 65536 % 256
      ∧ build_payload r millis sid 16 = sid / 16777216 % 256
      ∧ build_payload r millis sid 17 = low_byte (fixed_point r.corrected_purity) % 256
      ∧ build_payload r millis sid 18 = high_byte (fixed_point r.corrected_purity) % 256
      ∧ build_payload r millis sid 19 = 0
      ∧ build_payload r millis sid 20 = 0 := by
  have hrange : List.range 4 = [0, 1, 2, 3] := rfl
  simp only [build_payload, encode_outcomes, hrange, List.foldl_cons, List.foldl_nil, store,
    and_255_eq_mod, Nat.shiftRight_eq_div_pow, Function.update]
  refine ⟨?_, ?_, ?_, ?_, ?_, ?_, ?_, ?_, ?_, ?_, ?_, ?_, ?_, ?_⟩
  all_goals first
    | (intro i hi
       have hcases : i = 0 ∨ i = 1 ∨ i = 2 ∨ i = 3 := by omega
       rcases hcases with h | h | h | h <;> subst h <;> simp)
    | simp

theorem build_payload_lt (r : ProtocolResult) (millis sid : Nat) (k : Nat) (hk : k < 21) :
    build_payload r millis sid k < 256 := by
  obtain ⟨b0, bs, b9, b10, b11, b12, b13, b14, b15, b16, b17, b18, b19, b20⟩ :=
    build_payload_bytes r millis sid
  have s0 := bs 0 (by omega)
  have s1 := bs 1 (by omega)
  have s2 := bs 2 (by omega)
  have s3 := bs 3 (by omega)
  norm_num at s0 s1 s2 s3
  interval_cases k
  · rw [b0]; omega
  · rw [s0.1]; omega
  · rw [s0.2]; omega
  · rw [s1.1]; omega
  · rw [s1.2]; omega
  · rw [s2.1]; omega
  · rw [s2.2]; omega
  · rw [s3.1]; omega
  · rw [s3.2]; omega
  · rw [b9]; omega
  · rw [b10]; omega
  · rw [b11]; omega
  · rw [b12]; omega
  · rw [b13]; omega
  · rw [b14]; omega
  · rw [b15]; omega
  · rw [b16]; omega
  · rw [b17]; omega
  · rw [b18]; omega
  · rw [b19]; omega
  · rw [b20]; omega

theorem decoded_byte (r : ProtocolResult) (millis sid : Nat) (k : Nat) (hk : k < 21) :
    xor_decode sid (quantum_payload r millis sid) k = build_payload r millis sid k :=
  xor_decode_obfuscate sid _ k hk (build_payload_lt r millis sid k hk)

theorem fixed_point_eq_trunc (x : ℚ) (h0 : 0 ≤ x) (h1 : x ≤ 1) :
    fixed_point x = truncToInt (f32 (x * 10000))
      ∧ ⌊x * 10000⌋ ≤ fixed_point x ∧ fixed_point x ≤ ⌈x * 10000⌉
      ∧ 0 ≤ fixed_point x ∧ fixed_point x ≤ 10000 := by
  have hnn : (0 : ℚ) ≤ x * 10000 := by positivity
  obtain ⟨ht, hlo, hhi⟩ := trunc_f32_bounds (x * 10000) hnn (by linarith)
  have hfl : 0 ≤ ⌊x * 10000⌋ := Int.floor_nonneg.mpr hnn
  have hce : ⌈x * 10000⌉ ≤ 10000 := by
    rw [Int.ceil_le]
    push_cast
    linarith
  have hfp : fixed_point x = truncToInt (f32 (x * 10000)) := by
    unfold fixed_point toInt16
    rw [ht]
    omega
  rw [hfp, ht]
  refine ⟨rfl, hlo, hhi, ?_, ?_⟩ <;> omega

theorem fixed_point_bytes (x : ℚ) (h0 : 0 ≤ x) (h1 : x ≤ 1) :
    ((low_byte (fixed_point x) % 256 + 256 * (high_byte (fixed_point x) % 256) : Nat) : Int)
      = fixed_point x := by
  obtain ⟨_, _, _, hlo, hhi⟩ := fixed_point_eq_trunc x h0 h1
  unfold low_byte high_byte
  omega

theorem fixed_point_precision (x : ℚ) (d : Int) (hlo : ⌊x * 10000⌋ ≤ d)
    (hhi : d ≤ ⌈x * 10000⌉) : |x - (d : ℚ) / 10000| < 1 / 10000 := by
  have a1 : ((⌊x * 10000⌋ : Int) : ℚ) ≤ (d : ℚ) := by exact_mod_cast hlo
  have a2 : (d : ℚ) ≤ ((⌈x * 10000⌉ : Int) : ℚ) := by exact_mod_cast hhi
  have b1 := Int.lt_floor_add_one (x * 10000)
  have b2 := Int.ceil_lt_add_one (x * 10000)
  rw [abs_lt]
  constructor <;> linarith

theorem f32_product_third : f32 (1 / 3 * 10000) = 13653333 / 4096 := by
  rw [f32_eval (1 / 3 * 10000) 11 13653333 (by norm_num) (by norm_num) (by norm_num)
    (by norm_num) (by norm_num)]
  norm_num

theorem f32_product_float_029 : f32 (9730785 / 33554432 * 10000) = 2900 := by
  rw [f32_eval (9730785 / 33554432 * 10000) 11 11878400 (by norm_num) (by norm_num)
    (by norm_num) (by norm_num) (by norm_num)]
  norm_num

theorem f32_product_above_half : f32 (8388609 / 16777216 * 10000) = 10240001 / 2048 := by
  rw [f32_eval (8388609 / 16777216 * 10000) 12 10240001 (by norm_num) (by norm_num)
    (by norm_num) (by norm_num) (by norm_num)]
  norm_num

theorem fixed_point_third : fixed_point (1 / 3) = 3333 ∧ fixed_point (3333 / 10000) = 3333 := by
  constructor
  · unfold fixed_point
    rw [f32_product_third, truncToInt_of_nonneg (by norm_num)]
    have : ⌊(13653333 / 4096 : ℚ)⌋ = 3333 := by
      rw [Int.floor_eq_iff]; norm_num
    rw [this]
    decide
  · unfold fixed_point
    have h : (3333 / 10000 * 10000 : ℚ) = ((3333 : Nat) : ℚ) := by norm_num
    rw [h, f32_natCast 3333 (by norm_num), truncToInt_of_nonneg (by norm_num)]
    have : ⌊((3333 : Nat) : ℚ)⌋ = 3333 := by
      rw [Int.floor_eq_iff]; norm_num
    rw [this]
    decide

theorem fixed_point_float_samples :
    fixed_point (9730785 / 33554432) = 2900
      ∧ fixed_point (8388609 / 16777216) = 5000
      ∧ fixed_point (1 / 2) = 5000 := by
  refine ⟨?_, ?_, ?_⟩
  · unfold fixed_point
    rw [f32_product_float_029, truncToInt_of_nonneg (by norm_num)]
    have : ⌊(2900 : ℚ)⌋ = 2900 := by
      rw [Int.floor_eq_iff]; norm_num
    rw [this]
    decide
  · unfold fixed_point
    rw [f32_product_above_half, truncToInt_of_nonneg (by norm_num)]
    have : ⌊(10240001 / 2048 : ℚ)⌋ = 5000 := by
      rw [Int.floor_eq_iff]; norm_num
    rw [this]
    decide
  · unfold fixed_point
    have h : (1 / 2 * 10000 : ℚ) = ((5000 : Nat) : ℚ) := by norm_num
    rw [h, f32_natCast 5000 (by norm_num), truncToInt_of_nonneg (by norm_num)]
    have : ⌊((5000 : Nat) : ℚ)⌋ = 5000 := by
      rw [Int.floor_eq_iff]; norm_num
    rw [this]
    decide

theorem decode_purity_fixed (r : ProtocolResult) (millis sid : Nat)
    (hpur : 0 ≤ r.corrected_purity ∧ r.corrected_purity ≤ 1) :
    ((decode_telemetry sid (quantum_payload r millis sid)).purity_fixed : Int)
      = fixed_point r.corrected_purity := by
  show ((field_u16 (xor_decode sid (quantum_payload r millis sid)) 17 : Nat) : Int) = _
  unfold field_u16
  rw [decoded_byte r millis sid 17 (by decide), decoded_byte r millis sid (17 + 1) (by decide)]
  obtain ⟨_, _, _, _, _, _, _, _, _, _, b17, b18, _, _⟩ := build_payload_bytes r millis sid
  rw [b17, b18]
  exact fixed_point_bytes _ hpur.1 hpur.2

theorem decode_sic_fixed (r : ProtocolResult) (millis sid : Nat) (i : Nat) (hi : i < 4)
    (hsic : 0 ≤ r.sic_outcomes i ∧ r.sic_outcomes i ≤ 1) :
    ((decode_telemetry sid (quantum_payload r millis sid)).sic_fixed i : Int)
      = fixed_point (r.sic_outcomes i) := by
  show ((field_u16 (xor_decode sid (quantum_payload r millis sid)) (2 * i + 1) : Nat) : Int)
    = _
  unfold field_u16
  rw [decoded_byte r millis sid (2 * i + 1) (by omega),
    decoded_byte r millis sid (2 * i + 1 + 1) (by omega)]
  have hb := (build_payload_bytes r millis sid).2.1 i hi
  rw [hb.1, hb.2]
  exact fixed_point_bytes _ hsic.1 hsic.2

theorem decode_words (r : ProtocolResult) (millis sid : Nat)
    (hts : millis < 4294967296) (hsid : sid < 4294967296) :
    (decode_telemetry sid (quantum_payload r millis sid)).key_bit = r.key_bit % 256
      ∧ (decode_telemetry sid (quantum_payload r millis sid)).timestamp = millis
      ∧ (decode_telemetry sid (quantum_payload r millis sid)).session_id = sid := by
  obtain ⟨b0, _, b9, b10, b11, b12, b13, b14, b15, b16, _⟩ := build_payload_bytes r millis sid
  refine ⟨?_, ?_, ?_⟩
  · show xor_decode sid (quantum_payload r millis sid) 0 = _
    rw [decoded_byte r millis sid 0 (by decide), b0]
  · show field_u32 (xor_decode sid (quantum_payload r millis sid)) 9 = _
    unfold field_u32
    rw [decoded_byte r millis sid 9 (by decide), decoded_byte r millis sid (9 + 1) (by decide),
      decoded_byte r millis sid (9 + 2) (by decide),
      decoded_byte r millis sid (9 + 3) (by decide), b9, b10, b11, b12]
    omega
  · show field_u32 (xor_decode sid (quantum_payload r millis sid)) 13 = _
    unfold field_u32
    rw [decoded_byte r millis sid 13 (by decide),
      decoded_byte r millis sid (13 + 1) (by decide),
      decoded_byte r millis sid (13 + 2) (by decide),
      decoded_byte r millis sid (13 + 3) (by decide), b13, b14, b15, b16]
    omega

/-- C10 counterexample: a successful result whose purity is the `float` next
above one half, 1/2 + 2 ^ -24, decodes to the purity field 5000, that is 0.5
and not the purity; the result with purity one half yields the very same
obfuscated payload, so the purity cannot be recovered bit-exactly from the
payload. Moreover the outcome 0.29f decodes to the field 2900, while
`trunc (x * 10000)` of its exact value is 2899: the `float` product rounds up
to 2900.0 before it is truncated. -/
theorem telemetry_purity_not_recovered_exactly :
    (decode_telemetry 3735928559
        (quantum_payload float_sample_result 1000 3735928559)).purity_fixed = 5000
      ∧ (5000 : ℚ) / 10000 ≠ float_sample_result.corrected_purity
      ∧ float_sample_result.corrected_purity ≠ half_purity_result.corrected_purity
      ∧ quantum_payload float_sample_result 1000 3735928559
        = quantum_payload half_purity_result 1000 3735928559
      ∧ (decode_telemetry 3735928559
          (quantum_payload float_sample_result 1000 3735928559)).sic_fixed 0 = 2900
      ∧ truncToInt (float_sample_result.sic_outcomes 0 * 10000) = 2899 := by
  obtain ⟨f29, fabove, fhalf⟩ := fixed_point_float_samples
  have hp : 0 ≤ float_sample_result.corrected_purity
      ∧ float_sample_result.corrected_purity ≤ 1 := by
    simp only [float_sample_result]; norm_num
  have hs : 0 ≤ float_sample_result.sic_outcomes 0
      ∧ float_sample_result.sic_outcomes 0 ≤ 1 := by
    simp only [float_sample_result]; norm_num
  have hdec := decode_purity_fixed float_sample_result 1000 3735928559 hp
  have hsic := decode_sic_fixed float_sample_result 1000 3735928559 0 (by decide) hs
  have h3 : float_sample_result.corrected_purity = 8388609 / 16777216 := rfl
  have h4 : float_sample_result.sic_outcomes 0 = 9730785 / 33554432 := rfl
  rw [h3, fabove] at hdec
  rw [h4, f29] at hsic
  refine ⟨by exact_mod_cast hdec, ?_, ?_, ?_, by exact_mod_cast hsic, ?_⟩
  · rw [h3]
    norm_num
  · simp only [float_sample_result, half_purity_result]
    norm_num
  · have hf : fixed_point (8388609 / 16777216) = fixed_point (1 / 2) := by
      rw [fabove, fhalf]
    unfold quantum_payload build_payload
    simp only [float_sample_result, half_purity_result, encode_outcomes, hf]
  · rw [h4, truncToInt_of_nonneg (by norm_num), Int.floor_eq_iff]
    norm_num

/-- C10 (amended): for every successful `ProtocolResult` with `key_bit` in
{0, 1} and `sic_outcomes` and `corrected_purity` in [0, 1], every 32-bit
timestamp and 32-bit `session_id`, `run_protocol_step` broadcasts one payload
of length 21, and XOR-decoding it with the same `session_id` and reading the
little-endian fields recovers `key_bit`, the timestamp and `session_id`
exactly, and each `sic_outcome` and `corrected_purity` to 4-decimal fixed-point
precision: the 16-bit field is the truncated `float` product `x * 10000`, which
lies between `floor (x * 10000)` and `ceil (x * 10000)` and hence within 0.0001
of `x`. -/
theorem telemetry_round_trip (Q : Nat) (r : ProtocolResult) (millis : Nat)
    (st : ProtocolState) (hsucc : r.success = true)
    (hkey : r.key_bit = 0 ∨ r.key_bit = 1)
    (hsic : ∀ i < 4, 0 ≤ r.sic_outcomes i ∧ r.sic_outcomes i ≤ 1)
    (hpur : 0 ≤ r.corrected_purity ∧ r.corrected_purity ≤ 1)
    (hts : millis < 4294967296) (hsid : st.session_id < 4294967296) :
    ((run_protocol_step Q r millis st).2.map (fun b => (b.msg_type, b.len)) = [(Q % 256, 21)]
        ∧ (run_protocol_step Q r millis st).2.map (fun b => b.payload)
          = [quantum_payload r millis st.session_id])
      ∧ (decode_telemetry st.session_id
          (quantum_payload r millis st.session_id)).key_bit = r.key_bit
      ∧ (∀ i < 4,
          ((decode_telemetry st.session_id
              (quantum_payload r millis st.session_id)).sic_fixed i : Int)
            = truncToInt (f32 (r.sic_outcomes i * 10000))
          ∧ ⌊r.sic_outcomes i * 10000⌋
            ≤ ((decode_telemetry st.session_id
                (quantum_payload r millis st.session_id)).sic_fixed i : Int)
          ∧ ((decode_telemetry st.session_id
                (quantum_payload r millis st.session_id)).sic_fixed i : Int)
            ≤ ⌈r.sic_outcomes i * 10000⌉
          ∧ |r.sic_outcomes i
              - ((decode_telemetry st.session_id
                  (quantum_payload r millis st.session_id)).sic_fixed i : ℚ) / 10000|
            < 1 / 10000)
      ∧ (decode_telemetry st.session_id
          (quantum_payload r millis st.session_id)).timestamp = millis
      ∧ (decode_telemetry st.session_id
          (quantum_payload r millis st.session_id)).session_id = st.session_id
      ∧ ((decode_telemetry st.session_id
            (quantum_payload r millis st.session_id)).purity_fixed : Int)
          = truncToInt (f32 (r.corrected_purity * 10000))
      ∧ ⌊r.corrected_purity * 10000⌋
          ≤ ((decode_telemetry st.session_id
              (quantum_payload r millis st.session_id)).purity_fixed : Int)
      ∧ ((decode_telemetry st.session_id
            (quantum_payload r millis st.session_id)).purity_fixed : Int)
          ≤ ⌈r.corrected_purity * 10000⌉
      ∧ |r.corrected_purity
          - ((decode_telemetry st.session_id
              (quantum_payload r millis st.session_id)).purity_fixed : ℚ) / 10000|
        < 1 / 10000 := by
  obtain ⟨hk, ht, hs⟩ := decode_words r millis st.session_id hts hsid
  have hp := decode_purity_fixed r millis st.session_id hpur
  obtain ⟨p1, p2, p3, _, _⟩ := fixed_point_eq_trunc r.corrected_purity hpur.1 hpur.2
  have cast_fix : ∀ (n : Nat) (z : Int), (n : Int) = z → (n : ℚ) = (z : ℚ) := by
    intro n z h
    rw [← h]
    push_cast
    rfl
  refine ⟨?_, ?_, ?_, ht, hs, hp.trans p1, ?_, ?_, ?_⟩
  · simp [run_protocol_step, hsucc]
  · rw [hk]
    rcases hkey with h | h <;> rw [h]
  · intro i hi
    have hf := decode_sic_fixed r millis st.session_id i hi (hsic i hi)
    obtain ⟨s1, s2, s3, _, _⟩ :=
      fixed_point_eq_trunc (r.sic_outcomes i) (hsic i hi).1 (hsic i hi).2
    refine ⟨hf.trans s1, ?_, ?_, ?_⟩
    · rw [hf]
      exact s2
    · rw [hf]
      exact s3
    · rw [cast_fix _ _ hf]
      exact fixed_point_precision _ _ s2 s3
  · rw [hp]
    exact p2
  · rw [hp]
    exact p3
  · rw [cast_fix _ _ hp]
    exact fixed_point_precision _ _ p2 p3

/-- C10 witness (amended claim): the result with the outcomes 0.29f and the
purity 1/2 + 2 ^ -24, timestamp 1000 and session id 0xDEADBEEF. -/
theorem telemetry_round_trip_witness :
    (decode_telemetry 3735928559
        (quantum_payload float_sample_result 1000 3735928559)).key_bit = 1
      ∧ (decode_telemetry 3735928559
          (quantum_payload float_sample_result 1000 3735928559)).timestamp = 1000
      ∧ (decode_telemetry 3735928559
          (quantum_payload float_sample_result 1000 3735928559)).session_id = 3735928559
      ∧ |float_sample_result.corrected_purity
          - ((decode_telemetry 3735928559
              (quantum_payload float_sample_result 1000 3735928559)).purity_fixed : ℚ) / 10000|
        < 1 / 10000 :=
  have h := telemetry_round_trip 3 float_sample_result 1000
    { key_bits_generated := 0, avg_purity := 1, session_id := 3735928559,
      attacks_detected := 0, is_operational := true }
    rfl (Or.inr rfl)
    (fun i _ => by simp only [float_sample_result]; norm_num)
    (by simp only [float_sample_result]; norm_num)
    (by decide) (by decide)
  ⟨h.2.1, h.2.2.2.1, h.2.2.2.2.1, h.2.2.2.2.2.2.2.2⟩

/-! ## Theorems: telemetry layout and counters -/

theorem obfuscate_eq_xor (session_id : Nat) (p : Buffer) (k : Nat) (hk : k < 21)
    (hp : p k < 256) :
    obfuscate session_id p k = p k ^^^ (session_id / 256 ^ (k % 4) % 256) := by
  rw [obfuscate_apply, if_pos hk]
  have hkey : session_id / 256 ^ (k % 4) % 256 < 2 ^ 8 := by
    have := Nat.mod_lt (session_id / 256 ^ (k % 4)) (by decide : 256 > 0)
    simpa using this
  have hx : p k ^^^ (session_id / 256 ^ (k % 4) % 256) < 2 ^ 8 :=
    Nat.xor_lt_two_pow (by simpa using hp) hkey
  exact Nat.mod_eq_of_lt (by simpa using hx)

theorem fixed_point_low_high (x : ℚ) :
    low_byte (fixed_point x) % 256 = (truncToInt (f32 (x * 10000)) % 256).toNat
      ∧ high_byte (fixed_point x) % 256
        = (truncToInt (f32 (x * 10000)) / 256 % 256).toNat := by
  unfold low_byte high_byte fixed_point toInt16
  generalize truncToInt (f32 (x * 10000)) = z
  constructor <;> omega

theorem trunc_product_bounds (x : ℚ) (h0 : 0 ≤ x) (h1 : x ≤ 1) :
    ⌊x * 10000⌋ ≤ truncToInt (f32 (x * 10000))
      ∧ truncToInt (f32 (x * 10000)) ≤ ⌈x * 10000⌉ := by
  obtain ⟨e1, e2, e3, _, _⟩ := fixed_point_eq_trunc x h0 h1
  rw [← e1]
  exact ⟨e2, e3⟩

theorem run_protocol_step_sent (Q : Nat) (r : ProtocolResult) (millis : Nat)
    (st : ProtocolState) :
    (run_protocol_step Q r millis st).2
      = if r.success then
          [{ msg_type := Q % 256, payload := quantum_payload r millis st.session_id,
             len := 21 : Broadcast }]
        else [] := rfl

/-- C11 counterexample: for the outcome 0.29f the payload carries the bytes
84, 11 of the value 2900, while `trunc (x * 10000)` of the exact product
2899.99991... is 2899, with bytes 83, 11: the `float` product rounds up to
2900.0 before the cast truncates it. -/
theorem payload_outcome_not_exact_trunc :
    build_payload float_sample_result 1000 3735928559 1 = 84
      ∧ build_payload float_sample_result 1000 3735928559 2 = 11
      ∧ truncToInt (float_sample_result.sic_outcomes 0 * 10000) = 2899
      ∧ (truncToInt (float_sample_result.sic_outcomes 0 * 10000) % 256).toNat = 83
      ∧ (truncToInt (float_sample_result.sic_outcomes 0 * 10000) / 256 % 256).toNat = 11 := by
  have hb := (build_payload_bytes float_sample_result 1000 3735928559).2.1 0 (by decide)
  have h4 : float_sample_result.sic_outcomes 0 = 9730785 / 33554432 := rfl
  have htr : truncToInt (float_sample_result.sic_outcomes 0 * 10000) = 2899 := by
    rw [h4, truncToInt_of_nonneg (by norm_num), Int.floor_eq_iff]
    norm_num
  rw [h4, fixed_point_float_samples.1] at hb
  refine ⟨hb.1.trans (by decide), hb.2.trans (by decide), htr, ?_, ?_⟩
  · rw [htr]
    decide
  · rw [htr]
    decide

/-- C11 (amended): for every successful `ProtocolResult`, the payload built by
`run_protocol_step` is, before obfuscation: byte 0 = `key_bit`; bytes 1..8 =
the four `sic_outcomes` as 16-bit little-endian values, each the truncated
`float` product `x * 10000` (for `x` in [0, 1] an integer between
`floor (x * 10000)` and `ceil (x * 10000)`); bytes 9..12 = the timestamp,
little-endian; bytes 13..16 = `session_id`, little-endian; bytes 17..18 =
`corrected_purity` as the 16-bit little-endian truncated `float` product
`p * 10000`; bytes 19..20 = 0; and exactly this payload, each byte XOR-ed with
the session byte `i mod 4`, is the single `mesh_broadcast` call, tagged QUANTUM
with length 21. -/
theorem quantum_payload_layout (Q : Nat) (r : ProtocolResult) (millis : Nat)
    (st : ProtocolState) (hsucc : r.success = true) (hQ : Q < 256) (hkey : r.key_bit ≤ 1) :
    build_payload r millis st.session_id 0 = r.key_bit
      ∧ (∀ i < 4,
          build_payload r millis st.session_id (2 * i + 1)
              = (truncToInt (f32 (r.sic_outcomes i * 10000)) % 256).toNat
            ∧ build_payload r millis st.session_id (2 * i + 2)
              = (truncToInt (f32 (r.sic_outcomes i * 10000)) / 256 % 256).toNat
            ∧ (0 ≤ r.sic_outcomes i → r.sic_outcomes i ≤ 1 →
                ⌊r.sic_outcomes i * 10000⌋ ≤ truncToInt (f32 (r.sic_outcomes i * 10000))
                  ∧ truncToInt (f32 (r.sic_outcomes i * 10000))
                    ≤ ⌈r.sic_outcomes i * 10000⌉))
      ∧ (build_payload r millis st.session_id 9 = millis % 4294967296 % 256
        ∧ build_payload r millis st.session_id 10 = millis % 4294967296 / 256 % 256
        ∧ build_payload r millis st.session_id 11 = millis % 4294967296 / 65536 % 256
        ∧ build_payload r millis st.session_id 12 = millis % 4294967296 / 16777216 % 256)
      ∧ field_u32 (build_payload r millis st.session_id) 9 = millis % 4294967296
      ∧ (build_payload r millis st.session_id 13 = st.session_id % 256
        ∧ build_payload r millis st.session_id 14 = st.session_id / 256 % 256
        ∧ build_payload r millis st.session_id 15 = st.session_id / 65536 % 256
        ∧ build_payload r millis st.session_id 16 = st.session_id / 16777216 % 256)
      ∧ field_u32 (build_payload r millis st.session_id) 13 = st.session_id % 4294967296
      ∧ (build_payload r millis st.session_id 17
            = (truncToInt (f32 (r.corrected_purity * 10000)) % 256).toNat
        ∧ build_payload r millis st.session_id 18
            = (truncToInt (f32 (r.corrected_purity * 10000)) / 256 % 256).toNat
        ∧ (0 ≤ r.corrected_purity → r.corrected_purity ≤ 1 →
            ⌊r.corrected_purity * 10000⌋ ≤ truncToInt (f32 (r.corrected_purity * 10000))
              ∧ truncToInt (f32 (r.corrected_purity * 10000))
                ≤ ⌈r.corrected_purity * 10000⌉))
      ∧ build_payload r millis st.session_id 19 = 0
      ∧ build_payload r millis st.session_id 20 = 0
      ∧ (run_protocol_step Q r millis st).2
          = [{ msg_type := Q, len := 21,
               payload := obfuscate st.session_id (build_payload r millis st.session_id) }]
      ∧ (∀ k < 21,
          obfuscate st.session_id (build_payload r millis st.session_id) k
            = build_payload r millis st.session_id k
                ^^^ (st.session_id / 256 ^ (k % 4) % 256)) := by
  obtain ⟨b0, bs, b9, b10, b11, b12, b13, b14, b15, b16, b17, b18, b19, b20⟩ :=
    build_payload_bytes r millis st.session_id
  refine ⟨?_, ?_, ⟨b9, b10, b11, b12⟩, ?_, ⟨b13, b14, b15, b16⟩, ?_, ?_, b19, b20, ?_, ?_⟩
  · rw [b0]; omega
  · intro i hi
    have hb := bs i hi
    have hf := fixed_point_low_high (r.sic_outcomes i)
    exact ⟨hb.1.trans hf.1, hb.2.trans hf.2, trunc_product_bounds _⟩
  · unfold field_u32
    rw [b9, b10, b11, b12]; omega
  · unfold field_u32
    rw [b13, b14, b15, b16]; omega
  · have hf := fixed_point_low_high r.corrected_purity
    exact ⟨b17.trans hf.1, b18.trans hf.2, trunc_product_bounds _⟩
  · rw [run_protocol_step_sent, if_pos hsucc, Nat.mod_eq_of_lt hQ]
    rfl
  · intro k hk
    exact obfuscate_eq_xor _ _ k hk (build_payload_lt r millis st.session_id k hk)

/-- C11 witness (amended claim): the result with the outcomes 0.29f, tag 3,
timestamp 1000 and session id 0xDEADBEEF. -/
theorem quantum_payload_layout_witness :
    build_payload float_sample_result 1000 3735928559 0 = 1
      ∧ build_payload float_sample_result 1000 3735928559 19 = 0
      ∧ (run_protocol_step 3 float_sample_result 1000 sample_app.protocol_state).2
          = [{ msg_type := 3, len := 21,
               payload := obfuscate 3735928559
                 (build_payload float_sample_result 1000 3735928559) }] :=
  have h := quantum_payload_layout 3 float_sample_result 1000 sample_app.protocol_state
    rfl (by decide) (by decide)
  ⟨h.1, h.2.2.2.2.2.2.2.1, h.2.2.2.2.2.2.2.2.2.1⟩

theorem run_protocol_step_counters (Q : Nat) (r : ProtocolResult) (millis : Nat)
    (st : ProtocolState) :
    (run_protocol_step Q r millis st).1.key_bits_generated
        = (if r.success then (st.key_bits_generated + 1) % 4294967296
           else st.key_bits_generated)
      ∧ (run_protocol_step Q r millis st).1.attacks_detected
        = (if r.attack_detected then (st.attacks_detected + 1) % 4294967296
           else st.attacks_detected)
      ∧ (run_protocol_step Q r millis st).1.session_id = st.session_id
      ∧ (run_protocol_step Q r millis st).1.is_operational = st.is_operational
      ∧ (run_protocol_step Q r millis st).1.avg_purity
        = 9 / 10 * st.avg_purity + 1 / 10 * r.corrected_purity := by
  unfold run_protocol_step
  cases r.success <;> cases r.attack_detected <;> simp

theorem run_ticks_counters (Q : Nat) (ticks : List (ProtocolResult × Nat))
    (st : ProtocolState) (hk : st.key_bits_generated < 4294967296)
    (ha : st.attacks_detected < 4294967296) :
    (run_ticks Q ticks st).key_bits_generated
        = (st.key_bits_generated + ticks.countP (fun t => t.1.success)) % 4294967296
      ∧ (run_ticks Q ticks st).attacks_detected
        = (st.attacks_detected + ticks.countP (fun t => t.1.attack_detected))
            % 4294967296 := by
  induction ticks generalizing st with
  | nil =>
    simp only [run_ticks, List.foldl_nil, List.countP_nil, Nat.add_zero]
    exact ⟨(Nat.mod_eq_of_lt hk).symm, (Nat.mod_eq_of_lt ha).symm⟩
  | cons t ticks ih =>
    obtain ⟨h1, h2, _⟩ := run_protocol_step_counters Q t.1 t.2 st
    have step : run_ticks Q (t :: ticks) st
        = run_ticks Q ticks (run_protocol_step Q t.1 t.2 st).1 := rfl
    have hk2 : (run_protocol_step Q t.1 t.2 st).1.key_bits_generated < 4294967296 := by
      rw [h1]; split
      · exact Nat.mod_lt _ (by decide)
      · exact hk
    have ha2 : (run_protocol_step Q t.1 t.2 st).1.attacks_detected < 4294967296 := by
      rw [h2]; split
      · exact Nat.mod_lt _ (by decide)
      · exact ha
    obtain ⟨i1, i2⟩ := ih _ hk2 ha2
    rw [step, i1, i2, h1, h2, List.countP_cons, List.countP_cons]
    constructor
    · cases t.1.success <;> simp
      omega
    · cases t.1.attack_detected <;> simp
      omega

/-- C12 counterexample: after 2^32 successful ticks from the initial
`protocol_state` the 32-bit counter `key_bits_generated` is back at 0, while
the number of results with `success = true` is 2^32. -/
theorem key_bits_generated_wraps :
    (run_ticks 3 (List.replicate 4294967296 (third_purity_result, 0))
        ProtocolState.init).key_bits_generated = 0
      ∧ (List.replicate 4294967296 (third_purity_result, 0)).countP
          (fun t => t.1.success) = 4294967296 := by
  have hcount : (List.replicate 4294967296 (third_purity_result, 0)).countP
      (fun t => t.1.success) = 4294967296 := by
    rw [List.countP_replicate]
    rfl
  refine ⟨?_, hcount⟩
  rw [(run_ticks_counters 3 _ ProtocolState.init (by decide) (by decide)).1, hcount]
  rfl

/-- C12 (amended): for every finite sequence of results processed tick by tick
by `run_protocol_step` from the initial `protocol_state`, the final
`key_bits_generated` is the number of results with `success = true` and the
final `attacks_detected` the number of results with `attack_detected = true`,
each modulo 2^32 (the counters are `uint32_t`), independently of one another;
for fewer than 2^32 ticks they are exactly these numbers. -/
theorem counters_count_results (Q : Nat) (ticks : List (ProtocolResult × Nat)) :
    (run_ticks Q ticks ProtocolState.init).key_bits_generated
        = ticks.countP (fun t => t.1.success) % 4294967296
      ∧ (run_ticks Q ticks ProtocolState.init).attacks_detected
        = ticks.countP (fun t => t.1.attack_detected) % 4294967296
      ∧ (ticks.length < 4294967296 →
          (run_ticks Q ticks ProtocolState.init).key_bits_generated
              = ticks.countP (fun t => t.1.success)
            ∧ (run_ticks Q ticks ProtocolState.init).attacks_detected
              = ticks.countP (fun t => t.1.attack_detected)) := by
  obtain ⟨h1, h2⟩ := run_ticks_counters Q ticks ProtocolState.init (by decide) (by decide)
  have e1 : ProtocolState.init.key_bits_generated = 0 := rfl
  have e2 : ProtocolState.init.attacks_detected = 0 := rfl
  rw [e1, Nat.zero_add] at h1
  rw [e2, Nat.zero_add] at h2
  refine ⟨h1, h2, ?_⟩
  intro hlen
  have c1 : ticks.countP (fun t => t.1.success) ≤ ticks.length := List.countP_le_length _
  have c2 : ticks.countP (fun t => t.1.attack_detected) ≤ ticks.length :=
    List.countP_le_length _
  rw [h1, h2]
  exact ⟨Nat.mod_eq_of_lt (by omega), Nat.mod_eq_of_lt (by omega)⟩

/-- C12 witness (amended claim): 50 ticks, 30 successful without attack and 20
failed with an attack flagged. -/
theorem counters_count_results_witness :
    (run_ticks 3 (List.replicate 30 (third_purity_result, 0)
        ++ List.replicate 20 (failed_attack_result, 0))
        ProtocolState.init).key_bits_generated = 30
      ∧ (run_ticks 3 (List.replicate 30 (third_purity_result, 0)
        ++ List.replicate 20 (failed_attack_result, 0))
        ProtocolState.init).attacks_detected = 20 :=
  have h := (counters_count_results 3 (List.replicate 30 (third_purity_result, 0)
    ++ List.replicate 20 (failed_attack_result, 0))).2.2 (by simp)
  ⟨h.1.trans (by
      rw [List.countP_append, List.countP_replicate, List.countP_replicate]
      rfl),
   h.2.trans (by
      rw [List.countP_append, List.countP_replicate, List.countP_replicate]
      rfl)⟩

/-! ## Theorems: degraded flag and trust loop -/

/-- C13 counterexample: with `verify_completeness()` false at startup the flag
`is_operational` is false, and the next tick with a successful result still
increments `key_bits_generated` and broadcasts one QUANTUM payload. -/
theorem degraded_flag_not_consulted :
    (init_quantum_layer false true sample_app.protocol_state).is_operational = false
      ∧ (run_protocol_step 3 third_purity_result 1000
          (init_quantum_layer false true sample_app.protocol_state)).1.key_bits_generated
        = (init_quantum_layer false true sample_app.protocol_state).key_bits_generated + 1
      ∧ ((run_protocol_step 3 third_purity_result 1000
          (init_quantum_layer false true sample_app.protocol_state)).2.map
            (fun b => (b.msg_type, b.len))) = [(3, 21)] := by
  refine ⟨rfl, ?_, ?_⟩
  · rw [(run_protocol_step_counters _ _ _ _).1]
    rfl
  · rw [run_protocol_step_sent]
    rfl

/-- C13 (amended): if at startup `verify_completeness()` or `verify_symmetry()`
returns false, the persistent flag `is_operational` is false; the flag is only
recorded: `run_protocol_step` never reads it, every tick leaves it as it is,
and whatever its value the tick increments `key_bits_generated` and broadcasts
the QUANTUM payload exactly when the result of `protocol_step` has
`success = true`. -/
theorem degraded_flag_only_recorded (Q : Nat) (completeness_ok symmetry_ok flag : Bool)
    (r : ProtocolResult) (millis : Nat) (st : ProtocolState) :
    ((completeness_ok = false ∨ symmetry_ok = false) →
        (init_quantum_layer completeness_ok symmetry_ok st).is_operational = false)
      ∧ (init_quantum_layer completeness_ok symmetry_ok st).is_operational
          = (completeness_ok && symmetry_ok)
      ∧ (run_protocol_step Q r millis st).1.is_operational = st.is_operational
      ∧ (run_protocol_step Q r millis { st with is_operational := flag }).2
          = (run_protocol_step Q r millis st).2
      ∧ (run_protocol_step Q r millis { st with is_operational := flag }).1
          = { (run_protocol_step Q r millis st).1 with is_operational := flag }
      ∧ (run_protocol_step Q r millis st).1.key_bits_generated
          = (if r.success then (st.key_bits_generated + 1) % 4294967296
             else st.key_bits_generated)
      ∧ (run_protocol_step Q r millis st).2
          = (if r.success then
              [{ msg_type := Q % 256, payload := quantum_payload r millis st.session_id,
                 len := 21 : Broadcast }]
            else []) := by
  obtain ⟨hk, _, _, hop, _⟩ := run_protocol_step_counters Q r millis st
  refine ⟨?_, rfl, hop, rfl, ?_, hk, rfl⟩
  · intro h
    show (completeness_ok && symmetry_ok) = false
    rcases h with h | h <;> simp [h]
  · unfold run_protocol_step
    cases r.success <;> cases r.attack_detected <;> rfl

/-- C13 witness (amended claim): symmetry check failed at startup. -/
theorem degraded_flag_only_recorded_witness :
    (init_quantum_layer true false sample_app.protocol_state).is_operational = false :=
  (degraded_flag_only_recorded 3 true false false third_purity_result 1000
    sample_app.protocol_state).1 (Or.inr rfl)

/-- C14: the code at a concrete tick. The router handed to
`update_trust_from_purity` comes back unchanged (node 0 keeps trust 1/2 although
the running average purity is 14/15), the local router is dropped when
`run_protocol_step` returns, and the update described by the specification with
smoothing factor 1/10 would have given 163/300. -/
theorem trust_update_does_nothing :
    (∀ (router : OllivierRicciRouter) (i : Int) (p : ℚ),
        update_trust_from_purity router i p = router)
      ∧ (∀ (router : OllivierRicciRouter) (p : ℚ), trust_loop router p = router)
      ∧ (run_protocol_step_app 3 sample_inputs sample_app).1.protocol_state.avg_purity
          = 14 / 15
      ∧ (run_protocol_step_app 3 sample_inputs sample_app).2.dropped_router.trust 0 = 1 / 2
      ∧ (spec_update_trust (1 / 10) sample_inputs.mesh_router 0 (14 / 15)).trust 0
          = 163 / 300 := by
  have hloop : ∀ (router : OllivierRicciRouter) (p : ℚ), trust_loop router p = router := by
    intro router p
    unfold trust_loop
    generalize List.range router.get_node_count = l
    induction l with
    | nil => rfl
    | cons i l ih => exact ih
  refine ⟨fun _ _ _ => rfl, hloop, ?_, ?_, ?_⟩
  · show (run_protocol_step 3 sample_inputs.result sample_inputs.millis
      sample_app.protocol_state).1.avg_purity = 14 / 15
    rw [(run_protocol_step_counters _ _ _ _).2.2.2.2]
    simp only [sample_app, sample_inputs, ProtocolState.init, third_purity_result]
    norm_num
  · exact (congrArg (fun router => router.trust 0) (hloop _ _)).trans rfl
  · simp only [spec_update_trust, sample_inputs, Function.update_same]
    norm_num

/-! ## Theorems: the quantum task tick -/

theorem periodic_sync_due (S N : Nat) (inp : TickInputs) (app : AppState)
    (h : 30000 ≤ elapsed_ms ((inp.current_us / 1000) % 4294967296) app.last_sync_ms) :
    periodic_sync S N inp app
      = ({ app with
            sync_sequence := (app.sync_sequence + 1) % 4294967296
            last_sync_ms := (inp.current_us / 1000) % 4294967296
            tdoa_sync := app.tdoa_sync.synchronize_mesh N inp.sync_us },
         [{ msg_type := S % 256
            payload := fun i =>
              (generate_sync_chirp S inp.chirp_us inp.sync_buffer app.sync_sequence).1 (i + 2)
            len := 12 }]) := by
  unfold periodic_sync
  simp only [ge_iff_le, h, if_true]
  rfl

theorem periodic_sync_not_due (S N : Nat) (inp : TickInputs) (app : AppState)
    (h : elapsed_ms ((inp.current_us / 1000) % 4294967296) app.last_sync_ms < 30000) :
    periodic_sync S N inp app = (app, []) := by
  unfold periodic_sync
  have h2 : ¬ 30000 ≤ elapsed_ms ((inp.current_us / 1000) % 4294967296) app.last_sync_ms :=
    Nat.not_le.mpr h
  simp only [ge_iff_le, h2, if_false]

theorem sample_sync_due :
    30000 ≤ elapsed_ms ((sample_inputs.current_us / 1000) % 4294967296)
      sample_app.last_sync_ms := by
  decide

/-- C15 counterexample: on a tick at uptime 31 s (sync due) the chirp generated
by `generate_sync_chirp` has length 14 and starts with the type tag 1 and the
length byte 12, but the SYNC broadcast carries length 12 and starts with byte 2
of the chirp (the low byte of the sequence number, here 0): the two header
bytes are skipped. -/
theorem sync_broadcast_skips_header :
    (generate_sync_chirp 1 sample_inputs.chirp_us sample_inputs.sync_buffer
        sample_app.sync_sequence).2 = 14
      ∧ (generate_sync_chirp 1 sample_inputs.chirp_us sample_inputs.sync_buffer
          sample_app.sync_sequence).1 0 = 1
      ∧ (generate_sync_chirp 1 sample_inputs.chirp_us sample_inputs.sync_buffer
          sample_app.sync_sequence).1 1 = 12
      ∧ (periodic_sync 1 4 sample_inputs sample_app).2.map (fun b => b.len) = [12]
      ∧ (periodic_sync 1 4 sample_inputs sample_app).2.map (fun b => b.payload 0) = [0]
      ∧ (periodic_sync 1 4 sample_inputs sample_app).2.map (fun b => b.payload 1) = [0] := by
  obtain ⟨hl, b0, b1, b2, b3, _⟩ := generate_sync_chirp_bytes 1 sample_inputs.chirp_us
    sample_inputs.sync_buffer sample_app.sync_sequence
  rw [periodic_sync_due 1 4 sample_inputs sample_app sample_sync_due]
  refine ⟨hl, b0, b1, rfl, ?_, ?_⟩
  · simp only [List.map_cons, List.map_nil]
    rw [b2]; rfl
  · simp only [List.map_cons, List.map_nil]
    rw [b3]; rfl

/-- C15 (amended): on every tick of `quantum_task` at which the 32-bit
difference `current_ms - last_sync_ms` is at least 30000, the task generates a
sync chirp with the current sequence number, broadcasts as the SYNC message
only the 12 bytes after the two header bytes, `[seq LE][local_ts_us LE]
[reserved]` with length 12 (not the 14-byte packet), advances the sequence
number, records `current_ms` and then calls `synchronize_mesh()`; on every
other tick it does none of these. The difference is the plain difference when
`last_sync_ms` is at most `current_ms`. -/
theorem quantum_task_periodic_sync (S Q N : Nat) (inp : TickInputs) (app : AppState) :
    (30000 ≤ elapsed_ms ((inp.current_us / 1000) % 4294967296) app.last_sync_ms →
        (periodic_sync S N inp app).2
            = [{ msg_type := S % 256
                 payload := fun i =>
                   (generate_sync_chirp S inp.chirp_us inp.sync_buffer
                     app.sync_sequence).1 (i + 2)
                 len := 12 }]
          ∧ (List.range 12).map (fun i =>
                (generate_sync_chirp S inp.chirp_us inp.sync_buffer
                  app.sync_sequence).1 (i + 2))
              = [app.sync_sequence % 256, app.sync_sequence / 256 % 256,
                 app.sync_sequence / 65536 % 256, app.sync_sequence / 16777216 % 256,
                 inp.chirp_us % 4294967296 % 256, inp.chirp_us % 4294967296 / 256 % 256,
                 inp.chirp_us % 4294967296 / 65536 % 256,
                 inp.chirp_us % 4294967296 / 16777216 % 256, 0, 0, 0, 0]
          ∧ (periodic_sync S N inp app).1.tdoa_sync
              = app.tdoa_sync.synchronize_mesh N inp.sync_us
          ∧ (periodic_sync S N inp app).1.sync_sequence
              = (app.sync_sequence + 1) % 4294967296
          ∧ (periodic_sync S N inp app).1.last_sync_ms
              = (inp.current_us / 1000) % 4294967296)
      ∧ (elapsed_ms ((inp.current_us / 1000) % 4294967296) app.last_sync_ms < 30000 →
          periodic_sync S N inp app = (app, []))
      ∧ (app.last_sync_ms ≤ (inp.current_us / 1000) % 4294967296 →
          elapsed_ms ((inp.current_us / 1000) % 4294967296) app.last_sync_ms
            = (inp.current_us / 1000) % 4294967296 - app.last_sync_ms)
      ∧ (quantum_task_iteration S Q N inp app).1
          = (periodic_sync S N inp (run_protocol_step_app Q inp app).1).1
      ∧ (quantum_task_iteration S Q N inp app).2.broadcasts
          = (run_protocol_step_app Q inp app).2.broadcasts
              ++ (periodic_sync S N inp (run_protocol_step_app Q inp app).1).2 := by
  refine ⟨?_, periodic_sync_not_due S N inp app, ?_, rfl, rfl⟩
  · intro h
    rw [periodic_sync_due S N inp app h]
    refine ⟨rfl, ?_, rfl, rfl, rfl⟩
    obtain ⟨_, _, _, b2, b3, b4, b5, b6, b7, b8, b9, b10, b11, b12, b13, _⟩ :=
      generate_sync_chirp_bytes S inp.chirp_us inp.sync_buffer app.sync_sequence
    have hrange : List.range 12 = [0, 1, 2, 3, 4, 5, 6, 7, 8, 9, 10, 11] := rfl
    rw [hrange]
    simp only [List.map_cons, List.map_nil, Nat.zero_add, Nat.reduceAdd]
    rw [b2, b3, b4, b5, b6, b7, b8, b9, b10, b11, b12, b13]
  · intro h
    unfold elapsed_ms
    omega

/-- C15 witness (amended claim): the tick at uptime 31 s is due, and the same
tick with `last_sync_ms = 20000` is not. -/
theorem quantum_task_periodic_sync_witness :
    (periodic_sync 1 4 sample_inputs sample_app).1.sync_sequence = 1
      ∧ periodic_sync 1 4 sample_inputs { sample_app with last_sync_ms := 20000 }
          = ({ sample_app with last_sync_ms := 20000 }, [])
      ∧ elapsed_ms ((sample_inputs.current_us / 1000) % 4294967296) 20000 = 11000 :=
  ⟨((quantum_task_periodic_sync 1 3 4 sample_inputs sample_app).1 sample_sync_due).2.2.2.1,
   (quantum_task_periodic_sync 1 3 4 sample_inputs
      { sample_app with last_sync_ms := 20000 }).2.1 (by decide),
   ((quantum_task_periodic_sync 1 3 4 sample_inputs
      { sample_app with last_sync_ms := 20000 }).2.2.1 (by decide)).trans (by decide)⟩

theorem update_resistance_initialized (w : esp_err_t) (hc : HapticController) (q : ℚ)
    (hinit : hc.is_initialized = true) :
    (hc.update_resistance_from_qber w q).1 = w
      ∧ (hc.update_resistance_from_qber w q).2.1
          = { hc with
              current_qber := q
              last_qber := q
              is_stable := decide (|q - hc.last_qber| < QBER_STABILITY_THRESHOLD) }
      ∧ (hc.update_resistance_from_qber w q).2.2
          = [⟨HAPTIC_REG_RTP_INPUT, pwm_of_factor (resistance_factor_f32 q)⟩] := by
  unfold HapticController.update_resistance_from_qber
  simp only [hinit, Bool.not_true, Bool.false_eq_true, if_false]
  by_cases hw : w = ESP_OK
  · simp [hw]
  · simp [hw]

theorem update_resistance_uninitialized (w : esp_err_t) (hc : HapticController) (q : ℚ)
    (hinit : hc.is_initialized = false) :
    hc.update_resistance_from_qber w q = (ESP_ERR_INVALID_STATE, hc, []) := by
  unfold HapticController.update_resistance_from_qber
  simp [hinit]

theorem init_ok_initialized :
    (HapticController.new.init ESP_OK ESP_OK ESP_OK ESP_OK ESP_OK 1).1 = ESP_OK
      ∧ (HapticController.new.init ESP_OK ESP_OK ESP_OK ESP_OK ESP_OK 1).2.1.is_initialized
          = true := by
  constructor <;> simp [HapticController.init, HapticController.new, ESP_OK]

/-- C17: for an initialised `HapticController` whose register write succeeds
and every `qber` in [0, 1], after `update_resistance_from_qber qber` the
resistance level is `QBER_RESISTANCE_MIN + (QBER_RESISTANCE_MAX -
QBER_RESISTANCE_MIN) * qber = 0.1 + 0.9 * qber`: the minimum factor 0.1 at
`qber = 0`, the maximum factor 1.0 at `qber = 1`, and monotonically
non-decreasing in `qber`. -/
theorem resistance_level_linear (hc : HapticController) (q : ℚ)
    (hinit : hc.is_initialized = true) (h0 : 0 ≤ q) (h1 : q ≤ 1) :
    (hc.update_resistance_from_qber ESP_OK q).1 = ESP_OK
      ∧ (hc.update_resistance_from_qber ESP_OK q).2.1.get_resistance_level
          = QBER_RESISTANCE_MIN + (QBER_RESISTANCE_MAX - QBER_RESISTANCE_MIN) * q
      ∧ (hc.update_resistance_from_qber ESP_OK q).2.1.get_resistance_level
          = 1 / 10 + 9 / 10 * q
      ∧ (q = 0 → (hc.update_resistance_from_qber ESP_OK q).2.1.get_resistance_level
          = QBER_RESISTANCE_MIN)
      ∧ (q = 1 → (hc.update_resistance_from_qber ESP_OK q).2.1.get_resistance_level
          = QBER_RESISTANCE_MAX)
      ∧ QBER_RESISTANCE_MIN
          ≤ (hc.update_resistance_from_qber ESP_OK q).2.1.get_resistance_level
      ∧ (hc.update_resistance_from_qber ESP_OK q).2.1.get_resistance_level
          ≤ QBER_RESISTANCE_MAX
      ∧ (∀ (hc2 : HapticController) (q2 : ℚ), hc2.is_initialized = true → q ≤ q2 →
          (hc.update_resistance_from_qber ESP_OK q).2.1.get_resistance_level
            ≤ (hc2.update_resistance_from_qber ESP_OK q2).2.1.get_resistance_level) := by
  obtain ⟨hret, hst, _⟩ := update_resistance_initialized ESP_OK hc q hinit
  have hlevel : ∀ (c : HapticController) (x : ℚ), c.is_initialized = true →
      (c.update_resistance_from_qber ESP_OK x).2.1.get_resistance_level
        = 1 / 10 + 9 / 10 * x := by
    intro c x hc
    rw [(update_resistance_initialized ESP_OK c x hc).2.1]
    simp only [HapticController.get_resistance_level, QBER_RESISTANCE_MIN, QBER_RESISTANCE_MAX]
    norm_num
  have hl := hlevel hc q hinit
  refine ⟨hret, ?_, hl, ?_, ?_, ?_, ?_, ?_⟩
  · rw [hl]; simp only [QBER_RESISTANCE_MIN, QBER_RESISTANCE_MAX]; norm_num
  · intro hq; rw [hl, hq]; simp only [QBER_RESISTANCE_MIN]; norm_num
  · intro hq; rw [hl, hq]; simp only [QBER_RESISTANCE_MAX]; norm_num
  · rw [hl]; simp only [QBER_RESISTANCE_MIN]; linarith
  · rw [hl]; simp only [QBER_RESISTANCE_MAX]; linarith
  · intro hc2 q2 hinit2 hle
    rw [hl, hlevel hc2 q2 hinit2]
    linarith

/-- C17 witness: a controller initialised by a successful `init`, updated with
`qber = 1/2`: resistance level 11/20. -/
theorem resistance_level_linear_witness :
    ((HapticController.new.init ESP_OK ESP_OK ESP_OK ESP_OK ESP_OK 1).2.1
        |>.update_resistance_from_qber ESP_OK (1 / 2)).2.1.get_resistance_level
      = 1 / 10 + 9 / 10 * (1 / 2) :=
  (resistance_level_linear (HapticController.new.init ESP_OK ESP_OK ESP_OK ESP_OK ESP_OK 1).2.1
    (1 / 2) init_ok_initialized.2 (by norm_num) (by norm_num)).2.2.1

/-- C18: the code on the inputs of `test_haptic_controller`. On a freshly
constructed controller every `update_resistance_from_qber` returns
`ESP_ERR_INVALID_STATE` and the level read back stays 0.1, which is 0.9 away
from the expected 1.0 and 0.45 away from the expected 0.55; on an initialised
controller the levels are 0.1, 0.55 and 1.0, the direct and not the inverse
mapping. -/
theorem haptic_test_levels_on_code :
    (HapticController.new.update_resistance_from_qber ESP_OK 0).1 = ESP_ERR_INVALID_STATE
      ∧ haptic_test_levels ESP_OK HapticController.new [0, 1 / 2, 1] = [1 / 10, 1 / 10, 1 / 10]
      ∧ ¬ (|(1 / 10 : ℚ) - 1| ≤ 1 / 10)
      ∧ ¬ (|(1 / 10 : ℚ) - 55 / 100| ≤ 1 / 10)
      ∧ haptic_test_levels ESP_OK
          (HapticController.new.init ESP_OK ESP_OK ESP_OK ESP_OK ESP_OK 1).2.1 [0, 1 / 2, 1]
          = [1 / 10, 11 / 20, 1] := by
  have hnew : HapticController.new.is_initialized = false := rfl
  have hfresh : ∀ q : ℚ, HapticController.new.update_resistance_from_qber ESP_OK q
      = (ESP_ERR_INVALID_STATE, HapticController.new, []) :=
    fun q => update_resistance_uninitialized ESP_OK HapticController.new q hnew
  have hlvl : HapticController.new.get_resistance_level = 1 / 10 := by
    simp [HapticController.get_resistance_level, HapticController.new, QBER_RESISTANCE_MIN]
  refine ⟨by rw [hfresh], ?_, ?_, ?_, ?_⟩
  · simp only [haptic_test_levels, hfresh, hlvl]
  · rw [abs_le]; norm_num
  · rw [abs_le]; norm_num
  · have step : ∀ (c : HapticController) (x : ℚ), c.is_initialized = true →
        (c.update_resistance_from_qber ESP_OK x).2.1.is_initialized = true
          ∧ (c.update_resistance_from_qber ESP_OK x).2.1.get_resistance_level
              = 1 / 10 + 9 / 10 * x := by
      intro c x hc
      rw [(update_resistance_initialized ESP_OK c x hc).2.1]
      refine ⟨hc, ?_⟩
      simp only [HapticController.get_resistance_level, QBER_RESISTANCE_MIN,
        QBER_RESISTANCE_MAX]
      norm_num
    have s1 := step _ 0 init_ok_initialized.2
    have s2 := step _ (1 / 2) s1.1
    have s3 := step _ 1 s2.1
    simp only [haptic_test_levels, s1.2, s2.2, s3.2]
    norm_num

/-- C20: when the haptic driver is not initialised,
`update_resistance_from_qber q` returns the failure code
`ESP_ERR_INVALID_STATE` for every `q`, performs no register write, and leaves
`current_qber`, `last_qber` and `is_stable` (hence `get_resistance_level()` and
`is_quantum_stable()`) unchanged. -/
theorem update_resistance_requires_init (w : esp_err_t) (hc : HapticController) (q : ℚ)
    (hinit : hc.is_initialized = false) :
    (hc.update_resistance_from_qber w q).1 = ESP_ERR_INVALID_STATE
      ∧ (hc.update_resistance_from_qber w q).1 ≠ ESP_OK
      ∧ (hc.update_resistance_from_qber w q).2.2 = []
      ∧ (hc.update_resistance_from_qber w q).2.1 = hc
      ∧ (hc.update_resistance_from_qber w q).2.1.current_qber = hc.current_qber
      ∧ (hc.update_resistance_from_qber w q).2.1.last_qber = hc.last_qber
      ∧ (hc.update_resistance_from_qber w q).2.1.is_stable = hc.is_stable
      ∧ (hc.update_resistance_from_qber w q).2.1.get_resistance_level
          = hc.get_resistance_level
      ∧ (hc.update_resistance_from_qber w q).2.1.is_quantum_stable
          = hc.is_quantum_stable := by
  rw [update_resistance_uninitialized w hc q hinit]
  refine ⟨rfl, ?_, rfl, rfl, rfl, rfl, rfl, rfl, rfl⟩
  show ESP_ERR_INVALID_STATE ≠ ESP_OK
  decide

/-- C20 witness: the freshly constructed controller with `qber = 1/2`. -/
theorem update_resistance_requires_init_witness :
    HapticController.new.update_resistance_from_qber ESP_OK (1 / 2)
      = (ESP_ERR_INVALID_STATE, HapticController.new, []) :=
  have h := update_resistance_requires_init ESP_OK HapticController.new (1 / 2) rfl
  Prod.ext h.1 (Prod.ext h.2.2.2.1 h.2.2.1)

/-! ## Theorems: BLE quantum service -/

theorem update_metrics_unavailable (svc : BLEQuantumService) (m : QuantumMetrics)
    (h : svc.connected = false ∨ svc.gatts_if = ESP_GATT_IF_NONE) :
    svc.update_metrics m = (ESP_ERR_INVALID_STATE, { svc with current_metrics := m }, []) := by
  unfold BLEQuantumService.update_metrics
  rcases h with h | h <;> simp [h]

/-- C19 counterexample: on the freshly constructed service (no client
connected, no GATT interface) `update_metrics` returns the failure code but
overwrites the stored `current_metrics`: `get_current_metrics()` returns the
zeroed metrics before the call and the new metrics after it. -/
theorem update_metrics_stores_when_unavailable :
    BLEQuantumService.new.connected = false
      ∧ (BLEQuantumService.new.update_metrics
          { qber := 1 / 2, purity := 1 / 2, attack_detected := true, key_rate := 7,
            timestamp := 31 }).1 = ESP_ERR_INVALID_STATE
      ∧ BLEQuantumService.new.get_current_metrics
          = { qber := 0, purity := 0, attack_detected := false, key_rate := 0, timestamp := 0 }
      ∧ (BLEQuantumService.new.update_metrics
          { qber := 1 / 2, purity := 1 / 2, attack_detected := true, key_rate := 7,
            timestamp := 31 }).2.1.get_current_metrics
          = { qber := 1 / 2, purity := 1 / 2, attack_detected := true, key_rate := 7,
              timestamp := 31 }
      ∧ (BLEQuantumService.new.update_metrics
          { qber := 1 / 2, purity := 1 / 2, attack_detected := true, key_rate := 7,
            timestamp := 31 }).2.1 ≠ BLEQuantumService.new := by
  have hupd := update_metrics_unavailable BLEQuantumService.new
    { qber := 1 / 2, purity := 1 / 2, attack_detected := true, key_rate := 7, timestamp := 31 }
    (Or.inl rfl)
  rw [hupd]
  refine ⟨rfl, rfl, rfl, rfl, ?_⟩
  intro heq
  have hk := congrArg (fun s => s.current_metrics.key_rate) heq
  exact absurd hk (by decide)

/-- C19 (amended): when the BLE collaborator is unavailable (no client
connected or no GATT interface registered), `update_metrics m` returns the
failure code `ESP_ERR_INVALID_STATE` and sets no attribute value; it is not a
no-op on the service state: the stored `current_metrics` is overwritten with
`m` (so `get_current_metrics()` returns `m`), and every other member is
unchanged. -/
theorem update_metrics_when_unavailable (svc : BLEQuantumService) (m : QuantumMetrics)
    (h : svc.connected = false ∨ svc.gatts_if = ESP_GATT_IF_NONE) :
    (svc.update_metrics m).1 = ESP_ERR_INVALID_STATE
      ∧ (svc.update_metrics m).1 ≠ ESP_OK
      ∧ (svc.update_metrics m).2.2 = []
      ∧ (svc.update_metrics m).2.1 = { svc with current_metrics := m }
      ∧ (svc.update_metrics m).2.1.get_current_metrics = m
      ∧ (svc.update_metrics m).2.1.connected = svc.connected
      ∧ (svc.update_metrics m).2.1.gatts_if = svc.gatts_if
      ∧ (svc.update_metrics m).2.1.conn_id = svc.conn_id
      ∧ (svc.update_metrics m).2.1.advertising = svc.advertising
      ∧ (svc.update_metrics m).2.1.service_handle = svc.service_handle
      ∧ (svc.update_metrics m).2.1.qber_char_handle = svc.qber_char_handle
      ∧ (svc.update_metrics m).2.1.purity_char_handle = svc.purity_char_handle
      ∧ (svc.update_metrics m).2.1.attack_char_handle = svc.attack_char_handle
      ∧ (svc.update_metrics m).2.1.key_rate_char_handle = svc.key_rate_char_handle := by
  rw [update_metrics_unavailable svc m h]
  refine ⟨rfl, ?_, rfl, rfl, rfl, rfl, rfl, rfl, rfl, rfl, rfl, rfl, rfl, rfl⟩
  show ESP_ERR_INVALID_STATE ≠ ESP_OK
  decide

/-- C19 witness (amended claim): the freshly constructed service, and a
service with a connected client but no GATT interface. -/
theorem update_metrics_when_unavailable_witness :
    (BLEQuantumService.new.update_metrics
        { qber := 1 / 2, purity := 1 / 2, attack_detected := true, key_rate := 7,
          timestamp := 31 }).1 = ESP_ERR_INVALID_STATE
      ∧ ({ BLEQuantumService.new with connected := true }.update_metrics
          { qber := 1 / 2, purity := 1 / 2, attack_detected := true, key_rate := 7,
            timestamp := 31 }).2.2 = [] :=
  ⟨(update_metrics_when_unavailable BLEQuantumService.new
      { qber := 1 / 2, purity := 1 / 2, attack_detected := true, key_rate := 7,
        timestamp := 31 } (Or.inl rfl)).1,
   (update_metrics_when_unavailable { BLEQuantumService.new with connected := true }
      { qber := 1 / 2, purity := 1 / 2, attack_detected := true, key_rate := 7,
        timestamp := 31 } (Or.inr rfl)).2.2.1⟩

/-! ## Theorems: BLE init, audio processor, PWM byte, purity average -/

/-- C21: the code on the steps of `test_full_system_integration`. After the
constructor and an `init()` in which every ESP-IDF call succeeds (`init`
returns `ESP_OK` and writes no member), no client is connected and no GATT
interface is registered, so `update_metrics m` returns
`ESP_ERR_INVALID_STATE`, not `ESP_OK`, for every `m`, and so does each call of
a sequence of updates. -/
theorem update_metrics_after_init_fails (m : QuantumMetrics) (ms : List QuantumMetrics) :
    (BLEQuantumService.new.init ESP_OK ESP_OK ESP_OK ESP_OK ESP_OK ESP_OK ESP_OK).1 = ESP_OK
      ∧ (BLEQuantumService.new.init ESP_OK ESP_OK ESP_OK ESP_OK ESP_OK ESP_OK ESP_OK).2
          = BLEQuantumService.new
      ∧ ((BLEQuantumService.new.init ESP_OK ESP_OK ESP_OK ESP_OK ESP_OK ESP_OK ESP_OK).2
          |>.update_metrics m).1 = ESP_ERR_INVALID_STATE
      ∧ ((BLEQuantumService.new.init ESP_OK ESP_OK ESP_OK ESP_OK ESP_OK ESP_OK ESP_OK).2
          |>.update_metrics m).1 ≠ ESP_OK
      ∧ ble_test_codes
          (BLEQuantumService.new.init ESP_OK ESP_OK ESP_OK ESP_OK ESP_OK ESP_OK ESP_OK).2 ms
          = ms.map (fun _ => ESP_ERR_INVALID_STATE) := by
  have hinit : BLEQuantumService.new.init ESP_OK ESP_OK ESP_OK ESP_OK ESP_OK ESP_OK ESP_OK
      = (ESP_OK, BLEQuantumService.new) := by
    simp [BLEQuantumService.init]
  have hcodes : ∀ (l : List QuantumMetrics) (svc : BLEQuantumService),
      svc.connected = false →
        ble_test_codes svc l = l.map (fun _ => ESP_ERR_INVALID_STATE) := by
    intro l
    induction l with
    | nil => intro _ _; rfl
    | cons x xs ih =>
      intro svc hc
      unfold ble_test_codes
      rw [update_metrics_unavailable svc x (Or.inl hc)]
      rw [List.map_cons]
      congr 1
      exact ih _ hc
  rw [hinit, update_metrics_unavailable BLEQuantumService.new m (Or.inl rfl)]
  refine ⟨rfl, rfl, rfl, ?_, hcodes ms _ rfl⟩
  show ESP_ERR_INVALID_STATE ≠ ESP_OK
  decide

theorem normalize_amplitude_entropy (m : Libm) (s : AudioProcessor) :
    (s.normalize_amplitude m).emotional_entropy = s.emotional_entropy := by
  unfold AudioProcessor.normalize_amplitude
  simp only []
  split <;> rfl

theorem calculate_emotional_entropy_range (m : Libm) (s : AudioProcessor) :
    0 ≤ (s.calculate_emotional_entropy m).emotional_entropy
      ∧ (s.calculate_emotional_entropy m).emotional_entropy ≤ 1 := by
  unfold AudioProcessor.calculate_emotional_entropy
  simp only []
  split
  · exact ⟨le_refl _, zero_le_one⟩
  · simp only []
    split_ifs with h1 h2 h3 <;> constructor <;> linarith

theorem process_audio_initialized (m : Libm) (s : AudioProcessor) (samples : Nat → Int)
    (count : Nat) (hinit : s.is_initialized = true) :
    (s.process_audio m samples count).1 = ESP_OK
      ∧ (s.process_audio m samples count).2.emotional_entropy
          = ((((s.load_samples samples count).perform_fft m).flatten_spectrum
              ).calculate_emotional_entropy m).emotional_entropy
      ∧ (s.process_audio m samples count).2.coherence_level
          = 1 - (s.process_audio m samples count).2.emotional_entropy := by
  unfold AudioProcessor.process_audio
  rw [if_neg (by simp [hinit])]
  exact ⟨rfl, normalize_amplitude_entropy m _, rfl⟩

theorem process_audio_uninitialized (m : Libm) (s : AudioProcessor) (samples : Nat → Int)
    (count : Nat) (hinit : s.is_initialized = false) :
    s.process_audio m samples count = (ESP_ERR_INVALID_STATE, s) := by
  unfold AudioProcessor.process_audio
  simp [hinit]

/-- C23: after every `process_audio` call that returns `ESP_OK`, for every
input sample array and count, `emotional_entropy` lies in [0, 1] and
`coherence_level` equals `1 - emotional_entropy` and therefore also lies in
[0, 1]. -/
theorem process_audio_entropy_range (m : Libm) (s : AudioProcessor) (samples : Nat → Int)
    (count : Nat) (hok : (s.process_audio m samples count).1 = ESP_OK) :
    (0 ≤ (s.process_audio m samples count).2.get_emotional_entropy
        ∧ (s.process_audio m samples count).2.get_emotional_entropy ≤ 1)
      ∧ (s.process_audio m samples count).2.get_coherence_level
          = 1 - (s.process_audio m samples count).2.get_emotional_entropy
      ∧ (0 ≤ (s.process_audio m samples count).2.get_coherence_level
        ∧ (s.process_audio m samples count).2.get_coherence_level ≤ 1) := by
  have hinit : s.is_initialized = true := by
    cases h : s.is_initialized with
    | true => rfl
    | false =>
      rw [process_audio_uninitialized m s samples count h] at hok
      exact absurd hok (show ESP_ERR_INVALID_STATE ≠ ESP_OK by decide)
  obtain ⟨_, hent, hcoh⟩ := process_audio_initialized m s samples count hinit
  have hrange := calculate_emotional_entropy_range m
    (((s.load_samples samples count).perform_fft m).flatten_spectrum)
  rw [← hent] at hrange
  refine ⟨hrange, hcoh, ?_⟩
  show 0 ≤ (s.process_audio m samples count).2.coherence_level
    ∧ (s.process_audio m samples count).2.coherence_level ≤ 1
  rw [hcoh]
  constructor <;> linarith [hrange.1, hrange.2]

/-- C23 witness: an initialised processor fed 600 samples of a ramp. -/
theorem process_audio_entropy_range_witness :
    (sample_audio.process_audio sample_libm (fun i => (i : Int) - 100) 600).1 = ESP_OK
      ∧ (sample_audio.process_audio sample_libm (fun i => (i : Int) - 100)
          600).2.get_coherence_level
        = 1 - (sample_audio.process_audio sample_libm (fun i => (i : Int) - 100)
          600).2.get_emotional_entropy :=
  have hinit : sample_audio.is_initialized = true := by
    simp [sample_audio, AudioProcessor.init, AudioProcessor.new, ESP_OK]
  have hok := (process_audio_initialized sample_libm sample_audio
    (fun i => (i : Int) - 100) 600 hinit).1
  ⟨hok, (process_audio_entropy_range sample_libm sample_audio
    (fun i => (i : Int) - 100) 600 hok).2.1⟩

theorem f32_tenth : f32 (1 / 10) = 13421773 / 134217728 := by
  rw [f32_eval (1 / 10) (-4) 13421773 (by norm_num) (by norm_num) (by norm_num)
    (by norm_num) (by norm_num)]
  norm_num

theorem f32_float_tenth : f32 (13421773 / 134217728) = 13421773 / 134217728 := by
  rw [f32_eval (13421773 / 134217728) (-4) 13421773 (by norm_num) (by norm_num) (by norm_num)
    (by norm_num) (by norm_num)]
  norm_num

theorem f32_float_span : f32 (7549747 / 8388608) = 7549747 / 8388608 := by
  rw [f32_eval (7549747 / 8388608) (-1) 15099494 (by norm_num) (by norm_num) (by norm_num)
    (by norm_num) (by norm_num)]
  norm_num

theorem f32_resistance_constants :
    f32 QBER_RESISTANCE_MIN = 13421773 / 134217728
      ∧ f32 QBER_RESISTANCE_MAX = 1
      ∧ f32 (f32 QBER_RESISTANCE_MAX - f32 QBER_RESISTANCE_MIN) = 7549747 / 8388608 := by
  have hmin : f32 QBER_RESISTANCE_MIN = 13421773 / 134217728 := f32_tenth
  have hmax : f32 QBER_RESISTANCE_MAX = 1 := f32_one
  refine ⟨hmin, hmax, ?_⟩
  rw [hmin, hmax]
  rw [f32_eval (1 - 13421773 / 134217728) (-1) 15099494 (by norm_num) (by norm_num)
    (by norm_num) (by norm_num) (by norm_num)]
  norm_num

theorem resistance_factor_f32_eq (q : ℚ) :
    resistance_factor_f32 q
      = f32 (13421773 / 134217728 + f32 (7549747 / 8388608 * q)) := by
  obtain ⟨h1, _, h3⟩ := f32_resistance_constants
  unfold resistance_factor_f32
  rw [h3, h1]

theorem resistance_factor_f32_mono {q q2 : ℚ} (h : q ≤ q2) :
    resistance_factor_f32 q ≤ resistance_factor_f32 q2 := by
  rw [resistance_factor_f32_eq, resistance_factor_f32_eq]
  apply f32_mono
  have hm : f32 (7549747 / 8388608 * q) ≤ f32 (7549747 / 8388608 * q2) := by
    apply f32_mono
    linarith
  linarith

theorem product_f32_bounds (q : ℚ) (h0 : 0 ≤ q) (h1 : q ≤ 1) :
    0 ≤ f32 (7549747 / 8388608 * q)
      ∧ f32 (7549747 / 8388608 * q) ≤ 7549747 / 8388608
      ∧ |f32 (7549747 / 8388608 * q) - 7549747 / 8388608 * q| ≤ 1 / 33554432 := by
  have hnn : (0 : ℚ) ≤ 7549747 / 8388608 * q := by positivity
  refine ⟨f32_nonneg hnn, ?_, ?_⟩
  · have hm : f32 (7549747 / 8388608 * q) ≤ f32 (7549747 / 8388608) := by
      apply f32_mono
      linarith
    rwa [f32_float_span] at hm
  · have h := f32_abs_sub_le_of_nonneg (7549747 / 8388608 * q) (-1) (by norm_num) hnn
      (by norm_num; linarith)
    norm_num at h
    exact h

theorem resistance_factor_f32_range (q : ℚ) (h0 : 0 ≤ q) (h1 : q ≤ 1) :
    13421773 / 134217728 ≤ resistance_factor_f32 q
      ∧ resistance_factor_f32 q ≤ 1
      ∧ |resistance_factor_f32 q - (1 / 10 + 9 / 10 * q)| ≤ 1 / 10000000 := by
  obtain ⟨t0, t1, t2⟩ := product_f32_bounds q h0 h1
  rw [resistance_factor_f32_eq]
  refine ⟨?_, ?_, ?_⟩
  · have hm : f32 (13421773 / 134217728)
        ≤ f32 (13421773 / 134217728 + f32 (7549747 / 8388608 * q)) := by
      apply f32_mono
      linarith
    rwa [f32_float_tenth] at hm
  · have hm : f32 (13421773 / 134217728 + f32 (7549747 / 8388608 * q)) ≤ f32 1 := by
      apply f32_mono
      linarith
    rwa [f32_one] at hm
  · have h := f32_abs_sub_le_of_nonneg
      (13421773 / 134217728 + f32 (7549747 / 8388608 * q)) (-1) (by norm_num)
      (by linarith) (by norm_num; linarith)
    norm_num at h
    rw [abs_le] at h t2 ⊢
    constructor <;> linarith [h.1, h.2, t2.1, t2.2]

theorem pwm_of_factor_f32 (q : ℚ) (h0 : 0 ≤ q) (h1 : q ≤ 1) :
    ((pwm_of_factor (resistance_factor_f32 q) : Nat) : Int)
        = truncToInt (f32 (resistance_factor_f32 q * 255))
      ∧ truncToInt (f32 (resistance_factor_f32 q * 255))
        = ⌊f32 (resistance_factor_f32 q * 255)⌋
      ∧ 25 ≤ ⌊f32 (resistance_factor_f32 q * 255)⌋
      ∧ ⌊f32 (resistance_factor_f32 q * 255)⌋ ≤ 255
      ∧ |f32 (resistance_factor_f32 q * 255) - (1 / 10 + 9 / 10 * q) * 255| < 1 := by
  obtain ⟨r0, r1, r2⟩ := resistance_factor_f32_range q h0 h1
  have hnn : (0 : ℚ) ≤ resistance_factor_f32 q * 255 := by linarith
  have htr := truncToInt_of_nonneg (f32_nonneg hnn)
  have hlo : 25 ≤ ⌊f32 (resistance_factor_f32 q * 255)⌋ := by
    have hm : f32 ((25 : Nat) : ℚ) ≤ f32 (resistance_factor_f32 q * 255) := by
      apply f32_mono
      push_cast
      linarith
    rw [f32_natCast 25 (by norm_num)] at hm
    rw [Int.le_floor]
    exact_mod_cast hm
  have hhi : ⌊f32 (resistance_factor_f32 q * 255)⌋ ≤ 255 := by
    have hm : f32 (resistance_factor_f32 q * 255) ≤ f32 ((255 : Nat) : ℚ) := by
      apply f32_mono
      push_cast
      linarith
    rw [f32_natCast 255 (by norm_num)] at hm
    have := le_trans (Int.floor_le _) hm
    exact_mod_cast this
  refine ⟨?_, htr, hlo, hhi, ?_⟩
  · unfold pwm_of_factor
    rw [htr]
    omega
  · have h := f32_abs_sub_le_of_nonneg (resistance_factor_f32 q * 255) 7 (by norm_num) hnn
      (by norm_num; linarith)
    norm_num at h
    rw [abs_le] at h r2
    rw [abs_lt]
    constructor <;> linarith [h.1, h.2, r2.1, r2.2]

theorem pwm_of_factor_sample :
    pwm_of_factor (resistance_factor_f32 (109655 / 16777216)) = 27
      ∧ truncToInt ((1 / 10 + 9 / 10 * (109655 / 16777216)) * 255) = 26 := by
  constructor
  · rw [resistance_factor_f32_eq]
    rw [f32_eval (7549747 / 8388608 * (109655 / 16777216)) (-8) 12632256 (by norm_num)
      (by norm_num) (by norm_num) (by norm_num) (by norm_num)]
    have hs : (13421773 / 134217728 + ((12632256 : Int) : ℚ) * 2 ^ ((-8 : Int) - 23) : ℚ)
        = 14211289 / 134217728 := by norm_num
    rw [hs]
    rw [f32_eval (14211289 / 134217728) (-4) 14211289 (by norm_num)
      (by norm_num) (by norm_num) (by norm_num) (by norm_num)]
    unfold pwm_of_factor
    rw [f32_eval (((14211289 : Int) : ℚ) * 2 ^ ((-4 : Int) - 23) * 255) 4 14155776 (by norm_num)
      (by norm_num) (by norm_num) (by norm_num) (by norm_num)]
    have hp : (((14155776 : Int) : ℚ) * 2 ^ ((4 : Int) - 23)) = ((27 : Int) : ℚ) := by norm_num
    rw [hp, truncToInt_of_nonneg (by norm_num), Int.floor_intCast]
    decide
  · rw [truncToInt_of_nonneg (by norm_num), Int.floor_eq_iff]
    norm_num

/-- C30 counterexample: at `qber = 109655 / 2 ^ 24`, a `float`, the initialised
controller writes the PWM byte 27, while `trunc ((0.1 + 0.9 * qber) * 255)` is
26: the exact product is 26.9999995..., and the `float` product, computed from
the `float` factor, is 27.0. -/
theorem pwm_byte_not_exact_trunc :
    ((HapticController.new.init ESP_OK ESP_OK ESP_OK ESP_OK ESP_OK 1).2.1
        |>.update_resistance_from_qber ESP_OK (109655 / 16777216)).2.2
        = [⟨HAPTIC_REG_RTP_INPUT, 27⟩]
      ∧ truncToInt ((1 / 10 + 9 / 10 * (109655 / 16777216)) * 255) = 26 := by
  refine ⟨?_, pwm_of_factor_sample.2⟩
  rw [(update_resistance_initialized ESP_OK _ (109655 / 16777216) init_ok_initialized.2).2.2,
    pwm_of_factor_sample.1]

/-- C30 (amended): for every `qber` in [0, 1] the PWM byte that
`update_resistance_from_qber` writes to the RTP input register of an
initialised controller is the truncated `float` product
`resistance_factor * 255.0f`, where `resistance_factor` is
`0.1f + (1.0f - 0.1f) * qber` with every operation rounded to `float`; it
differs from `trunc ((0.1 + 0.9 * qber) * 255)` by at most 1, lies in
[25, 255] and therefore fits an unsigned 8-bit value without wrap-around, and it
is monotonically non-decreasing in `qber`. -/
theorem pwm_byte_range (w : esp_err_t) (hc : HapticController) (q : ℚ)
    (hinit : hc.is_initialized = true) (h0 : 0 ≤ q) (h1 : q ≤ 1) :
    (hc.update_resistance_from_qber w q).2.2
        = [⟨HAPTIC_REG_RTP_INPUT, pwm_of_factor (resistance_factor_f32 q)⟩]
      ∧ ((pwm_of_factor (resistance_factor_f32 q) : Nat) : Int)
          = truncToInt (f32 (resistance_factor_f32 q * 255))
      ∧ |((pwm_of_factor (resistance_factor_f32 q) : Nat) : Int)
          - truncToInt ((1 / 10 + 9 / 10 * q) * 255)| ≤ 1
      ∧ 25 ≤ pwm_of_factor (resistance_factor_f32 q)
      ∧ pwm_of_factor (resistance_factor_f32 q) ≤ 255
      ∧ (∀ q2 : ℚ, q ≤ q2 → q2 ≤ 1 →
          pwm_of_factor (resistance_factor_f32 q)
            ≤ pwm_of_factor (resistance_factor_f32 q2)) := by
  obtain ⟨e1, e2, e3, e4, e5⟩ := pwm_of_factor_f32 q h0 h1
  refine ⟨(update_resistance_initialized w hc q hinit).2.2, e1, ?_, ?_, ?_, ?_⟩
  · have hex : truncToInt ((1 / 10 + 9 / 10 * q) * 255) = ⌊(1 / 10 + 9 / 10 * q) * 255⌋ :=
      truncToInt_of_nonneg (by positivity)
    rw [e1, e2, hex]
    exact floor_sub_floor_le_one _ _ e5
  · have := e1.trans e2
    omega
  · have := e1.trans e2
    omega
  · intro q2 hle h2
    obtain ⟨f1, f2, _, _, _⟩ := pwm_of_factor_f32 q2 (le_trans h0 hle) h2
    have hmono : ⌊f32 (resistance_factor_f32 q * 255)⌋
        ≤ ⌊f32 (resistance_factor_f32 q2 * 255)⌋ := by
      apply Int.floor_mono
      apply f32_mono
      have := resistance_factor_f32_mono hle
      linarith
    have a1 := e1.trans e2
    have a2 := f1.trans f2
    omega

/-- C30 witness (amended claim): `qber = 1/2` on a controller initialised by a
successful `init`. -/
theorem pwm_byte_range_witness :
    ((HapticController.new.init ESP_OK ESP_OK ESP_OK ESP_OK ESP_OK 1).2.1
        |>.update_resistance_from_qber ESP_OK (1 / 2)).2.2
        = [⟨HAPTIC_REG_RTP_INPUT, pwm_of_factor (resistance_factor_f32 (1 / 2))⟩]
      ∧ 25 ≤ pwm_of_factor (resistance_factor_f32 (1 / 2))
      ∧ pwm_of_factor (resistance_factor_f32 (1 / 2))
          ≤ pwm_of_factor (resistance_factor_f32 1) :=
  have h := pwm_byte_range ESP_OK
    (HapticController.new.init ESP_OK ESP_OK ESP_OK ESP_OK ESP_OK 1).2.1 (1 / 2)
    init_ok_initialized.2 (by norm_num) (by norm_num)
  ⟨h.1, h.2.2.2.1, h.2.2.2.2.2 1 (by norm_num) (by norm_num)⟩

theorem avg_purity_step (a p : ℚ) (ha : 0 ≤ a ∧ a ≤ 1) (hp : 0 ≤ p ∧ p ≤ 1) :
    0 ≤ 9 / 10 * a + 1 / 10 * p ∧ 9 / 10 * a + 1 / 10 * p ≤ 1 := by
  constructor <;> linarith [ha.1, ha.2, hp.1, hp.2]

theorem run_app_ticks_avg_purity (Q : Nat) (inputs : List TickInputs) (app : AppState)
    (hstart : 0 ≤ app.protocol_state.avg_purity ∧ app.protocol_state.avg_purity ≤ 1)
    (hp : ∀ inp ∈ inputs,
      0 ≤ inp.result.corrected_purity ∧ inp.result.corrected_purity ≤ 1) :
    0 ≤ (run_app_ticks Q inputs app).protocol_state.avg_purity
      ∧ (run_app_ticks Q inputs app).protocol_state.avg_purity ≤ 1 := by
  induction inputs generalizing app with
  | nil => exact hstart
  | cons inp rest ih =>
    have hstep : run_app_ticks Q (inp :: rest) app
        = run_app_ticks Q rest (run_protocol_step_app Q inp app).1 := rfl
    rw [hstep]
    apply ih
    · have havg : (run_protocol_step_app Q inp app).1.protocol_state.avg_purity
          = 9 / 10 * app.protocol_state.avg_purity + 1 / 10 * inp.result.corrected_purity :=
        (run_protocol_step_counters Q inp.result inp.millis app.protocol_state).2.2.2.2
      rw [havg]
      exact avg_purity_step _ _ hstart (hp inp (by simp))
    · intro x hx
      exact hp x (by simp [hx])

/-- C29: starting from the initial value 1.0, after any number of
`run_protocol_step` ticks whose `corrected_purity` values all lie in [0, 1],
`avg_purity` lies in [0, 1] (exact arithmetic), and the `qber = 1 -
corrected_purity` handed to the haptic controller and to the BLE metrics lies
in [0, 1] on each tick. -/
theorem avg_purity_in_unit_interval (Q : Nat) (inputs : List TickInputs) (app : AppState)
    (hstart : app.protocol_state.avg_purity = 1)
    (hp : ∀ inp ∈ inputs,
      0 ≤ inp.result.corrected_purity ∧ inp.result.corrected_purity ≤ 1) :
    (0 ≤ (run_app_ticks Q inputs app).protocol_state.avg_purity
        ∧ (run_app_ticks Q inputs app).protocol_state.avg_purity ≤ 1)
      ∧ (∀ inp ∈ inputs, ∀ a : AppState,
          (0 ≤ (run_protocol_step_app Q inp a).2.haptic_qber
            ∧ (run_protocol_step_app Q inp a).2.haptic_qber ≤ 1)
          ∧ (0 ≤ (run_protocol_step_app Q inp a).2.metrics.qber
            ∧ (run_protocol_step_app Q inp a).2.metrics.qber ≤ 1)) := by
  refine ⟨run_app_ticks_avg_purity Q inputs app (by rw [hstart]; norm_num) hp, ?_⟩
  intro inp hinp a
  have h := hp inp hinp
  have hq : (run_protocol_step_app Q inp a).2.haptic_qber = 1 - inp.result.corrected_purity :=
    rfl
  have hm : (run_protocol_step_app Q inp a).2.metrics.qber = 1 - inp.result.corrected_purity :=
    rfl
  rw [hq, hm]
  refine ⟨⟨?_, ?_⟩, ⟨?_, ?_⟩⟩ <;> linarith [h.1, h.2]

/-- C29 witness: two ticks with purity 1/3 from the initial state. -/
theorem avg_purity_in_unit_interval_witness :
    0 ≤ (run_app_ticks 3 [sample_inputs, sample_inputs] sample_app).protocol_state.avg_purity
      ∧ (run_app_ticks 3 [sample_inputs, sample_inputs] sample_app).protocol_state.avg_purity
          ≤ 1 :=
  (avg_purity_in_unit_interval 3 [sample_inputs, sample_inputs] sample_app rfl
    (by
      intro inp hinp
      have h : inp = sample_inputs := by simpa using hinp
      rw [h]
      simp only [sample_inputs, third_purity_result]
      norm_num)).1

/-! ## Theorems: what the obfuscated payload reveals -/

theorem quantum_payload_session_bytes (r : ProtocolResult) (millis sid : Nat) :
    quantum_payload r millis sid 13 = (sid % 256) ^^^ (sid / 256 % 256)
      ∧ quantum_payload r millis sid 14 = (sid / 256 % 256) ^^^ (sid / 65536 % 256)
      ∧ quantum_payload r millis sid 19 = sid / 16777216 % 256
      ∧ quantum_payload r millis sid 20 = sid % 256 := by
  obtain ⟨_, _, _, _, _, _, b13, b14, _, _, _, _, b19, b20⟩ := build_payload_bytes r millis sid
  have q13 := obfuscate_eq_xor sid (build_payload r millis sid) 13 (by decide)
    (build_payload_lt r millis sid 13 (by decide))
  have q14 := obfuscate_eq_xor sid (build_payload r millis sid) 14 (by decide)
    (build_payload_lt r millis sid 14 (by decide))
  have q19 := obfuscate_eq_xor sid (build_payload r millis sid) 19 (by decide)
    (build_payload_lt r millis sid 19 (by decide))
  have q20 := obfuscate_eq_xor sid (build_payload r millis sid) 20 (by decide)
    (build_payload_lt r millis sid 20 (by decide))
  rw [b13] at q13
  rw [b14] at q14
  rw [b19] at q19
  rw [b20] at q20
  norm_num at q13 q14 q19 q20
  exact ⟨q13, q14, q19, q20⟩

theorem session_id_from_payload (r : ProtocolResult) (millis sid : Nat)
    (hsid : sid < 4294967296) :
    quantum_payload r millis sid 13 ^^^ quantum_payload r millis sid 20 = sid / 256 % 256
      ∧ quantum_payload r millis sid 14
          ^^^ (quantum_payload r millis sid 13 ^^^ quantum_payload r millis sid 20)
        = sid / 65536 % 256
      ∧ sid = quantum_payload r millis sid 20
          + 256 * (quantum_payload r millis sid 13 ^^^ quantum_payload r millis sid 20)
          + 65536 * (quantum_payload r millis sid 14
              ^^^ (quantum_payload r millis sid 13 ^^^ quantum_payload r millis sid 20))
          + 16777216 * quantum_payload r millis sid 19 := by
  obtain ⟨q13, q14, q19, q20⟩ := quantum_payload_session_bytes r millis sid
  have x1 : quantum_payload r millis sid 13 ^^^ quantum_payload r millis sid 20
      = sid / 256 % 256 := by
    rw [q13, q20, Nat.xor_comm (sid % 256), Nat.xor_cancel_right]
  have x2 : quantum_payload r millis sid 14
      ^^^ (quantum_payload r millis sid 13 ^^^ quantum_payload r millis sid 20)
      = sid / 65536 % 256 := by
    rw [x1, q14, Nat.xor_comm (sid / 256 % 256), Nat.xor_cancel_right]
  refine ⟨x1, x2, ?_⟩
  rw [x2, x1, q19, q20]
  omega

/-- C25: the `session_id` is fully determined by the obfuscated 21-byte payload
alone. For every result, timestamp and 32-bit `session_id`, obfuscated bytes 20
and 19 equal `session_id` bytes 0 and 3, and bytes 13 and 14 XOR-chain to bytes
1 and 2, so two runs of the encoder that produce equal obfuscated payloads have
equal `session_id` and equal plaintext payloads. -/
theorem session_id_determined_by_payload (r1 r2 : ProtocolResult)
    (millis1 millis2 sid1 sid2 : Nat)
    (h1 : sid1 < 4294967296) (h2 : sid2 < 4294967296) :
    (quantum_payload r1 millis1 sid1 20 = sid1 % 256
        ∧ quantum_payload r1 millis1 sid1 19 = sid1 / 16777216 % 256
        ∧ quantum_payload r1 millis1 sid1 13 ^^^ quantum_payload r1 millis1 sid1 20
            = sid1 / 256 % 256
        ∧ quantum_payload r1 millis1 sid1 14
            ^^^ (quantum_payload r1 millis1 sid1 13 ^^^ quantum_payload r1 millis1 sid1 20)
            = sid1 / 65536 % 256)
      ∧ sid1 = quantum_payload r1 millis1 sid1 20
          + 256 * (quantum_payload r1 millis1 sid1 13 ^^^ quantum_payload r1 millis1 sid1 20)
          + 65536 * (quantum_payload r1 millis1 sid1 14
              ^^^ (quantum_payload r1 millis1 sid1 13
                ^^^ quantum_payload r1 millis1 sid1 20))
          + 16777216 * quantum_payload r1 millis1 sid1 19
      ∧ ((∀ k < 21, quantum_payload r1 millis1 sid1 k = quantum_payload r2 millis2 sid2 k) →
          sid1 = sid2
            ∧ ∀ k < 21, build_payload r1 millis1 sid1 k = build_payload r2 millis2 sid2 k) := by
  obtain ⟨_, _, q19, q20⟩ := quantum_payload_session_bytes r1 millis1 sid1
  obtain ⟨x1, x2, x3⟩ := session_id_from_payload r1 millis1 sid1 h1
  obtain ⟨_, _, y3⟩ := session_id_from_payload r2 millis2 sid2 h2
  refine ⟨⟨q20, q19, x1, x2⟩, x3, ?_⟩
  intro heq
  have hsid : sid1 = sid2 := by
    rw [x3, y3, heq 13 (by decide), heq 14 (by decide), heq 19 (by decide),
      heq 20 (by decide)]
  refine ⟨hsid, ?_⟩
  intro k hk
  rw [← decoded_byte r1 millis1 sid1 k hk, ← decoded_byte r2 millis2 sid2 k hk]
  unfold xor_decode
  rw [heq k hk, hsid]

/-- C25 witness: the session id 0xDEADBEEF read off the obfuscated payload; the
payloads of the results with purity 1/3 and 0.3333 are equal. -/
theorem session_id_determined_by_payload_witness :
    quantum_payload third_purity_result 1000 3735928559 20 = 239
      ∧ build_payload third_purity_result 1000 3735928559 17
          = build_payload rounded_purity_result 1000 3735928559 17 :=
  have h := session_id_determined_by_payload third_purity_result rounded_purity_result
    1000 1000 3735928559 3735928559 (by decide) (by decide)
  have hpay : quantum_payload third_purity_result 1000 3735928559
      = quantum_payload rounded_purity_result 1000 3735928559 := by
    have hf : fixed_point (1 / 3) = fixed_point (3333 / 10000) := by
      rw [fixed_point_third.1, fixed_point_third.2]
    unfold quantum_payload build_payload
    simp only [third_purity_result, rounded_purity_result, encode_outcomes, hf]
  ⟨h.1.1.trans (by decide), (h.2.2 (fun k _ => by rw [hpay])).2 17 (by decide)⟩

/-! ## Theorems: more on calculate_offset and synchronize_mesh -/

theorem length_le_length_flatMap {α β : Type} (g : α → List β) (l : List α) (x : α)
    (hx : x ∈ l) : (g x).length ≤ (l.flatMap g).length := by
  induction l with
  | nil => simp at hx
  | cons y ys ih =>
    rw [List.flatMap_cons, List.length_append]
    rcases List.mem_cons.mp hx with h | h
    · rw [h]; omega
    · have := ih h
      omega

theorem first_matching_pairs_eq_all_of_short (chirps : List ChirpTimestamp) (a b : Int)
    (h : (all_matching_pairs chirps a b).length ≤ 1) :
    first_matching_pairs chirps a b = all_matching_pairs chirps a b := by
  unfold first_matching_pairs
  rw [List.filterMap_eq_flatMap_toList]
  unfold all_matching_pairs at h ⊢
  apply List.flatMap_congr
  intro ca hca
  have hblock := length_le_length_flatMap
    (fun ca => (chirps.filter (fun cb =>
        decide (ca.node_id = toUInt32 a ∧ cb.node_id = toUInt32 b
          ∧ ca.sequence_number = cb.sequence_number))).map (fun cb => (ca, cb))) chirps ca hca
  have hlen : (chirps.filter (fun cb =>
      decide (ca.node_id = toUInt32 a ∧ cb.node_id = toUInt32 b
        ∧ ca.sequence_number = cb.sequence_number))).length ≤ 1 := by
    simp only [List.length_map] at hblock
    omega
  by_cases h1 : ca.node_id = toUInt32 a
  · simp only [h1, if_true, true_and] at hlen ⊢
    rw [filter_eq_find_toList _ chirps hlen]
    cases List.find? (fun cb =>
      decide (cb.node_id = toUInt32 b ∧ ca.sequence_number = cb.sequence_number)) chirps <;> rfl
  · simp [h1]

theorem wrapInt32_toInt32_sub (x y : Nat) :
    wrapInt32 (toInt32 x - toInt32 y) = wrapInt32 ((x : Int) - (y : Int)) := by
  unfold wrapInt32 toInt32
  split <;> split <;> omega

theorem wrapInt32_spec (z : Int) :
    -2147483648 ≤ wrapInt32 z ∧ wrapInt32 z < 2147483648
      ∧ (wrapInt32 z - z) % 4294967296 = 0
      ∧ (wrapInt32 z = z ↔ -2147483648 ≤ z ∧ z < 2147483648) := by
  unfold wrapInt32
  refine ⟨by omega, by omega, by omega, ?_⟩
  constructor
  · intro h; omega
  · intro h; omega

theorem calculate_offset_of_single (chirps : List ChirpTimestamp) (a b : Int)
    (ca cb : ChirpTimestamp) (h : all_matching_pairs chirps a b = [(ca, cb)]) :
    calculate_offset chirps a b = ((time_diff (ca, cb) : Int) : ℚ) := by
  have hfirst : first_matching_pairs chirps a b = [(ca, cb)] := by
    rw [first_matching_pairs_eq_all_of_short chirps a b (by rw [h]; simp), h]
  unfold calculate_offset
  simp only [common_chirps_eq_first_matching_pairs, hfirst, List.isEmpty_cons,
    Bool.false_eq_true, if_false, total_offset_eq_sum]
  simp

theorem wrap_buffer_pairs :
    all_matching_pairs wrap_buffer 0 1 = [(wrap_buffer.get ⟨0, by decide⟩,
      wrap_buffer.get ⟨1, by decide⟩)] := by
  simp [all_matching_pairs, wrap_buffer, toUInt32]

/-- C28: for a buffer with exactly one matching pair `(ca, cb)` for nodes `a`,
`b`, `calculate_offset a b` is the signed 32-bit wrap of `ca.local_timestamp_us
- cb.local_timestamp_us` (each timestamp reinterpreted as signed, subtraction
modulo 2^32): a value in [-2^31, 2^31) congruent to the difference modulo 2^32.
It equals the mathematical difference exactly when that difference lies in
[-2^31, 2^31); for the timestamps 3000000000 and 0 it is 3000000000 - 2^32. -/
theorem calculate_offset_wraps (chirps : List ChirpTimestamp) (a b : Int)
    (ca cb : ChirpTimestamp) (h : all_matching_pairs chirps a b = [(ca, cb)]) :
    calculate_offset chirps a b
        = ((wrapInt32 (toInt32 ca.local_timestamp_us - toInt32 cb.local_timestamp_us) : Int) : ℚ)
      ∧ calculate_offset chirps a b
        = ((wrapInt32 ((ca.local_timestamp_us : Int) - (cb.local_timestamp_us : Int)) : Int) : ℚ)
      ∧ (-2147483648 : ℚ) ≤ calculate_offset chirps a b
      ∧ calculate_offset chirps a b < 2147483648
      ∧ (wrapInt32 ((ca.local_timestamp_us : Int) - (cb.local_timestamp_us : Int))
          - ((ca.local_timestamp_us : Int) - (cb.local_timestamp_us : Int))) % 4294967296 = 0
      ∧ (calculate_offset chirps a b
            = (ca.local_timestamp_us : ℚ) - (cb.local_timestamp_us : ℚ)
          ↔ -2147483648 ≤ (ca.local_timestamp_us : Int) - (cb.local_timestamp_us : Int)
            ∧ (ca.local_timestamp_us : Int) - (cb.local_timestamp_us : Int) < 2147483648)
      ∧ calculate_offset wrap_buffer 0 1 = 3000000000 - 4294967296 := by
  have hval := calculate_offset_of_single chirps a b ca cb h
  have hw := wrapInt32_toInt32_sub ca.local_timestamp_us cb.local_timestamp_us
  obtain ⟨s1, s2, s3, s4⟩ :=
    wrapInt32_spec ((ca.local_timestamp_us : Int) - (cb.local_timestamp_us : Int))
  have hval2 : calculate_offset chirps a b
      = ((wrapInt32 ((ca.local_timestamp_us : Int) - (cb.local_timestamp_us : Int)) : Int)
          : ℚ) := by
    rw [hval]
    show ((wrapInt32 (toInt32 ca.local_timestamp_us - toInt32 cb.local_timestamp_us) : Int)
      : ℚ) = _
    rw [hw]
  refine ⟨hval, hval2, ?_, ?_, s3, ?_, ?_⟩
  · rw [hval2]; exact_mod_cast s1
  · rw [hval2]; exact_mod_cast s2
  · rw [hval2]
    constructor
    · intro heq
      apply s4.mp
      exact_mod_cast heq
    · intro hr
      have := s4.mpr hr
      rw [this]
      push_cast
      rfl
  · rw [calculate_offset_of_single wrap_buffer 0 1 _ _ wrap_buffer_pairs]
    simp [time_diff, wrap_buffer, toInt32, wrapInt32]
    norm_num

/-- C28 witness: the buffer with local timestamps 3000000000 and 0. -/
theorem calculate_offset_wraps_witness :
    calculate_offset wrap_buffer 0 1
      = ((wrapInt32 (((wrap_buffer.get ⟨0, by decide⟩).local_timestamp_us : Int)
          - ((wrap_buffer.get ⟨1, by decide⟩).local_timestamp_us : Int)) : Int) : ℚ) :=
  (calculate_offset_wraps wrap_buffer 0 1 _ _ wrap_buffer_pairs).2.1

theorem calculate_offset_zero_of_all_node_zero (chirps : List ChirpTimestamp)
    (hall : ∀ c ∈ chirps, c.node_id = 0) (i j : Nat) (hj0 : 0 < j) (hj : j < 4294967296) :
    calculate_offset chirps (i : Int) (j : Int) = 0 := by
  have hnil : common_chirps chirps (i : Int) (j : Int) = [] := by
    apply common_chirps_eq_nil
    intro _ _ cb hcb _ hb
    exfalso
    have hju : toUInt32 (j : Int) = j := by
      unfold toUInt32
      omega
    rw [hju, hall cb hcb] at hb
    omega
  unfold calculate_offset
  simp [hnil]

theorem calculate_offset_zero_of_all_node_zero_int (chirps : List ChirpTimestamp)
    (hall : ∀ c ∈ chirps, c.node_id = 0) (i j : Int) (hij : i < j)
    (hi : -2147483648 ≤ i) (hj : j < 2147483648) :
    calculate_offset chirps i j = 0 := by
  have hnil : common_chirps chirps i j = [] := by
    apply common_chirps_eq_nil
    intro ca hca cb hcb ha hb
    exfalso
    rw [hall ca hca] at ha
    rw [hall cb hcb] at hb
    unfold toUInt32 at ha hb
    omega
  unfold calculate_offset
  simp [hnil]

theorem sync_offsets_of_all_node_zero (chirps : List ChirpTimestamp) (N : Nat)
    (hN : N ≤ 2147483648) (hall : ∀ c ∈ chirps, c.node_id = 0) (offsets : Nat → ℚ) :
    sync_offsets chirps N offsets = offsets := by
  unfold sync_offsets
  apply foldl_sync_row_of_zero
  intro i _ j hij hj
  exact calculate_offset_zero_of_all_node_zero chirps hall i j (by omega) (by omega)

theorem precision_of_zero_offsets (N : Nat) (offsets : Nat → ℚ) (h : ∀ k, offsets k = 0) :
    (if (precision_loop N offsets).2 > 0 then
        (precision_loop N offsets).1 / ((precision_loop N offsets).2 : ℚ)
      else ((TDOA_SYNC_PRECISION_US * 10 : Nat) : ℚ)) = 10000 := by
  rw [precision_loop_eq, (nonzero_offsets_eq_nil_iff N offsets).mpr (fun k _ => h k)]
  simp [TDOA_SYNC_PRECISION_US]

theorem mem_push_chirp (chirps : List ChirpTimestamp) (c x : ChirpTimestamp)
    (hx : x ∈ push_chirp chirps c) : x ∈ chirps ∨ x = c := by
  rw [(push_chirp_eq chirps c).1] at hx
  split at hx
  · simpa using hx
  · rw [List.mem_append] at hx
    rcases hx with h | h
    · exact Or.inl (List.mem_of_mem_tail h)
    · exact Or.inr (by simpa using h)

theorem ingest_or_sync_invariant (tag N : Nat) (hN : N ≤ 2147483648) (st : TDOASync)
    (op : TDOAOp) (hop : op.is_ingest_or_sync = true)
    (hinv : (∀ c ∈ st.recent_chirps, c.node_id = 0) ∧ (∀ k, st.node_offsets k = 0)
      ∧ st.sync_precision_us = 10000) :
    (∀ c ∈ (st.step tag N op).recent_chirps, c.node_id = 0)
      ∧ (∀ k, (st.step tag N op).node_offsets k = 0)
      ∧ (st.step tag N op).sync_precision_us = 10000 := by
  obtain ⟨h1, h2, h3⟩ := hinv
  cases op with
  | add_chirp_timestamp chirp => simp [TDOAOp.is_ingest_or_sync] at hop
  | calculate_offset a b => simp [TDOAOp.is_ingest_or_sync] at hop
  | generate_sync_chirp now buffer S => simp [TDOAOp.is_ingest_or_sync] at hop
  | process_sync_chirp buffer length L =>
    show (∀ c ∈ (st.process_sync_chirp tag buffer length L).recent_chirps, c.node_id = 0)
      ∧ (∀ k, (st.process_sync_chirp tag buffer length L).node_offsets k = 0)
      ∧ (st.process_sync_chirp tag buffer length L).sync_precision_us = 10000
    unfold TDOASync.process_sync_chirp
    split
    · exact ⟨h1, h2, h3⟩
    · refine ⟨?_, h2, h3⟩
      intro c hc
      rcases mem_push_chirp _ _ _ hc with h | h
      · exact h1 c h
      · rw [h]; rfl
  | synchronize_mesh now =>
    have hoff : (st.synchronize_mesh N now).node_offsets = st.node_offsets :=
      sync_offsets_of_all_node_zero st.recent_chirps N hN h1 st.node_offsets
    refine ⟨h1, fun k => by rw [show (st.step tag N (.synchronize_mesh now)).node_offsets
      = st.node_offsets from hoff]; exact h2 k, ?_⟩
    show (if (precision_loop N (st.synchronize_mesh N now).node_offsets).2 > 0 then
        (precision_loop N (st.synchronize_mesh N now).node_offsets).1
          / ((precision_loop N (st.synchronize_mesh N now).node_offsets).2 : ℚ)
      else ((TDOA_SYNC_PRECISION_US * 10 : Nat) : ℚ)) = 10000
    apply precision_of_zero_offsets
    intro k
    rw [hoff]
    exact h2 k

theorem ingest_or_sync_invariant_foldl (tag N : Nat) (hN : N ≤ 2147483648)
    (ops : List TDOAOp) (hops : ∀ op ∈ ops, op.is_ingest_or_sync = true) (st : TDOASync)
    (hinv : (∀ c ∈ st.recent_chirps, c.node_id = 0) ∧ (∀ k, st.node_offsets k = 0)
      ∧ st.sync_precision_us = 10000) :
    (∀ c ∈ (ops.foldl (TDOASync.step tag N) st).recent_chirps, c.node_id = 0)
      ∧ (∀ k, (ops.foldl (TDOASync.step tag N) st).node_offsets k = 0)
      ∧ (ops.foldl (TDOASync.step tag N) st).sync_precision_us = 10000 := by
  induction ops generalizing st with
  | nil => exact hinv
  | cons op ops ih =>
    rw [List.foldl_cons]
    apply ih (fun o ho => hops o (by simp [ho]))
    exact ingest_or_sync_invariant tag N hN st op (hops op (by simp)) hinv

/-- C24: if every chirp in the buffer was ingested through `process_sync_chirp`
(which stamps `node_id = 0`), then for every `i < j` in the range of `int`
`calculate_offset i j` is 0, `synchronize_mesh` leaves every node offset
unchanged, and starting from a freshly constructed `TDOASync` the precision
stays at 10000, so `is_synchronized()` is false, after any number of
`process_sync_chirp` and `synchronize_mesh` calls. `OR_MAX_NODES` is bounded by
the range of the `int` loop variables. -/
theorem node_zero_chirps_never_synchronize (tag N : Nat) (hN : N ≤ 2147483648)
    (st : TDOASync) (hall : ∀ c ∈ st.recent_chirps, c.node_id = 0) :
    (∀ i j : Int, i < j → -2147483648 ≤ i → j < 2147483648 → st.calculate_offset i j = 0)
      ∧ (∀ now : Nat, (st.synchronize_mesh N now).node_offsets = st.node_offsets)
      ∧ (∀ ops : List TDOAOp, (∀ op ∈ ops, op.is_ingest_or_sync = true) →
          (ops.foldl (TDOASync.step tag N) TDOASync.new).sync_precision_us = 10000
            ∧ (ops.foldl (TDOASync.step tag N) TDOASync.new).is_synchronized = false
            ∧ (∀ c ∈ (ops.foldl (TDOASync.step tag N) TDOASync.new).recent_chirps,
                c.node_id = 0)
            ∧ (∀ k, (ops.foldl (TDOASync.step tag N) TDOASync.new).node_offsets k = 0)) := by
  refine ⟨?_, ?_, ?_⟩
  · intro i j hij hi hj
    exact calculate_offset_zero_of_all_node_zero_int st.recent_chirps hall i j hij hi hj
  · intro now
    exact sync_offsets_of_all_node_zero st.recent_chirps N hN hall st.node_offsets
  · intro ops hops
    have hnew : (∀ c ∈ TDOASync.new.recent_chirps, c.node_id = 0)
        ∧ (∀ k, TDOASync.new.node_offsets k = 0)
        ∧ TDOASync.new.sync_precision_us = 10000 := by
      refine ⟨by simp [TDOASync.new], fun _ => rfl, ?_⟩
      simp [TDOASync.new, TDOA_SYNC_PRECISION_US]
    obtain ⟨i1, i2, i3⟩ := ingest_or_sync_invariant_foldl tag N hN ops hops TDOASync.new hnew
    refine ⟨i3, ?_, i1, i2⟩
    unfold TDOASync.is_synchronized
    rw [i3]
    simp [TDOA_SYNC_PRECISION_US]
    norm_num

/-- C24 witness: a fresh synchroniser (mesh of 4 nodes) that ingests one
generated packet and then synchronises. -/
theorem node_zero_chirps_never_synchronize_witness :
    ([TDOAOp.process_sync_chirp (generate_sync_chirp 1 777 (fun _ => 0) 5).1 14 999,
        TDOAOp.synchronize_mesh 1000].foldl (TDOASync.step 1 4)
          TDOASync.new).is_synchronized = false
      ∧ (TDOASync.new.process_sync_chirp 1 (generate_sync_chirp 1 777 (fun _ => 0) 5).1 14
          999).calculate_offset ((0 : Nat) : Int) ((1 : Nat) : Int) = 0 :=
  ⟨((node_zero_chirps_never_synchronize 1 4 (by decide) TDOASync.new
      (by simp [TDOASync.new])).2.2
      [TDOAOp.process_sync_chirp (generate_sync_chirp 1 777 (fun _ => 0) 5).1 14 999,
        TDOAOp.synchronize_mesh 1000]
      (by simp [TDOAOp.is_ingest_or_sync])).2.1,
   (node_zero_chirps_never_synchronize 1 4 (by decide)
      (TDOASync.new.process_sync_chirp 1 (generate_sync_chirp 1 777 (fun _ => 0) 5).1 14 999)
      (by
        intro c hc
        unfold TDOASync.process_sync_chirp at hc
        split at hc
        · simp [TDOASync.new] at hc
        · have hc2 : c ∈ push_chirp TDOASync.new.recent_chirps
              (parse_sync_chirp (generate_sync_chirp 1 777 (fun _ => 0) 5).1 999) := hc
          rcases mem_push_chirp _ _ _ hc2 with h | h
          · simp [TDOASync.new] at h
          · rw [h]; rfl)).1 0 1 (by decide) (by decide) (by decide)⟩

theorem overwrite_foldl {α : Type} (f : (Nat → ℚ) → α → (Nat → ℚ)) (l : List α)
    (hf : ∀ x : α, ∃ ov : Nat → Option ℚ, ∀ (offs : Nat → ℚ) (k : Nat),
      f offs x k = (ov k).getD (offs k)) :
    ∃ ov : Nat → Option ℚ, ∀ (offs : Nat → ℚ) (k : Nat),
      l.foldl f offs k = (ov k).getD (offs k) := by
  induction l with
  | nil => exact ⟨fun _ => none, fun _ _ => rfl⟩
  | cons x xs ih =>
    obtain ⟨ov1, h1⟩ := hf x
    obtain ⟨ov2, h2⟩ := ih
    refine ⟨fun k => (ov2 k).orElse (fun _ => ov1 k), ?_⟩
    intro offs k
    rw [List.foldl_cons, h2, h1]
    show (ov2 k).getD ((ov1 k).getD (offs k))
      = ((ov2 k).orElse (fun _ => ov1 k)).getD (offs k)
    cases ov2 k <;> rfl

theorem sync_pair_overwrite (chirps : List ChirpTimestamp) (i j : Nat) :
    ∃ ov : Nat → Option ℚ, ∀ (offs : Nat → ℚ) (k : Nat),
      sync_pair chirps i offs j k = (ov k).getD (offs k) := by
  by_cases hd : calculate_offset chirps (i : Int) (j : Int) = 0
  · refine ⟨fun _ => none, ?_⟩
    intro offs k
    rw [sync_pair_of_zero chirps i j offs hd]
    rfl
  · refine ⟨fun k =>
      if k = j then some (-calculate_offset chirps (i : Int) (j : Int) / 2)
      else if k = i then some (calculate_offset chirps (i : Int) (j : Int) / 2)
      else none, ?_⟩
    intro offs k
    unfold sync_pair
    simp only [ne_eq, hd, not_false_eq_true, if_true, Function.update]
    by_cases hkj : k = j
    · simp [hkj]
    · by_cases hki : k = i
      · subst hki
        simp [hkj]
      · simp [hkj, hki]

theorem sync_offsets_overwrite (chirps : List ChirpTimestamp) (N : Nat) :
    ∃ ov : Nat → Option ℚ, ∀ (offs : Nat → ℚ) (k : Nat),
      sync_offsets chirps N offs k = (ov k).getD (offs k) := by
  unfold sync_offsets
  apply overwrite_foldl
  intro i
  unfold sync_row
  apply overwrite_foldl
  intro j
  exact sync_pair_overwrite chirps i j

theorem sync_offsets_idempotent (chirps : List ChirpTimestamp) (N : Nat) (offs : Nat → ℚ) :
    sync_offsets chirps N (sync_offsets chirps N offs) = sync_offsets chirps N offs := by
  obtain ⟨ov, h⟩ := sync_offsets_overwrite chirps N
  funext k
  rw [h (sync_offsets chirps N offs) k, h offs k]
  cases ov k <;> rfl

/-- C27: `synchronize_mesh` is idempotent on the synchronisation result: for
every `TDOASync` state, calling it twice without changing the chirp buffer
leaves `node_offsets` and the precision exactly as they were after the first
call. -/
theorem synchronize_mesh_idempotent (st : TDOASync) (N now1 now2 : Nat) :
    (st.synchronize_mesh N now1).recent_chirps = st.recent_chirps
      ∧ ((st.synchronize_mesh N now1).synchronize_mesh N now2).node_offsets
          = (st.synchronize_mesh N now1).node_offsets
      ∧ ((st.synchronize_mesh N now1).synchronize_mesh N now2).sync_precision_us
          = (st.synchronize_mesh N now1).sync_precision_us
      ∧ ((st.synchronize_mesh N now1).synchronize_mesh N now2).get_sync_precision_us
          = (st.synchronize_mesh N now1).get_sync_precision_us
      ∧ ((st.synchronize_mesh N now1).synchronize_mesh N now2).is_synchronized
          = (st.synchronize_mesh N now1).is_synchronized := by
  have hoff : ((st.synchronize_mesh N now1).synchronize_mesh N now2).node_offsets
      = (st.synchronize_mesh N now1).node_offsets :=
    sync_offsets_idempotent st.recent_chirps N st.node_offsets
  have hprec : ∀ (s : TDOASync) (now : Nat), (s.synchronize_mesh N now).sync_precision_us
      = (if (precision_loop N (s.synchronize_mesh N now).node_offsets).2 > 0 then
          (precision_loop N (s.synchronize_mesh N now).node_offsets).1
            / ((precision_loop N (s.synchronize_mesh N now).node_offsets).2 : ℚ)
        else ((TDOA_SYNC_PRECISION_US * 10 : Nat) : ℚ)) := fun _ _ => rfl
  have hp : ((st.synchronize_mesh N now1).synchronize_mesh N now2).sync_precision_us
      = (st.synchronize_mesh N now1).sync_precision_us := by
    rw [hprec (st.synchronize_mesh N now1) now2, hprec st now1, hoff]
  refine ⟨rfl, hoff, hp, hp, ?_⟩
  unfold TDOASync.is_synchronized
  rw [hp]

theorem sum_flatMap_map {α β : Type} (blk : α → List β) (g : β → ℚ) (l : List α) :
    ((l.flatMap blk).map g).sum = (l.map (fun x => ((blk x).map g).sum)).sum := by
  induction l with
  | nil => rfl
  | cons x xs ih =>
    rw [List.flatMap_cons, List.map_append, List.sum_append, ih, List.map_cons, List.sum_cons]

theorem sum_filter_map {α : Type} (p : α → Bool) (h : α → ℚ) (l : List α) :
    ((l.filter p).map h).sum = (l.map (fun y => if p y then h y else 0)).sum := by
  induction l with
  | nil => rfl
  | cons y ys ih =>
    by_cases hp : p y = true
    · rw [List.filter_cons_of_pos hp, List.map_cons, List.sum_cons, ih, List.map_cons,
        List.sum_cons, if_pos hp]
    · rw [List.filter_cons_of_neg hp, ih, List.map_cons, List.sum_cons, if_neg hp, zero_add]

theorem sum_map_add_pointwise {α : Type} (f g : α → ℚ) (l : List α) :
    (l.map (fun y => f y + g y)).sum = (l.map f).sum + (l.map g).sum := by
  induction l with
  | nil => simp
  | cons y ys ih =>
    simp only [List.map_cons, List.sum_cons, ih]
    ring

theorem sum_map_comm {α β : Type} (F : α → β → ℚ) (l1 : List α) (l2 : List β) :
    (l1.map (fun x => (l2.map (fun y => F x y)).sum)).sum
      = (l2.map (fun y => (l1.map (fun x => F x y)).sum)).sum := by
  induction l1 with
  | nil => simp
  | cons x xs ih =>
    simp only [List.map_cons, List.sum_cons]
    rw [ih, sum_map_add_pointwise]

theorem sum_all_matching_pairs (chirps : List ChirpTimestamp) (a b : Int)
    (g : ChirpTimestamp × ChirpTimestamp → ℚ) :
    ((all_matching_pairs chirps a b).map g).sum
      = (chirps.map (fun x => (chirps.map (fun y =>
          if x.node_id = toUInt32 a ∧ y.node_id = toUInt32 b
              ∧ x.sequence_number = y.sequence_number
          then g (x, y) else 0)).sum)).sum := by
  unfold all_matching_pairs
  rw [sum_flatMap_map]
  congr 1
  apply List.map_congr_left
  intro x _
  rw [List.map_map, sum_filter_map]
  congr 1
  apply List.map_congr_left
  intro y _
  simp

theorem sum_all_matching_pairs_swap (chirps : List ChirpTimestamp) (a b : Int)
    (g : ChirpTimestamp × ChirpTimestamp → ℚ) :
    ((all_matching_pairs chirps b a).map g).sum
      = ((all_matching_pairs chirps a b).map (fun p => g (p.2, p.1))).sum := by
  rw [sum_all_matching_pairs, sum_all_matching_pairs, sum_map_comm]
  congr 1
  apply List.map_congr_left
  intro x _
  congr 1
  apply List.map_congr_left
  intro y _
  by_cases h : x.node_id = toUInt32 a ∧ y.node_id = toUInt32 b
      ∧ x.sequence_number = y.sequence_number
  · rw [if_pos h, if_pos ⟨h.2.1, h.1, h.2.2.symm⟩]
  · rw [if_neg h, if_neg (fun h2 => h ⟨h2.2.1, h2.1, h2.2.2.symm⟩)]

theorem sum_map_one {α : Type} (l : List α) : (l.map (fun _ => (1 : ℚ))).sum = l.length := by
  induction l with
  | nil => simp
  | cons y ys ih =>
    simp only [List.map_cons, List.sum_cons, ih, List.length_cons]
    push_cast
    ring

theorem sum_map_neg_pointwise {α : Type} (f : α → ℚ) (l : List α) :
    (l.map (fun y => -f y)).sum = -(l.map f).sum := by
  induction l with
  | nil => simp
  | cons y ys ih =>
    simp only [List.map_cons, List.sum_cons, ih]
    ring

theorem filter_length_le_one_of_pairwise (chirps : List ChirpTimestamp) (n s : Nat)
    (huniq : chirps.Pairwise (fun c d =>
      ¬ (c.node_id = d.node_id ∧ c.sequence_number = d.sequence_number))) :
    (chirps.filter (fun cb => decide (cb.node_id = n ∧ s = cb.sequence_number))).length ≤ 1 := by
  induction chirps with
  | nil => simp
  | cons x xs ih =>
    rw [List.pairwise_cons] at huniq
    have ih2 := ih huniq.2
    by_cases hx : x.node_id = n ∧ s = x.sequence_number
    · have hnil : xs.filter (fun cb => decide (cb.node_id = n ∧ s = cb.sequence_number))
          = [] := by
        rw [List.filter_eq_nil_iff]
        intro y hy
        simp only [decide_eq_true_eq]
        intro hyp
        exact huniq.1 y hy ⟨hx.1.trans hyp.1.symm, hx.2.symm.trans hyp.2⟩
      rw [List.filter_cons_of_pos (by simpa using hx), hnil]
      simp
    · rw [List.filter_cons_of_neg (by simpa using hx)]
      exact ih2

theorem calculate_offset_eq_mean_all (chirps : List ChirpTimestamp) (a b : Int)
    (huniq : chirps.Pairwise (fun c d =>
      ¬ (c.node_id = d.node_id ∧ c.sequence_number = d.sequence_number)))
    (hsmall : ∀ c ∈ chirps, c.local_timestamp_us < 2147483648) :
    calculate_offset chirps a b = mean_over_all_pairs chirps a b := by
  have hall : first_matching_pairs chirps a b = all_matching_pairs chirps a b :=
    first_matching_pairs_eq_all chirps a b
      (fun s => filter_length_le_one_of_pairwise chirps (toUInt32 b) s huniq)
  unfold calculate_offset mean_over_all_pairs
  rw [common_chirps_eq_first_matching_pairs, hall]
  cases hp : all_matching_pairs chirps a b with
  | nil => simp
  | cons p ps =>
    simp only [List.isEmpty_cons, Bool.false_eq_true, if_false]
    rw [total_offset_eq_sum]
    congr 2
    apply List.map_congr_left
    intro q hq
    have hq2 : q ∈ first_matching_pairs chirps a b := by rw [hall, hp]; exact hq
    have hm := mem_first_matching_pairs chirps a b q hq2
    rw [time_diff_eq_sub q (hsmall _ hm.1) (hsmall _ hm.2)]
    push_cast
    rfl

theorem mean_over_all_pairs_swap (chirps : List ChirpTimestamp) (a b : Int) :
    mean_over_all_pairs chirps b a = -mean_over_all_pairs chirps a b := by
  unfold mean_over_all_pairs
  have hlen : ((all_matching_pairs chirps b a).length : ℚ)
      = ((all_matching_pairs chirps a b).length : ℚ) := by
    rw [← sum_map_one, ← sum_map_one, sum_all_matching_pairs_swap]
  rw [hlen, sum_all_matching_pairs_swap]
  have hneg : ((all_matching_pairs chirps a b).map (fun p =>
      ((p.2, p.1).1.local_timestamp_us : ℚ) - ((p.2, p.1).2.local_timestamp_us : ℚ))).sum
      = -((all_matching_pairs chirps a b).map (fun p =>
          (p.1.local_timestamp_us : ℚ) - (p.2.local_timestamp_us : ℚ))).sum := by
    rw [← sum_map_neg_pointwise]
    congr 1
    apply List.map_congr_left
    intro p _
    simp
  rw [hneg, neg_div]

/-- C26: for every buffer in which no two chirps share both `node_id` and
`sequence_number` and all local timestamps are below 2^31, `calculate_offset`
is antisymmetric: `calculate_offset a b = -calculate_offset b a` for all nodes
`a`, `b`, and `calculate_offset a a = 0`. -/
theorem calculate_offset_antisymmetric (chirps : List ChirpTimestamp) (a b : Int)
    (huniq : chirps.Pairwise (fun c d =>
      ¬ (c.node_id = d.node_id ∧ c.sequence_number = d.sequence_number)))
    (hsmall : ∀ c ∈ chirps, c.local_timestamp_us < 2147483648) :
    calculate_offset chirps a b = -calculate_offset chirps b a
      ∧ calculate_offset chirps a a = 0 := by
  have hab := calculate_offset_eq_mean_all chirps a b huniq hsmall
  have hba := calculate_offset_eq_mean_all chirps b a huniq hsmall
  have haa := calculate_offset_eq_mean_all chirps a a huniq hsmall
  constructor
  · rw [hab, hba, mean_over_all_pairs_swap chirps b a]
  · have hself := mean_over_all_pairs_swap chirps a a
    rw [haa]
    linarith

/-- C26 witness: the two-node scenario, where the offsets are 10 and -10. -/
theorem calculate_offset_antisymmetric_witness :
    calculate_offset two_node_state.recent_chirps 0 1
        = -calculate_offset two_node_state.recent_chirps 1 0
      ∧ calculate_offset two_node_state.recent_chirps 0 0 = 0 :=
  have htwo : two_node_state.recent_chirps =
      [{ node_id := 0, local_timestamp_us := 10, remote_timestamp_us := 0,
         signal_strength_dbm := -50, sequence_number := 1 },
       { node_id := 1, local_timestamp_us := 0, remote_timestamp_us := 0,
         signal_strength_dbm := -50, sequence_number := 1 }] := by
    simp [two_node_state, TDOASync.add_chirp_timestamp, TDOASync.new, push_chirp,
      TDOA_MAX_CHIRPS]
  calculate_offset_antisymmetric two_node_state.recent_chirps 0 1
    (by rw [htwo]; simp)
    (by rw [htwo]; simp)

end PhenixPhantom
